import Mathlib

/-!
Matrix-Tetromino: simulation core.

A shallow embedding of the simulation layer of `src/main.cpp` (collision test,
landing, per-monitor row clearing, gravity shift, fill tracking and the
per-tick `Update`), followed by theorems about it.

Modelling conventions
* C `int` values are `Int`; no operation of the core overflows for grid-sized
  values, so no wrap-around is modelled.  C `/` and `%` on `int` are
  `Int.tdiv` and `Int.tmod` (truncation towards zero).
* C `float` values are rationals and float arithmetic is taken as exact; the
  cast `(int)x` is truncation towards zero (`truncInt`), `(float)n` is the
  cast of an integer.
* `g_landed` (a vector of rows of `LandedCell`) is a total map from
  `(row, col)` to cells; an assignment `g_landed[r][c] = v` is `setCell`.
* A counted `for` loop is a structural recursion whose count is the exact
  number of iterations of the C loop (`forUp`, `forDown`); a loop that leaves
  early (`break`, `return`, `goto`) is a search (`anyUp`, `findUp`).
* `rand()` reads the next element of an explicit stream of draws (`Rng`).
* Rendering state (device contexts, bitmaps, cached tail colours) is left out:
  it is never read by the simulation.
-/

namespace MatrixTetromino

/-! ## Constants -/

/-- Pixel size of one grid cell (`CELL`). -/
def CELL : Int := 16

/-- Fill fraction at which a monitor starts a clear (`FILL_CLEAR_PCT = 0.30f`). -/
def FILL_CLEAR_PCT : ℚ := 30 / 100

/-- Number of content rows collected for one clear (`ROWS_TO_CLEAR`). -/
def ROWS_TO_CLEAR : Nat := 4

/-- The `RGB(r, g, b)` colour word: red in the low byte. -/
def RGB (r g b : Nat) : Nat := r + g * 256 + b * 65536

/-- Tetromino colours, indexed by piece type (`TETRIS_COLORS`). -/
def TETRIS_COLORS : List Nat :=
  [RGB 0 255 100, RGB 0 200 80, RGB 50 255 130, RGB 0 180 60,
   RGB 30 230 90, RGB 0 160 70, RGB 80 255 140]

/-- The piece catalogue `PIECES[type].cells[rotation][row][col]`, 1 = filled. -/
def PIECES : List (List (List (List Nat))) :=
  [ -- I
    [ [[0,0,0,0],[1,1,1,1],[0,0,0,0],[0,0,0,0]],
      [[0,0,1,0],[0,0,1,0],[0,0,1,0],[0,0,1,0]],
      [[0,0,0,0],[0,0,0,0],[1,1,1,1],[0,0,0,0]],
      [[0,1,0,0],[0,1,0,0],[0,1,0,0],[0,1,0,0]] ],
    -- O
    [ [[0,1,1,0],[0,1,1,0],[0,0,0,0],[0,0,0,0]],
      [[0,1,1,0],[0,1,1,0],[0,0,0,0],[0,0,0,0]],
      [[0,1,1,0],[0,1,1,0],[0,0,0,0],[0,0,0,0]],
      [[0,1,1,0],[0,1,1,0],[0,0,0,0],[0,0,0,0]] ],
    -- T
    [ [[0,1,0,0],[1,1,1,0],[0,0,0,0],[0,0,0,0]],
      [[0,1,0,0],[0,1,1,0],[0,1,0,0],[0,0,0,0]],
      [[0,0,0,0],[1,1,1,0],[0,1,0,0],[0,0,0,0]],
      [[0,1,0,0],[1,1,0,0],[0,1,0,0],[0,0,0,0]] ],
    -- S
    [ [[0,1,1,0],[1,1,0,0],[0,0,0,0],[0,0,0,0]],
      [[0,1,0,0],[0,1,1,0],[0,0,1,0],[0,0,0,0]],
      [[0,0,0,0],[0,1,1,0],[1,1,0,0],[0,0,0,0]],
      [[1,0,0,0],[1,1,0,0],[0,1,0,0],[0,0,0,0]] ],
    -- Z
    [ [[1,1,0,0],[0,1,1,0],[0,0,0,0],[0,0,0,0]],
      [[0,0,1,0],[0,1,1,0],[0,1,0,0],[0,0,0,0]],
      [[0,0,0,0],[1,1,0,0],[0,1,1,0],[0,0,0,0]],
      [[0,1,0,0],[1,1,0,0],[1,0,0,0],[0,0,0,0]] ],
    -- J
    [ [[1,0,0,0],[1,1,1,0],[0,0,0,0],[0,0,0,0]],
      [[0,1,1,0],[0,1,0,0],[0,1,0,0],[0,0,0,0]],
      [[0,0,0,0],[1,1,1,0],[0,0,1,0],[0,0,0,0]],
      [[0,1,0,0],[0,1,0,0],[1,1,0,0],[0,0,0,0]] ],
    -- L
    [ [[0,0,1,0],[1,1,1,0],[0,0,0,0],[0,0,0,0]],
      [[0,1,0,0],[0,1,0,0],[0,1,1,0],[0,0,0,0]],
      [[0,0,0,0],[1,1,1,0],[1,0,0,0],[0,0,0,0]],
      [[1,1,0,0],[0,1,0,0],[0,1,0,0],[0,0,0,0]] ] ]

/-- The test `cells[r][c]` of `PIECES[pieceType].cells[rotation]` (non-zero = occupied). -/
def maskCell (pieceType rotation : Int) (r c : Nat) : Bool :=
  ((((PIECES.getD pieceType.toNat []).getD rotation.toNat []).getD r []).getD c 0) != 0

/-! ## Data model -/

/-- One cell of the landed grid (`struct LandedCell`). -/
structure LandedCell where
  filled : Bool
  color : Nat
  brightness : Int
  deriving DecidableEq, Repr

/-- The cell value `{false, 0, 0}`. -/
def emptyCell : LandedCell := ⟨false, 0, 0⟩

/-- The landed grid `g_landed[row][col]`. -/
abbrev Landed := Int → Int → LandedCell

/-- The assignment `g_landed[r][c] = v`. -/
def setCell (g : Landed) (r c : Int) (v : LandedCell) : Landed :=
  fun r' c' => if r' = r ∧ c' = c then v else g r' c'

/-- Grid-coordinate bounds of one monitor, inclusive-exclusive (`struct MonitorGrid`). -/
structure MonitorGrid where
  left : Int
  top : Int
  right : Int
  bottom : Int
  deriving DecidableEq, Repr, Inhabited

/-- A region lies inside a grid of `gridRows` rows and `gridCols` columns. -/
def MonitorGrid.Inside (m : MonitorGrid) (gridRows gridCols : Int) : Prop :=
  0 ≤ m.top ∧ m.top ≤ m.bottom ∧ m.bottom ≤ gridRows ∧
  0 ≤ m.left ∧ m.left ≤ m.right ∧ m.right ≤ gridCols

instance (m : MonitorGrid) (gridRows gridCols : Int) : Decidable (m.Inside gridRows gridCols) := by
  unfold MonitorGrid.Inside; infer_instance

/-- One falling stream (`struct MatrixStream`), without its rendering caches. -/
structure MatrixStream where
  col : Int
  y : ℚ
  speed : ℚ
  length : Int
  chars : List Nat
  pieceType : Int
  rotation : Int
  pieceColor : Nat
  ticksToRotate : Int
  hardDropping : Bool
  origSpeed : ℚ
  ticksToHardDrop : Int
  monitorIdx : Int
  hasPiece : Bool
  deriving DecidableEq, Inhabited

/-- Phase of a monitor's clear animation (`enum ClearPhase`). -/
inductive ClearPhase where
  | CLEAR_IDLE
  | CLEAR_FLASH
  | CLEAR_DROP
  deriving DecidableEq, Repr, Inhabited

open ClearPhase

/-- Per-monitor clear tracking (`struct MonitorClearInfo`). -/
structure MonitorClearInfo where
  monIdx : Int
  phase : ClearPhase
  flashTick : Int
  rows : List Int
  dropOffset : ℚ
  dropTarget : ℚ
  lowestRow : Int
  highestRow : Int
  deriving DecidableEq, Inhabited

/-! ## Loops and casts -/

/-- The cast `(int)x` of a float: truncation towards zero. -/
def truncInt (x : ℚ) : Int := Int.tdiv x.num x.den

/-- Run `body i` for `i = start, start + 1, …`, `count` times. -/
def forUp {σ : Type} (body : Int → σ → σ) : Nat → Int → σ → σ
  | 0, _, s => s
  | k + 1, i, s => forUp body k (i + 1) (body i s)

/-- Run `body i` for `i = start, start - 1, …`, `count` times. -/
def forDown {σ : Type} (body : Int → σ → σ) : Nat → Int → σ → σ
  | 0, _, s => s
  | k + 1, i, s => forDown body k (i - 1) (body i s)

/-- Whether `p i` holds for one of `i = start, start + 1, …` (`count` values), leaving at the first. -/
def anyUp (p : Int → Bool) : Nat → Int → Bool
  | 0, _ => false
  | k + 1, i => if p i then true else anyUp p k (i + 1)

/-- The first of `i = start, start + 1, …` (`count` values) with `p i`, if any. -/
def findUp (p : Int → Bool) : Nat → Int → Option Int
  | 0, _ => none
  | k + 1, i => if p i then some i else findUp p k (i + 1)

/-! ## Collision and landing -/

/-- Head row of a stream (`GetPieceBottomRow`). -/
def GetPieceBottomRow (s : MatrixStream) : Int := truncInt s.y

/-- The body of the double loop of `CanPieceFitAt` for one mask cell:
`true` = go on with the next cell, `false` = `return false`. -/
def cellFits (pieceType rotation gridRow gridCol : Int) (mon : MonitorGrid) (landed : Landed)
    (r c : Nat) : Bool :=
  if !maskCell pieceType rotation r c then true
  else
    let gr := gridRow + (r : Int)
    let gc := gridCol + (c : Int) - 1
    if gr < mon.top then true
    else if gc < mon.left || gc ≥ mon.right then true
    else if gr ≥ mon.bottom then false
    else if (landed gr gc).filled then false
    else true

/-- Collision test (`CanPieceFitAt`). -/
def CanPieceFitAt (pieceType rotation gridRow gridCol : Int) (mon : MonitorGrid)
    (landed : Landed) : Bool :=
  (List.range 4).all fun r => (List.range 4).all fun c =>
    cellFits pieceType rotation gridRow gridCol mon landed r c

/-- The body of the double loop of `LandPiece` for one mask cell. -/
def landCell (gridRows gridCols : Int) (s : MatrixStream) (headRow pieceCol : Int)
    (landed : Landed) (r c : Nat) : Landed :=
  if !maskCell s.pieceType s.rotation r c then landed
  else
    let gr := headRow + (r : Int)
    let gc := pieceCol + (c : Int) - 1
    if gr ≥ 0 ∧ gr < gridRows ∧ gc ≥ 0 ∧ gc < gridCols then
      setCell landed gr gc ⟨true, s.pieceColor, 255⟩
    else landed

/-- Commit of the piece of a stream into the landed grid (`LandPiece`). -/
def LandPiece (gridRows gridCols : Int) (landed : Landed) (s : MatrixStream) : Landed :=
  let headRow := truncInt s.y
  let pieceCol := s.col
  (List.range 4).foldl (fun g r =>
    (List.range 4).foldl (fun g c => landCell gridRows gridCols s headRow pieceCol g r c) g)
    landed

/-! ## Row clearing -/

/-- The inner column loop `for c in [left, right): if filled then hasContent`. -/
def rowHasContent (m : MonitorGrid) (landed : Landed) (r : Int) : Bool :=
  anyUp (fun c => (landed r c).filled) (m.right - m.left).toNat m.left

/-- The collecting loop of `StartClearForMonitor`: from row `r` upwards (decreasing
index), while fewer than `ROWS_TO_CLEAR` rows were collected. -/
def collectContentRows (m : MonitorGrid) (landed : Landed) : Nat → Int → List Int → List Int
  | 0, _, contentRows => contentRows
  | k + 1, r, contentRows =>
    if contentRows.length < ROWS_TO_CLEAR then
      collectContentRows m landed k (r - 1)
        (if rowHasContent m landed r then contentRows ++ [r] else contentRows)
    else contentRows

/-- Start of a clear on monitor `m` (`StartClearForMonitor`, with `m = g_monitors[mci.monIdx]`). -/
def StartClearForMonitor (m : MonitorGrid) (landed : Landed) (mci : MonitorClearInfo) :
    MonitorClearInfo :=
  let mci1 := { mci with dropOffset := 0, lowestRow := -1, highestRow := -1 }
  let contentRows := collectContentRows m landed (m.bottom - m.top).toNat (m.bottom - 1) []
  match contentRows.head?, contentRows.getLast? with
  | some lowest, some highest =>
    let rows := forUp (fun r (rows : List Int) => rows ++ [r]) (lowest + 1 - highest).toNat highest []
    let span := lowest - highest + 1
    { mci1 with
      lowestRow := lowest
      highestRow := highest
      rows := rows
      dropTarget := ((span * CELL : Int) : ℚ)
      phase := CLEAR_FLASH
      flashTick := 20 }
  | _, _ => mci1

/-- The row loop of `ApplyClearAndStartDrop`: every cell of the rows in columns
`[left, right)` becomes `{false, 0, 0}`. -/
def clearRows (m : MonitorGrid) (rows : List Int) (landed : Landed) : Landed :=
  rows.foldl (fun g r =>
    forUp (fun c g => setCell g r c emptyCell) (m.right - m.left).toNat m.left g) landed

/-- Commit of a clear and start of the drop animation (`ApplyClearAndStartDrop`). -/
def ApplyClearAndStartDrop (m : MonitorGrid) (landed : Landed) (mci : MonitorClearInfo) :
    Landed × MonitorClearInfo :=
  (clearRows m mci.rows landed, { mci with dropOffset := 0, phase := CLEAR_DROP })

/-- The search for `topContent` in `ApplyGravityForMonitor`: the first row from the top
with a filled cell, `m.bottom` when there is none. -/
def topContentRow (m : MonitorGrid) (landed : Landed) : Int :=
  (findUp (fun r => rowHasContent m landed r) (m.bottom - m.top).toNat m.top).getD m.bottom

/-- The shift loop of `ApplyGravityForMonitor`: from `bottom - 1` up to
`topContent + numRows`, row `r` receives row `r - numRows`. -/
def shiftRowsDown (m : MonitorGrid) (numRows topContent : Int) (landed : Landed) : Landed :=
  forDown (fun r g =>
      let src := r - numRows
      forUp (fun c g => setCell g r c (g src c)) (m.right - m.left).toNat m.left g)
    (m.bottom - (topContent + numRows)).toNat (m.bottom - 1) landed

/-- The last loop of `ApplyGravityForMonitor`: rows `r` from `topContent` while
`r < topContent + numRows && r < m.bottom` are emptied. -/
def clearVacated (m : MonitorGrid) (numRows topContent : Int) (landed : Landed) : Landed :=
  forUp (fun r g =>
      forUp (fun c g => setCell g r c emptyCell) (m.right - m.left).toNat m.left g)
    (min (topContent + numRows) m.bottom - topContent).toNat topContent landed

/-- Structure-preserving gravity shift (`ApplyGravityForMonitor`). -/
def ApplyGravityForMonitor (m : MonitorGrid) (numRows : Int) (landed : Landed) : Landed :=
  let topContent := topContentRow m landed
  clearVacated m numRows topContent (shiftRowsDown m numRows topContent landed)

/-- The counting loop of `GetMonitorFillPct`. -/
def countFilledRows (m : MonitorGrid) (landed : Landed) : Int :=
  forUp (fun r (filledRows : Int) => if rowHasContent m landed r then filledRows + 1 else filledRows)
    (m.bottom - m.top).toNat m.top 0

/-- Fraction of the rows of a monitor that have content (`GetMonitorFillPct`). -/
def GetMonitorFillPct (m : MonitorGrid) (landed : Landed) : ℚ :=
  let monH := m.bottom - m.top
  if monH ≤ 0 then 0
  else ((countFilledRows m landed : Int) : ℚ) / ((monH : Int) : ℚ)

/-- One step of the clear state machine of one monitor: the body of the first loop of
`Update`, with `m = g_monitors[mci.monIdx]`. -/
def updateClear (m : MonitorGrid) (landed : Landed) (mci : MonitorClearInfo) :
    Landed × MonitorClearInfo :=
  match mci.phase with
  | CLEAR_IDLE =>
    let fillPct := GetMonitorFillPct m landed
    if fillPct ≥ FILL_CLEAR_PCT then (landed, StartClearForMonitor m landed mci)
    else (landed, mci)
  | CLEAR_FLASH =>
    let mci1 := { mci with flashTick := mci.flashTick - 1 }
    if mci1.flashTick ≤ 0 then ApplyClearAndStartDrop m landed mci1
    else (landed, mci1)
  | CLEAR_DROP =>
    if mci.dropOffset < mci.dropTarget then
      let dropSpeed : ℚ := 3 + mci.dropOffset * (5 / 100)
      let mci1 := { mci with dropOffset := mci.dropOffset + dropSpeed }
      if mci1.dropOffset ≥ mci1.dropTarget then
        (ApplyGravityForMonitor m (mci1.rows.length : Int) landed,
          { mci1 with dropOffset := mci1.dropTarget, phase := CLEAR_IDLE })
      else (landed, mci1)
    else (landed, { mci with phase := CLEAR_IDLE })

/-! ## Random draws -/

/-- The stream of values that successive calls of `rand()` return. -/
abbrev Rng := Nat → Nat

/-- The largest value of `rand()` (`RAND_MAX` of the C runtime this Windows program
links against, `0x7fff`). -/
def RAND_MAX : Nat := 32767

/-- One call of `rand()`: the value drawn and the remaining stream. -/
def rand (rng : Rng) : Nat × Rng := (rng 0, fun i => rng (i + 1))

/-- Integer draw `lo + rand() % (hi - lo + 1)` (`RandInt`). -/
def RandInt (lo hi : Int) (rng : Rng) : Int × Rng :=
  let d := rand rng
  (lo + Int.tmod (d.1 : Int) (hi - lo + 1), d.2)

/-- Float draw `lo + (float)rand() / RAND_MAX * (hi - lo)` (`RandFloat`). -/
def RandFloat (lo hi : ℚ) (rng : Rng) : ℚ × Rng :=
  let d := rand rng
  (lo + (d.1 : ℚ) / (RAND_MAX : ℚ) * (hi - lo), d.2)

/-- A random glyph: half-width katakana, digit or capital letter (`RandMatrixChar`). -/
def RandMatrixChar (rng : Rng) : Nat × Rng :=
  let d := rand rng
  let r := d.1 % 3
  let e := rand d.2
  if r = 0 then (0xFF66 + e.1 % 56, e.2)
  else if r = 1 then ('0'.toNat + e.1 % 10, e.2)
  else ('A'.toNat + e.1 % 26, e.2)

/-- The loop `for j < length: chars[j] = RandMatrixChar()`. -/
def randChars : Nat → Rng → List Nat × Rng
  | 0, rng => ([], rng)
  | k + 1, rng =>
    let ch := RandMatrixChar rng
    let rest := randChars k ch.2
    (ch.1 :: rest.1, rest.2)

/-! ## Streams -/

/-- Respawn of a stream within its monitor (`ResetStream`, with `m = g_monitors[s.monitorIdx]`). -/
def ResetStream (m : MonitorGrid) (s : MatrixStream) (rng : Rng) : MatrixStream × Rng :=
  let monH := m.bottom - m.top
  let col := RandInt m.left (m.right - 1) rng
  let y := RandFloat (((m.top - 20 : Int) : ℚ)) (((m.top - 4 : Int) : ℚ)) col.2
  let speed := RandFloat (8 / 100) (12 / 10) y.2
  let maxLen0 : Int :=
    if speed.1 < 3 / 10 then Int.tdiv monH 2
    else if speed.1 < 6 / 10 then Int.tdiv monH 3
    else Int.tdiv monH 5
  let maxLen1 : Int := Int.tdiv (maxLen0 * 5) 4
  let maxLen : Int := if maxLen1 < 8 then 8 else maxLen1
  let length := RandInt 6 maxLen speed.2
  let chars := randChars length.1.toNat length.2
  let pieceType := RandInt 0 6 chars.2
  let rotation := RandInt 0 3 pieceType.2
  let ticksToRotate := RandInt 10 50 rotation.2
  let ticksToHardDrop := RandInt 200 800 ticksToRotate.2
  ({ s with
      col := col.1
      y := y.1
      speed := speed.1
      length := length.1
      chars := chars.1
      pieceType := pieceType.1
      rotation := rotation.1
      pieceColor := TETRIS_COLORS.getD pieceType.1.toNat 0
      ticksToRotate := ticksToRotate.1
      hardDropping := false
      origSpeed := speed.1
      ticksToHardDrop := ticksToHardDrop.1 },
    ticksToHardDrop.2)

/-- Rotation timer and hard-drop trigger of one stream in `Update`. -/
def updateTimers (m : MonitorGrid) (landed : Landed) (s : MatrixStream) (rng : Rng) :
    MatrixStream × Rng :=
  if s.hasPiece then
    let s1 : MatrixStream := { s with ticksToRotate := s.ticksToRotate - 1 }
    let a : MatrixStream × Rng :=
      if s1.ticksToRotate ≤ 0 then
        let k := RandInt 1 3 rng
        let newRot := Int.tmod (s1.rotation + k.1) 4
        let s2 : MatrixStream :=
          if CanPieceFitAt s1.pieceType newRot (truncInt s1.y) s1.col m landed then
            { s1 with rotation := newRot }
          else s1
        let t := RandInt 10 50 k.2
        ({ s2 with ticksToRotate := t.1 }, t.2)
      else (s1, rng)
    if !a.1.hardDropping then
      let s3 : MatrixStream := { a.1 with ticksToHardDrop := a.1.ticksToHardDrop - 1 }
      if s3.ticksToHardDrop ≤ 0 then
        let v := RandFloat (15 / 10) 5 a.2
        ({ s3 with hardDropping := true, origSpeed := s3.speed, speed := v.1 }, v.2)
      else (s3, a.2)
    else a
  else (s, rng)

/-- The random change of one glyph of the tail in `Update`. -/
def mutateTail (s : MatrixStream) (rng : Rng) : MatrixStream × Rng :=
  let d := rand rng
  if d.1 % 5 = 0 ∧ s.chars.length > 0 then
    let i := rand d.2
    let idx := i.1 % s.chars.length
    let ch := RandMatrixChar i.2
    ({ s with chars := s.chars.set idx ch.1 }, ch.2)
  else (s, d.2)

/-- The collision scan of `Update`: the value of `landRow` after the loop over
`testRow = checkFrom … endRow`, `-999` when every row fits. -/
def scanLandRow (pieceType rotation col : Int) (mon : MonitorGrid) (landed : Landed)
    (checkFrom endRow : Int) : Int :=
  match findUp (fun testRow => !CanPieceFitAt pieceType rotation testRow col mon landed)
      (endRow + 1 - checkFrom).toNat checkFrom with
  | some testRow => testRow - 1
  | none => -999

/-- The flag `anyOnScreen` of `Update`: some mask cell of the piece at `landRow` has its
row inside the grid. -/
def anyOnScreen (gridRows : Int) (pieceType rotation landRow : Int) : Bool :=
  (List.range 4).any fun r => (List.range 4).any fun c2 =>
    maskCell pieceType rotation r c2 && decide (landRow + (r : Int) ≥ 0) &&
      decide (landRow + (r : Int) < gridRows)

/-- The landing commit of `Update` for a found `landRow`, before the respawn. -/
def commitLanding (gridRows gridCols : Int) (landed : Landed) (s : MatrixStream)
    (landRow : Int) : Landed × MatrixStream :=
  if landRow ≥ -3 then
    let s1 : MatrixStream := { s with y := (landRow : ℚ) }
    if anyOnScreen gridRows s1.pieceType s1.rotation landRow then
      (LandPiece gridRows gridCols landed s1, s1)
    else (landed, s1)
  else (landed, s)

/-- Movement, collision scan, landing and respawn of one stream in `Update`
(from `float newY = …` to the end of the loop body, the tail change apart). -/
def moveStream (gridRows gridCols : Int) (mon : MonitorGrid) (speedMul : ℚ)
    (landed : Landed) (s : MatrixStream) (rng : Rng) : Landed × MatrixStream × Rng :=
  let newY := s.y + s.speed * speedMul
  let startRow := truncInt s.y
  let endRow := truncInt newY
  if !s.hasPiece then
    let s1 : MatrixStream := { s with y := newY }
    if truncInt s1.y - s1.length > mon.bottom + 10 then
      let r := ResetStream mon s1 rng
      (landed, r.1, r.2)
    else (landed, s1, rng)
  else
    let landRow :=
      if endRow ≥ -3 then
        let checkFrom := if startRow < -3 then -3 else startRow
        scanLandRow s.pieceType s.rotation s.col mon landed checkFrom endRow
      else -999
    if endRow ≥ -3 ∧ landRow ≠ -999 then
      let c := commitLanding gridRows gridCols landed s landRow
      let r := ResetStream mon c.2 rng
      (c.1, r.1, r.2)
    else
      let s1 : MatrixStream := { s with y := newY }
      if truncInt s1.y - s1.length > mon.bottom + 10 then
        let r := ResetStream mon s1 rng
        (landed, r.1, r.2)
      else (landed, s1, rng)

/-- The speed multiplier of a stream: `monitorClearing ? 0.20f : 1.0f`. -/
def speedMulOf (monitorClearing : Bool) : ℚ := if monitorClearing then 20 / 100 else 1

/-- The stream and the remaining draws at the point of `Update` where its movement is
computed: after the rotation timer, the hard-drop trigger and the tail change. -/
def preMove (mon : MonitorGrid) (landed : Landed) (s : MatrixStream) (rng : Rng) :
    MatrixStream × Rng :=
  let t := updateTimers mon landed s rng
  mutateTail t.1 t.2

/-- The body of the stream loop of `Update` for one stream of monitor `mon`, where
`monitorClearing` says whether the clear phase of that monitor is not idle. -/
def updateStream (gridRows gridCols : Int) (mon : MonitorGrid) (monitorClearing : Bool)
    (landed : Landed) (s : MatrixStream) (rng : Rng) : Landed × MatrixStream × Rng :=
  let speedMul : ℚ := speedMulOf monitorClearing
  let u := preMove mon landed s rng
  moveStream gridRows gridCols mon speedMul landed u.1 u.2

/-- The last loop of `Update`: every brightness above 80 drops by 3. -/
def fadeLanded (gridRows gridCols : Int) (landed : Landed) : Landed :=
  forUp (fun r g =>
      forUp (fun c g =>
          if (g r c).brightness > 80 then
            setCell g r c { g r c with brightness := (g r c).brightness - 3 }
          else g)
        gridCols.toNat 0 g)
    gridRows.toNat 0 landed

/-- The simulation state that `Update` reads and writes. -/
structure World where
  landed : Landed
  monitorClears : List MonitorClearInfo
  streams : List MatrixStream
  rng : Rng

/-- The first loop of `Update`: every monitor's clear state machine advances once. -/
def updateClears (monitors : List MonitorGrid) (landed : Landed) :
    List MonitorClearInfo → Landed × List MonitorClearInfo
  | [] => (landed, [])
  | mci :: rest =>
    let a := updateClear (monitors.getD mci.monIdx.toNat default) landed mci
    let b := updateClears monitors a.1 rest
    (b.1, a.2 :: b.2)

/-- The second loop of `Update`: every stream advances once. -/
def updateStreams (gridRows gridCols : Int) (monitors : List MonitorGrid)
    (monitorClears : List MonitorClearInfo) (landed : Landed) (rng : Rng) :
    List MatrixStream → Landed × List MatrixStream × Rng
  | [] => (landed, [], rng)
  | s :: rest =>
    let monitorClearing : Bool :=
      if s.monitorIdx < (monitorClears.length : Int) then
        (monitorClears.getD s.monitorIdx.toNat default).phase != CLEAR_IDLE
      else false
    let a := updateStream gridRows gridCols (monitors.getD s.monitorIdx.toNat default)
      monitorClearing landed s rng
    let b := updateStreams gridRows gridCols monitors monitorClears a.1 a.2.2 rest
    (b.1, a.2.1 :: b.2.1, b.2.2)

/-- One tick of the simulation (`Update`): clear controllers, then streams, then fade. -/
def Update (gridRows gridCols : Int) (monitors : List MonitorGrid) (w : World) : World :=
  let a := updateClears monitors w.landed w.monitorClears
  let b := updateStreams gridRows gridCols monitors a.2 a.1 w.rng w.streams
  { landed := fadeLanded gridRows gridCols b.1
    monitorClears := a.2
    streams := b.2.1
    rng := b.2.2 }

/-! ## Predicates and example data used in the statements -/

/-- Mask cell `(r, c)` of the piece of `s`, anchored at `(headRow, pieceCol)`, is occupied,
lands on `(gr, gc)`, and `(gr, gc)` is inside the grid: the condition under which
`LandPiece` writes `(gr, gc)` at step `(r, c)`. -/
def landWrites (gridRows gridCols : Int) (s : MatrixStream) (headRow pieceCol : Int)
    (r c : Nat) (gr gc : Int) : Prop :=
  maskCell s.pieceType s.rotation r c = true ∧ gr = headRow + (r : Int) ∧
    gc = pieceCol + (c : Int) - 1 ∧ 0 ≤ gr ∧ gr < gridRows ∧ 0 ≤ gc ∧ gc < gridCols

/-- A 10 x 10 grid just after an O piece has landed on its floor in columns 1..2
(rows 8..9), before the fade of that tick. -/
def landedOGrid : Landed :=
  fun r c =>
    if (r = 8 ∨ r = 9) ∧ (c = 1 ∨ c = 2) then ⟨true, RGB 0 200 80, 255⟩ else emptyCell

/-- A second O piece with head row 8 in column 5. -/
def streamO : MatrixStream :=
  { col := 5, y := ((8 : Int) : ℚ), speed := 1, length := 6, chars := [],
    pieceType := 1, rotation := 0, pieceColor := RGB 0 200 80, ticksToRotate := 30,
    hardDropping := false, origSpeed := 1, ticksToHardDrop := 500, monitorIdx := 0,
    hasPiece := true }

/-- Row `r` of region `m` has a filled cell in columns `[left, right)`. -/
def RowFilled (m : MonitorGrid) (landed : Landed) (r : Int) : Prop :=
  ∃ c : Int, m.left ≤ c ∧ c < m.right ∧ (landed r c).filled = true

/-- Row `tc` is the topmost row of region `m` that has a filled cell. -/
def IsTopContent (m : MonitorGrid) (landed : Landed) (tc : Int) : Prop :=
  m.top ≤ tc ∧ tc < m.bottom ∧ RowFilled m landed tc ∧
    ∀ r : Int, m.top ≤ r → r < tc → ¬ RowFilled m landed r

/-- A 10 x 10 region at the origin. -/
def region10 : MonitorGrid := ⟨0, 0, 10, 10⟩

/-- A grid whose only filled cell is at row 2, column 3. -/
def singleCellGrid : Landed :=
  fun r c => if r = 2 ∧ c = 3 then ⟨true, RGB 0 255 100, 200⟩ else emptyCell

/-- Row `lo` is the bottom-most row of region `m` that has a filled cell. -/
def IsLowestContent (m : MonitorGrid) (landed : Landed) (lo : Int) : Prop :=
  (m.top ≤ lo ∧ lo < m.bottom) ∧ RowFilled m landed lo ∧
    ∀ r : Int, lo < r → r < m.bottom → ¬ RowFilled m landed r

/-- Row `hi` is the `ROWS_TO_CLEAR`-th content row of region `m` counting upward from
the bottom, or the topmost content row when fewer rows have content: the content rows
from `hi` down to the floor number `ROWS_TO_CLEAR`, or fewer with none above `hi`. -/
def IsHighestOfSpan (m : MonitorGrid) (landed : Landed) (hi : Int) : Prop :=
  (m.top ≤ hi ∧ hi < m.bottom) ∧ RowFilled m landed hi ∧
    ∃ S : Finset Int,
      (∀ r : Int, r ∈ S ↔ (hi ≤ r ∧ r < m.bottom) ∧ RowFilled m landed r) ∧
      (S.card = ROWS_TO_CLEAR ∨
        (S.card < ROWS_TO_CLEAR ∧ ∀ r : Int, m.top ≤ r → r < hi → ¬ RowFilled m landed r))

/-- The ascending list of the rows `hi, hi + 1, …, lo`. -/
def rowSpan (hi lo : Int) : List Int :=
  (List.range (lo + 1 - hi).toNat).map (fun i : Nat => hi + (i : Int))

/-- A grid whose rows 6..9 are full in columns 0..9. -/
def fullRowsGrid : Landed :=
  fun r c => if 6 ≤ r ∧ r ≤ 9 ∧ 0 ≤ c ∧ c < 10 then ⟨true, RGB 0 255 100, 255⟩ else emptyCell

/-- The clear state of a monitor after initialisation (idle, no rows recorded). -/
def idleInfo : MonitorClearInfo :=
  { monIdx := 0, phase := CLEAR_IDLE, flashTick := 0, rows := [], dropOffset := 0,
    dropTarget := 0, lowestRow := -1, highestRow := -1 }

/-- The controller of monitor `m` over `k` ticks. Between two controller steps the rest of
the tick (other monitors, streams, fade) may change the landed grid: `env i` is that
change ahead of step `i + 1`. -/
def runClear (m : MonitorGrid) (env : Nat → Landed → Landed) :
    Nat → Landed × MonitorClearInfo → Landed × MonitorClearInfo
  | 0, st => st
  | k + 1, st =>
    let st' := runClear m env k st
    updateClear m (env k st'.1) st'.2

/-- The phase that follows a phase in the clear cycle Idle, Flash, Drop, Idle. -/
def nextPhase : ClearPhase → ClearPhase
  | CLEAR_IDLE => CLEAR_FLASH
  | CLEAR_FLASH => CLEAR_DROP
  | CLEAR_DROP => CLEAR_IDLE

/-- A grid whose row 9 (the floor row of `region10`) is full in columns 0..9. -/
def floorGrid : Landed :=
  fun r c => if r = 9 ∧ 0 ≤ c ∧ c < 10 then ⟨true, RGB 0 255 100, 80⟩ else emptyCell

/-- An O piece with head row 5 in column 5, falling 6 rows per tick. -/
def fastStream : MatrixStream :=
  { col := 5, y := ((5 : Int) : ℚ), speed := ((6 : Int) : ℚ), length := 6, chars := [],
    pieceType := 1, rotation := 0, pieceColor := RGB 0 200 80, ticksToRotate := 30,
    hardDropping := false, origSpeed := ((6 : Int) : ℚ), ticksToHardDrop := 500,
    monitorIdx := 0, hasPiece := true }

/-- A stream of draws that are all 1. -/
def rngOnes : Rng := fun _ => 1

/-- What every controller state reached from an idle state satisfies: a flash has a
positive drop target, and during the drop `0 ≤ dropOffset < dropTarget`. -/
def ClearInv (mci : MonitorClearInfo) : Prop :=
  (mci.phase = CLEAR_FLASH → 0 < mci.dropTarget) ∧
  (mci.phase = CLEAR_DROP → 0 ≤ mci.dropOffset ∧ mci.dropOffset < mci.dropTarget)

/-- The fade of one cell: a brightness above 80 drops by 3. -/
def fadeCell (v : LandedCell) : LandedCell :=
  if v.brightness > 80 then { v with brightness := v.brightness - 3 } else v

/-- A 10 x 10 grid with one landed cell at row 9, column 0, whose brightness has faded
from 255 to 81 (58 passes). -/
def fadedGrid : Landed :=
  fun r c => if r = 9 ∧ c = 0 then ⟨true, RGB 0 255 100, 81⟩ else emptyCell

/-- A device rectangle in pixel coordinates (`RECT`). -/
structure RECT where
  left : Int
  top : Int
  right : Int
  bottom : Int
  deriving DecidableEq, Repr

/-- The region that `MonitorEnumProc` computes for the device rectangle `lprc`, with the
virtual screen origin `(virtualX, virtualY)` and the grid size of `InitGrid`. -/
def monitorGridOf (gridRows gridCols virtualX virtualY : Int) (lprc : RECT) : MonitorGrid :=
  let left0 := Int.tdiv (lprc.left - virtualX) CELL
  let top0 := Int.tdiv (lprc.top - virtualY) CELL
  let right0 := Int.tdiv (lprc.right - virtualX + CELL - 1) CELL
  let bottom0 := Int.tdiv (lprc.bottom - virtualY + CELL - 1) CELL
  let left1 := if left0 < 0 then 0 else left0
  let top1 := if top0 < 0 then 0 else top0
  let right1 := if right0 > gridCols then gridCols else right0
  let bottom1 := if bottom0 > gridRows then gridRows else bottom0
  ⟨left1, top1, right1, bottom1⟩

/-- Callback of the monitor enumeration (`MonitorEnumProc`): the region of the rectangle
is pushed at the end of `g_monitors`. -/
def MonitorEnumProc (gridRows gridCols virtualX virtualY : Int) (lprc : RECT)
    (monitors : List MonitorGrid) : List MonitorGrid :=
  monitors ++ [monitorGridOf gridRows gridCols virtualX virtualY lprc]

/-- A rectangle lying 20 to 40 pixels to the left of the virtual origin. -/
def leftOfOrigin : RECT := ⟨-40, 0, -20, 16⟩

/-- The landed grid with no filled cell. -/
def emptyGrid : Landed := fun _ _ => emptyCell

/-- The stream `s` (as it is when its movement is computed) lands in this tick: it carries
a piece, its destination row is at least `-3` and the collision scan finds a `landRow`. -/
def Lands (mon : MonitorGrid) (landed : Landed) (s : MatrixStream) (speedMul : ℚ) : Prop :=
  s.hasPiece = true ∧ truncInt (s.y + s.speed * speedMul) ≥ -3 ∧
    scanLandRow s.pieceType s.rotation s.col mon landed
      (if truncInt s.y < -3 then -3 else truncInt s.y)
      (truncInt (s.y + s.speed * speedMul)) ≠ -999

/-- The stream `s`, moved, has scrolled past the floor of its monitor plus the margin:
the test `(int)s.y - s.length > mon.bottom + 10` of `Update` on the new head position. -/
def OffBottom (mon : MonitorGrid) (s : MatrixStream) (speedMul : ℚ) : Prop :=
  truncInt (s.y + s.speed * speedMul) - s.length > mon.bottom + 10

/-- An O piece with head row 2 in column 5, one row per tick, whose rotation timer
expires in this tick. -/
def rotatingStream : MatrixStream :=
  { col := 5, y := ((2 : Int) : ℚ), speed := ((1 : Int) : ℚ), length := 6, chars := [],
    pieceType := 1, rotation := 0, pieceColor := RGB 0 200 80, ticksToRotate := 1,
    hardDropping := false, origSpeed := ((1 : Int) : ℚ), ticksToHardDrop := 500,
    monitorIdx := 0, hasPiece := true }

/-- The stream `rotatingStream` after its timers have run on draws that are all 1. -/
def rotatedStream : MatrixStream :=
  { rotatingStream with rotation := 2, ticksToRotate := 11, ticksToHardDrop := 499 }

/-- An O piece in column 5 whose head is half a row above row 0. -/
def halfAboveStream : MatrixStream :=
  { col := 5, y := -1 / 2, speed := ((1 : Int) : ℚ), length := 6, chars := [],
    pieceType := 1, rotation := 0, pieceColor := RGB 0 200 80, ticksToRotate := 30,
    hardDropping := false, origSpeed := ((1 : Int) : ℚ), ticksToHardDrop := 500,
    monitorIdx := 0, hasPiece := true }

/-- One change of the landed grid: a piece landing, a clear commit, a gravity shift (by a
number of rows) or a decay pass. -/
inductive LandedOp where
  | land (gridRows gridCols : Int) (s : MatrixStream)
  | clear (m : MonitorGrid) (mci : MonitorClearInfo)
  | gravity (m : MonitorGrid) (numRows : Nat)
  | decay (gridRows gridCols : Int)

/-- The landed grid after one change. -/
def applyOp : LandedOp → Landed → Landed
  | .land gridRows gridCols s, g => LandPiece gridRows gridCols g s
  | .clear m mci, g => (ApplyClearAndStartDrop m g mci).1
  | .gravity m numRows, g => ApplyGravityForMonitor m (numRows : Int) g
  | .decay gridRows gridCols, g => fadeLanded gridRows gridCols g

/-- The landed grid after a sequence of changes, first to last. -/
def applyOps (ops : List LandedOp) (g : Landed) : Landed :=
  ops.foldl (fun g op => applyOp op g) g

/-- A cell whose brightness lies in 0..255 and is at least 78 when the cell is filled. -/
def CellOk (v : LandedCell) : Prop :=
  0 ≤ v.brightness ∧ v.brightness ≤ 255 ∧ (v.filled = true → 78 ≤ v.brightness)

/-! ## Accesses to the landed grid -/

/-- The index pair `(row, col)` lies inside a grid of `gridRows` x `gridCols` cells. -/
def InGrid (gridRows gridCols : Int) (p : Int × Int) : Prop :=
  0 ≤ p.1 ∧ p.1 < gridRows ∧ 0 ≤ p.2 ∧ p.2 < gridCols

instance (gridRows gridCols : Int) (p : Int × Int) : Decidable (InGrid gridRows gridCols p) := by
  unfold InGrid; infer_instance

/-- The indices `g_landed[gr][gc]` that the body of the double loop of `CanPieceFitAt`
reads for one mask cell: the read of `.filled`, reached only after the four tests. -/
def cellAccess (pieceType rotation gridRow gridCol : Int) (mon : MonitorGrid)
    (r c : Nat) : List (Int × Int) :=
  if !maskCell pieceType rotation r c then []
  else
    let gr := gridRow + (r : Int)
    let gc := gridCol + (c : Int) - 1
    if gr < mon.top then []
    else if gc < mon.left || gc ≥ mon.right then []
    else if gr ≥ mon.bottom then []
    else [(gr, gc)]

/-- The reads of `CanPieceFitAt` over the mask cells in loop order, up to the first cell
that makes it return `false`. -/
def fitAccessLoop (pieceType rotation gridRow gridCol : Int) (mon : MonitorGrid)
    (landed : Landed) : List (Nat × Nat) → List (Int × Int)
  | [] => []
  | (r, c) :: rest =>
    cellAccess pieceType rotation gridRow gridCol mon r c ++
      (if cellFits pieceType rotation gridRow gridCol mon landed r c then
        fitAccessLoop pieceType rotation gridRow gridCol mon landed rest
      else [])

/-- The mask cells `(r, c)` in the order of the double loop `for r < 4: for c < 4`. -/
def maskCells : List (Nat × Nat) :=
  [(0, 0), (0, 1), (0, 2), (0, 3), (1, 0), (1, 1), (1, 2), (1, 3),
   (2, 0), (2, 1), (2, 2), (2, 3), (3, 0), (3, 1), (3, 2), (3, 3)]

/-- All indices at which `CanPieceFitAt` reads the landed grid. -/
def CanPieceFitAtAccesses (pieceType rotation gridRow gridCol : Int) (mon : MonitorGrid)
    (landed : Landed) : List (Int × Int) :=
  fitAccessLoop pieceType rotation gridRow gridCol mon landed maskCells

/-- The reads of the column loop of the `topContent` search in row `r`: columns from `c`
on, up to and with the first filled cell. -/
def rowScanAccesses (landed : Landed) (r : Int) : Nat → Int → List (Int × Int)
  | 0, _ => []
  | k + 1, c =>
    (r, c) :: (if (landed r c).filled then [] else rowScanAccesses landed r k (c + 1))

/-- The reads of the `topContent` search of `ApplyGravityForMonitor`: rows from `r` on,
up to and with the first row that has content. -/
def searchAccesses (m : MonitorGrid) (landed : Landed) : Nat → Int → List (Int × Int)
  | 0, _ => []
  | k + 1, r =>
    rowScanAccesses landed r (m.right - m.left).toNat m.left ++
      (if rowHasContent m landed r then [] else searchAccesses m landed k (r + 1))

/-- The accesses of the shift loop of `ApplyGravityForMonitor`: for every row `r` and
column `c` of the loop, the read of `g_landed[r - numRows][c]` and the write of
`g_landed[r][c]`. -/
def shiftAccesses (m : MonitorGrid) (numRows topContent : Int) : List (Int × Int) :=
  forDown (fun r acc =>
      forUp (fun c acc => acc ++ [(r - numRows, c), (r, c)]) (m.right - m.left).toNat m.left acc)
    (m.bottom - (topContent + numRows)).toNat (m.bottom - 1) []

/-- The writes of the last loop of `ApplyGravityForMonitor`. -/
def vacatedAccesses (m : MonitorGrid) (numRows topContent : Int) : List (Int × Int) :=
  forUp (fun r acc =>
      forUp (fun c acc => acc ++ [(r, c)]) (m.right - m.left).toNat m.left acc)
    (min (topContent + numRows) m.bottom - topContent).toNat topContent []

/-- All indices at which `ApplyGravityForMonitor` reads or writes the landed grid. -/
def ApplyGravityAccesses (m : MonitorGrid) (numRows : Int) (landed : Landed) :
    List (Int × Int) :=
  searchAccesses m landed (m.bottom - m.top).toNat m.top ++
    shiftAccesses m numRows (topContentRow m landed) ++
    vacatedAccesses m numRows (topContentRow m landed)

/-- Scenario A after 21 undisturbed ticks: the flash is over, the four full rows are
cleared and the controller has just entered the drop phase. -/
def dropStart : Landed × MonitorClearInfo :=
  runClear region10 (fun _ g => g) 21 (fullRowsGrid, idleInfo)

/-- The landed grid and the remaining draws at the point of one tick of `Update` where the
stream loop has updated the streams `pre` and reaches the next stream: after the
controller loop and the updates of `pre`. -/
def streamLoopState (gridRows gridCols : Int) (monitors : List MonitorGrid) (w : World)
    (pre : List MatrixStream) : Landed × Rng :=
  let a := updateClears monitors w.landed w.monitorClears
  let b := updateStreams gridRows gridCols monitors a.2 a.1 w.rng pre
  (b.1, b.2.2)

/-- An O piece with head row 2 in column 5 that falls five rows per tick. -/
def slowedStream : MatrixStream :=
  { col := 5, y := ((2 : Int) : ℚ), speed := ((5 : Int) : ℚ), length := 6, chars := [],
    pieceType := 1, rotation := 0, pieceColor := RGB 0 200 80, ticksToRotate := 30,
    hardDropping := false, origSpeed := ((5 : Int) : ℚ), ticksToHardDrop := 500,
    monitorIdx := 0, hasPiece := true }

/-- Scenario A as a world: one monitor `region10` whose rows 6..9 are full (fill 0.4), its
controller idle, and the stream `slowedStream`. -/
def clearingWorld : World :=
  { landed := fullRowsGrid, monitorClears := [idleInfo], streams := [slowedStream],
    rng := rngOnes }

/-- The same monitor and stream over the empty grid: the controller stays idle. -/
def idleWorld : World :=
  { landed := emptyGrid, monitorClears := [idleInfo], streams := [slowedStream],
    rng := rngOnes }

/-- The stream `rotatingStream` in `region10` over the empty grid, the controller idle. -/
def rotatingWorld : World :=
  { landed := emptyGrid, monitorClears := [idleInfo], streams := [rotatingStream],
    rng := rngOnes }

/-! # Theorems -/

/-! ## Collision test: characterisation -/

/-- A mask cell makes `CanPieceFitAt` return `false` exactly when it is occupied, not
above the region, inside its columns, and below the floor or on a filled cell. -/
theorem cellFits_eq_false_iff (pieceType rotation gridRow gridCol : Int) (mon : MonitorGrid)
    (landed : Landed) (r c : Nat) :
    cellFits pieceType rotation gridRow gridCol mon landed r c = false ↔
      maskCell pieceType rotation r c = true ∧ mon.top ≤ gridRow + (r : Int) ∧
      mon.left ≤ gridCol + (c : Int) - 1 ∧ gridCol + (c : Int) - 1 < mon.right ∧
      (mon.bottom ≤ gridRow + (r : Int) ∨
        (landed (gridRow + (r : Int)) (gridCol + (c : Int) - 1)).filled = true) := by
  unfold cellFits
  cases hm : maskCell pieceType rotation r c
  · simp
  · by_cases h1 : gridRow + (r : Int) < mon.top
    · simp [h1]
    · by_cases h2 : gridCol + (c : Int) - 1 < mon.left
      · simp [h1, h2]
      · by_cases h3 : mon.right ≤ gridCol + (c : Int) - 1
        · simp [h1, h2, h3]
        · by_cases h4 : mon.bottom ≤ gridRow + (r : Int)
          · simp [h1, h2, h3, h4]; omega
          · cases h5 : (landed (gridRow + (r : Int)) (gridCol + (c : Int) - 1)).filled
            · simp [h1, h2, h3, h4, h5]
            · simp [h1, h2, h3, h4, h5]; omega

/-- The collision test fails exactly when some mask cell fails. -/
theorem CanPieceFitAt_eq_false_iff (pieceType rotation gridRow gridCol : Int)
    (mon : MonitorGrid) (landed : Landed) :
    CanPieceFitAt pieceType rotation gridRow gridCol mon landed = false ↔
      ∃ r c : Nat, r < 4 ∧ c < 4 ∧
        cellFits pieceType rotation gridRow gridCol mon landed r c = false := by
  unfold CanPieceFitAt
  rw [← Bool.not_eq_true, List.all_eq_true]
  simp only [List.all_eq_true, List.mem_range, not_forall, Bool.not_eq_true]
  constructor
  · rintro ⟨r, hr, c, hc, h⟩
    exact ⟨r, c, hr, hc, h⟩
  · rintro ⟨r, c, hr, hc, h⟩
    exact ⟨r, hr, c, hc, h⟩

/-- C1: `CanPieceFitAt` returns true if and only if no occupied mask cell `(r, c)` of
`PIECES[pieceType].cells[rotation]`, placed at `gr = row + r`, `gc = col + c - 1`, has
`gr >= region.top`, `region.left <= gc < region.right` and (`gr >= region.bottom` or the
landed cell at `(gr, gc)` filled); for every piece type 0..6, rotation 0..3, all integers
`row`, `col` and every region inside the grid. -/
theorem CanPieceFitAt_iff (gridRows gridCols pieceType rotation row col : Int)
    (region : MonitorGrid) (landed : Landed)
    (_hp : 0 ≤ pieceType ∧ pieceType ≤ 6) (_hr : 0 ≤ rotation ∧ rotation ≤ 3)
    (_hin : region.Inside gridRows gridCols) :
    CanPieceFitAt pieceType rotation row col region landed = true ↔
      ¬ ∃ r c : Nat, r < 4 ∧ c < 4 ∧ maskCell pieceType rotation r c = true ∧
          region.top ≤ row + (r : Int) ∧
          region.left ≤ col + (c : Int) - 1 ∧ col + (c : Int) - 1 < region.right ∧
          (region.bottom ≤ row + (r : Int) ∨
            (landed (row + (r : Int)) (col + (c : Int) - 1)).filled = true) := by
  rw [← Bool.not_eq_false, CanPieceFitAt_eq_false_iff]
  simp only [cellFits_eq_false_iff]

/-- Witness of C1: the O piece two rows above the floor of an empty 10 x 10 region fits,
and no mask cell fails there. -/
theorem CanPieceFitAt_iff_witness :
    ((0 : Int) ≤ 1 ∧ (1 : Int) ≤ 6) ∧ ((0 : Int) ≤ 0 ∧ (0 : Int) ≤ 3) ∧
    (MonitorGrid.mk 0 0 10 10).Inside 10 10 ∧
    CanPieceFitAt 1 0 8 5 ⟨0, 0, 10, 10⟩ (fun _ _ => emptyCell) = true ∧
    (CanPieceFitAt 1 0 8 5 ⟨0, 0, 10, 10⟩ (fun _ _ => emptyCell) = true ↔
      ¬ ∃ r c : Nat, r < 4 ∧ c < 4 ∧ maskCell 1 0 r c = true ∧
          (MonitorGrid.mk 0 0 10 10).top ≤ 8 + (r : Int) ∧
          (MonitorGrid.mk 0 0 10 10).left ≤ 5 + (c : Int) - 1 ∧
          5 + (c : Int) - 1 < (MonitorGrid.mk 0 0 10 10).right ∧
          ((MonitorGrid.mk 0 0 10 10).bottom ≤ 8 + (r : Int) ∨
            ((fun _ _ => emptyCell : Landed) (8 + (r : Int)) (5 + (c : Int) - 1)).filled = true)) :=
  ⟨by decide, by decide, by decide, by decide,
    CanPieceFitAt_iff 10 10 1 0 8 5 ⟨0, 0, 10, 10⟩ (fun _ _ => emptyCell)
      (by decide) (by decide) (by decide)⟩

/-! ## Landing: closed form -/

/-- The cast `(int)(float)n` gives `n` back. -/
theorem truncInt_intCast (n : Int) : truncInt (n : ℚ) = n := by
  simp [truncInt]

theorem landCell_apply (gridRows gridCols : Int) (s : MatrixStream) (headRow pieceCol : Int)
    (g : Landed) (r c : Nat) (gr gc : Int) :
    (landWrites gridRows gridCols s headRow pieceCol r c gr gc →
        landCell gridRows gridCols s headRow pieceCol g r c gr gc = ⟨true, s.pieceColor, 255⟩) ∧
    (¬ landWrites gridRows gridCols s headRow pieceCol r c gr gc →
        landCell gridRows gridCols s headRow pieceCol g r c gr gc = g gr gc) := by
  unfold landCell landWrites
  constructor
  · rintro ⟨hm, h1, h2, h3, h4, h5, h6⟩
    subst h1 h2
    simp [hm, setCell, h3, h4, h5, h6]
  · intro hn
    cases hm : maskCell s.pieceType s.rotation r c
    · simp
    · by_cases hin : headRow + (r : Int) ≥ 0 ∧ headRow + (r : Int) < gridRows ∧
          pieceCol + (c : Int) - 1 ≥ 0 ∧ pieceCol + (c : Int) - 1 < gridCols
      · have hne : ¬ (gr = headRow + (r : Int) ∧ gc = pieceCol + (c : Int) - 1) := by
          rintro ⟨h1, h2⟩
          subst h1 h2
          exact hn ⟨hm, rfl, rfl, hin.1, hin.2.1, hin.2.2.1, hin.2.2.2⟩
        simp only [Bool.not_true, Bool.false_eq_true, if_false, hin, and_self, if_true, setCell]
        rw [if_neg hne]
      · simp only [Bool.not_true, Bool.false_eq_true, if_false, hin]

/-- A fold of steps that each either write the fixed value `v` to the cell `(gr, gc)`
(when `W a`) or leave that cell alone: the cell ends as `v` when some step writes it
and keeps its value otherwise. -/
theorem foldl_write_or_keep {α : Type} (f : Landed → α → Landed) (W : α → Prop)
    (v : LandedCell) (gr gc : Int)
    (hf : ∀ g a, (W a → f g a gr gc = v) ∧ (¬ W a → f g a gr gc = g gr gc))
    (l : List α) (g : Landed) :
    ((∃ a ∈ l, W a) → l.foldl f g gr gc = v) ∧
    ((¬ ∃ a ∈ l, W a) → l.foldl f g gr gc = g gr gc) := by
  induction l generalizing g with
  | nil => simp
  | cons a l ih =>
    rw [List.foldl_cons]
    constructor
    · rintro ⟨a', ha', hW⟩
      by_cases hl : ∃ b ∈ l, W b
      · exact (ih (f g a)).1 hl
      · rw [(ih (f g a)).2 hl]
        rcases List.mem_cons.1 ha' with rfl | ha'
        · exact (hf g a').1 hW
        · exact absurd ⟨a', ha', hW⟩ hl
    · intro hn
      have hl : ¬ ∃ b ∈ l, W b := fun ⟨b, hb, hW⟩ => hn ⟨b, List.mem_cons_of_mem _ hb, hW⟩
      have ha : ¬ W a := fun hW => hn ⟨a, List.mem_cons_self _ _, hW⟩
      rw [(ih (f g a)).2 hl, (hf g a).2 ha]

/-- Closed form of `LandPiece`: a cell holds the piece colour at brightness 255 when some
step of the double loop writes it, and its old value otherwise. -/
theorem LandPiece_apply (gridRows gridCols : Int) (landed : Landed) (s : MatrixStream)
    (gr gc : Int) :
    ((∃ r c : Nat, r < 4 ∧ c < 4 ∧
          landWrites gridRows gridCols s (truncInt s.y) s.col r c gr gc) →
        LandPiece gridRows gridCols landed s gr gc = ⟨true, s.pieceColor, 255⟩) ∧
    ((¬ ∃ r c : Nat, r < 4 ∧ c < 4 ∧
          landWrites gridRows gridCols s (truncInt s.y) s.col r c gr gc) →
        LandPiece gridRows gridCols landed s gr gc = landed gr gc) := by
  have key := foldl_write_or_keep
    (fun g r => (List.range 4).foldl
      (fun g c => landCell gridRows gridCols s (truncInt s.y) s.col g r c) g)
    (fun r => ∃ c ∈ List.range 4,
      landWrites gridRows gridCols s (truncInt s.y) s.col r c gr gc)
    ⟨true, s.pieceColor, 255⟩ gr gc
    (fun g r => foldl_write_or_keep
      (fun g c => landCell gridRows gridCols s (truncInt s.y) s.col g r c)
      (fun c => landWrites gridRows gridCols s (truncInt s.y) s.col r c gr gc)
      ⟨true, s.pieceColor, 255⟩ gr gc
      (fun g c => landCell_apply gridRows gridCols s (truncInt s.y) s.col g r c gr gc)
      (List.range 4) g)
    (List.range 4) landed
  have hiff : (∃ r ∈ List.range 4, ∃ c ∈ List.range 4,
        landWrites gridRows gridCols s (truncInt s.y) s.col r c gr gc) ↔
      ∃ r c : Nat, r < 4 ∧ c < 4 ∧
        landWrites gridRows gridCols s (truncInt s.y) s.col r c gr gc := by
    constructor
    · rintro ⟨r, hr, c, hc, h⟩
      exact ⟨r, c, List.mem_range.1 hr, List.mem_range.1 hc, h⟩
    · rintro ⟨r, c, hr, hc, h⟩
      exact ⟨r, List.mem_range.2 hr, c, List.mem_range.2 hc, h⟩
  rw [hiff] at key
  exact key

/-- C3, as stated, fails: in a 10 x 10 grid where an O piece has just landed in columns
1..2, landing a second O piece of the same colour at rows 8..9, columns 5..6, leaves cell
`(8, 1)` equal to `{true, colour, 255}` although no mask cell of the second piece lies
on it. -/
theorem LandPiece_exactly_when_counterexample :
    ¬ (∀ gr gc : Int, 0 ≤ gr → gr < 10 → 0 ≤ gc → gc < 10 →
        (LandPiece 10 10 landedOGrid streamO gr gc = ⟨true, streamO.pieceColor, 255⟩ ↔
          ∃ r c : Nat, r < 4 ∧ c < 4 ∧
            maskCell streamO.pieceType streamO.rotation r c = true ∧
            gr = truncInt streamO.y + (r : Int) ∧ gc = streamO.col + (c : Int) - 1)) := by
  intro h
  have hkeep : LandPiece 10 10 landedOGrid streamO 8 1 = landedOGrid 8 1 := by
    apply (LandPiece_apply 10 10 landedOGrid streamO 8 1).2
    rintro ⟨r, c, _, _, _, _, hgc, _⟩
    have hcol : streamO.col = 5 := rfl
    rw [hcol] at hgc
    omega
  have hval : LandPiece 10 10 landedOGrid streamO 8 1 = ⟨true, streamO.pieceColor, 255⟩ := by
    rw [hkeep]; rfl
  obtain ⟨r, c, _, _, _, _, hgc⟩ :=
    (h 8 1 (by decide) (by decide) (by decide) (by decide)).1 hval
  have hcol : streamO.col = 5 := rfl
  rw [hcol] at hgc
  omega

/-- C3 (amended): after `LandPiece` for a stream with head row `h = (int)y`, column `col`,
piece type `p`, rotation `rot` and colour `k`, a cell `(gr, gc)` holds
`{filled = true, color = k, brightness = 255}` whenever it is inside the grid and some
occupied mask cell `(r, c)` of `PIECES[p].cells[rot]` has `gr = h + r`, `gc = col + c - 1`;
every other cell keeps the value it had, so mask cells outside the grid cause no write
and a cell equals that value afterwards exactly when it is covered or already held it. -/
theorem LandPiece_post (gridRows gridCols : Int) (landed : Landed) (s : MatrixStream)
    (gr gc : Int) :
    ((0 ≤ gr ∧ gr < gridRows ∧ 0 ≤ gc ∧ gc < gridCols) →
      (∃ r c : Nat, r < 4 ∧ c < 4 ∧ maskCell s.pieceType s.rotation r c = true ∧
        gr = truncInt s.y + (r : Int) ∧ gc = s.col + (c : Int) - 1) →
      LandPiece gridRows gridCols landed s gr gc = ⟨true, s.pieceColor, 255⟩) ∧
    (¬ ((0 ≤ gr ∧ gr < gridRows ∧ 0 ≤ gc ∧ gc < gridCols) ∧
        ∃ r c : Nat, r < 4 ∧ c < 4 ∧ maskCell s.pieceType s.rotation r c = true ∧
          gr = truncInt s.y + (r : Int) ∧ gc = s.col + (c : Int) - 1) →
      LandPiece gridRows gridCols landed s gr gc = landed gr gc) ∧
    ((0 ≤ gr ∧ gr < gridRows ∧ 0 ≤ gc ∧ gc < gridCols) →
      (LandPiece gridRows gridCols landed s gr gc = ⟨true, s.pieceColor, 255⟩ ↔
        ((∃ r c : Nat, r < 4 ∧ c < 4 ∧ maskCell s.pieceType s.rotation r c = true ∧
          gr = truncInt s.y + (r : Int) ∧ gc = s.col + (c : Int) - 1) ∨
         landed gr gc = ⟨true, s.pieceColor, 255⟩))) := by
  have hW : (∃ r c : Nat, r < 4 ∧ c < 4 ∧
        landWrites gridRows gridCols s (truncInt s.y) s.col r c gr gc) ↔
      ((0 ≤ gr ∧ gr < gridRows ∧ 0 ≤ gc ∧ gc < gridCols) ∧
        ∃ r c : Nat, r < 4 ∧ c < 4 ∧ maskCell s.pieceType s.rotation r c = true ∧
          gr = truncInt s.y + (r : Int) ∧ gc = s.col + (c : Int) - 1) := by
    unfold landWrites
    constructor
    · rintro ⟨r, c, hr, hc, hm, h1, h2, h3, h4, h5, h6⟩
      exact ⟨⟨h3, h4, h5, h6⟩, r, c, hr, hc, hm, h1, h2⟩
    · rintro ⟨⟨h3, h4, h5, h6⟩, r, c, hr, hc, hm, h1, h2⟩
      exact ⟨r, c, hr, hc, hm, h1, h2, h3, h4, h5, h6⟩
  have key := LandPiece_apply gridRows gridCols landed s gr gc
  rw [hW] at key
  refine ⟨fun hin hcov => key.1 ⟨hin, hcov⟩, key.2, fun hin => ?_⟩
  constructor
  · intro hval
    by_cases hcov : ∃ r c : Nat, r < 4 ∧ c < 4 ∧ maskCell s.pieceType s.rotation r c = true ∧
        gr = truncInt s.y + (r : Int) ∧ gc = s.col + (c : Int) - 1
    · exact Or.inl hcov
    · right
      rw [← key.2 (fun hh => hcov hh.2)]
      exact hval
  · rintro (hcov | hold)
    · exact key.1 ⟨hin, hcov⟩
    · by_cases hcov : ∃ r c : Nat, r < 4 ∧ c < 4 ∧
          maskCell s.pieceType s.rotation r c = true ∧
          gr = truncInt s.y + (r : Int) ∧ gc = s.col + (c : Int) - 1
      · exact key.1 ⟨hin, hcov⟩
      · rw [key.2 (fun hh => hcov hh.2)]
        exact hold

/-- Witness of C3 (amended): the O piece of `streamO` covers cell `(8, 5)` of the
10 x 10 grid, which holds the piece colour at brightness 255 after the landing. -/
theorem LandPiece_post_witness :
    ((0 : Int) ≤ 8 ∧ (8 : Int) < 10 ∧ (0 : Int) ≤ 5 ∧ (5 : Int) < 10) ∧
    (∃ r c : Nat, r < 4 ∧ c < 4 ∧ maskCell streamO.pieceType streamO.rotation r c = true ∧
        (8 : Int) = truncInt streamO.y + (r : Int) ∧ (5 : Int) = streamO.col + (c : Int) - 1) ∧
    LandPiece 10 10 landedOGrid streamO 8 5 = ⟨true, streamO.pieceColor, 255⟩ :=
  ⟨by decide, ⟨0, 1, by decide, by decide, by decide,
      by rw [show truncInt streamO.y = 8 from truncInt_intCast 8]; rfl, by decide⟩,
    (LandPiece_post 10 10 landedOGrid streamO 8 5).1 (by decide)
      ⟨0, 1, by decide, by decide, by decide,
        by rw [show truncInt streamO.y = 8 from truncInt_intCast 8]; rfl, by decide⟩⟩

/-! ## Loops over the landed grid: closed forms -/

/-- The column loop `for c: g[r][c] = g[src][c]`, started at column `left` for `n` columns. -/
theorem copyRow_apply (r src : Int) (n : Nat) (left : Int) (g : Landed) (r' c' : Int) :
    forUp (fun c g => setCell g r c (g src c)) n left g r' c' =
      if r' = r ∧ left ≤ c' ∧ c' < left + (n : Int) then g src c' else g r' c' := by
  induction n generalizing left g with
  | zero =>
    have : ¬ (r' = r ∧ left ≤ c' ∧ c' < left + ((0 : Nat) : Int)) := by omega
    rw [if_neg this]; rfl
  | succ k ih =>
    show forUp (fun c g => setCell g r c (g src c)) k (left + 1) (setCell g r left (g src left))
      r' c' = _
    rw [ih]
    unfold setCell
    by_cases h1 : r' = r ∧ left + 1 ≤ c' ∧ c' < left + 1 + (k : Int)
    · have h2 : r' = r ∧ left ≤ c' ∧ c' < left + ((k + 1 : Nat) : Int) := by
        push_cast; omega
      have h3 : ¬ (src = r ∧ c' = left) := by omega
      rw [if_pos h1, if_pos h2, if_neg h3]
    · rw [if_neg h1]
      by_cases h4 : r' = r ∧ c' = left
      · have h2 : r' = r ∧ left ≤ c' ∧ c' < left + ((k + 1 : Nat) : Int) := by
          push_cast; omega
        rw [if_pos h4, if_pos h2, h4.2]
      · have h2 : ¬ (r' = r ∧ left ≤ c' ∧ c' < left + ((k + 1 : Nat) : Int)) := by
          push_cast; omega
        rw [if_neg h4, if_neg h2]

/-- The column loop `for c: g[r][c] = v c`, started at column `left` for `n` columns. -/
theorem fillRow_apply (r : Int) (v : LandedCell) (n : Nat) (left : Int) (g : Landed)
    (r' c' : Int) :
    forUp (fun c g => setCell g r c v) n left g r' c' =
      if r' = r ∧ left ≤ c' ∧ c' < left + (n : Int) then v else g r' c' := by
  induction n generalizing left g with
  | zero =>
    have : ¬ (r' = r ∧ left ≤ c' ∧ c' < left + ((0 : Nat) : Int)) := by omega
    rw [if_neg this]; rfl
  | succ k ih =>
    show forUp (fun c g => setCell g r c v) k (left + 1) (setCell g r left v) r' c' = _
    rw [ih]
    unfold setCell
    by_cases h1 : r' = r ∧ left + 1 ≤ c' ∧ c' < left + 1 + (k : Int)
    · have h2 : r' = r ∧ left ≤ c' ∧ c' < left + ((k + 1 : Nat) : Int) := by
        push_cast; omega
      rw [if_pos h1, if_pos h2]
    · rw [if_neg h1]
      by_cases h4 : r' = r ∧ c' = left
      · have h2 : r' = r ∧ left ≤ c' ∧ c' < left + ((k + 1 : Nat) : Int) := by
          push_cast; omega
        rw [if_pos h4, if_pos h2]
      · have h2 : ¬ (r' = r ∧ left ≤ c' ∧ c' < left + ((k + 1 : Nat) : Int)) := by
          push_cast; omega
        rw [if_neg h4, if_neg h2]

/-- Columns `left, …, left + (right - left).toNat - 1` are the columns of `[left, right)`. -/
theorem col_range_iff (left right c : Int) :
    (left ≤ c ∧ c < left + ((right - left).toNat : Int)) ↔ (left ≤ c ∧ c < right) := by
  omega

/-- The descending row loop of the gravity shift: for `numRows ≥ 0`, the `k` rows ending
at `hi` each receive the old content of the row `numRows` above them. -/
theorem shiftLoop_apply (numRows : Int) (hn : 0 ≤ numRows) (w : Nat) (left : Int) (k : Nat)
    (hi : Int) (g : Landed) (r' c' : Int) :
    forDown (fun r g => forUp (fun c g => setCell g r c (g (r - numRows) c)) w left g)
        k hi g r' c' =
      if (hi - (k : Int) < r' ∧ r' ≤ hi) ∧ left ≤ c' ∧ c' < left + (w : Int)
      then g (r' - numRows) c' else g r' c' := by
  induction k generalizing hi g with
  | zero =>
    have : ¬ ((hi - ((0 : Nat) : Int) < r' ∧ r' ≤ hi) ∧ left ≤ c' ∧ c' < left + (w : Int)) := by
      omega
    rw [if_neg this]; rfl
  | succ k ih =>
    show forDown (fun r g => forUp (fun c g => setCell g r c (g (r - numRows) c)) w left g)
      k (hi - 1) (forUp (fun c g => setCell g hi c (g (hi - numRows) c)) w left g) r' c' = _
    rw [ih]
    by_cases h1 : (hi - 1 - (k : Int) < r' ∧ r' ≤ hi - 1) ∧ left ≤ c' ∧ c' < left + (w : Int)
    · have h2 : (hi - ((k + 1 : Nat) : Int) < r' ∧ r' ≤ hi) ∧ left ≤ c' ∧
          c' < left + (w : Int) := by push_cast; omega
      have h3 : ¬ (r' - numRows = hi ∧ left ≤ c' ∧ c' < left + (w : Int)) := by omega
      rw [if_pos h1, if_pos h2, copyRow_apply, if_neg h3]
    · rw [if_neg h1, copyRow_apply]
      by_cases h4 : r' = hi ∧ left ≤ c' ∧ c' < left + (w : Int)
      · have h2 : (hi - ((k + 1 : Nat) : Int) < r' ∧ r' ≤ hi) ∧ left ≤ c' ∧
            c' < left + (w : Int) := by push_cast; omega
        rw [if_pos h4, if_pos h2, h4.1]
      · have h2 : ¬ ((hi - ((k + 1 : Nat) : Int) < r' ∧ r' ≤ hi) ∧ left ≤ c' ∧
            c' < left + (w : Int)) := by push_cast; omega
        rw [if_neg h4, if_neg h2]

/-- The ascending row loop that empties `k` rows from `lo` on. -/
theorem clearLoop_apply (w : Nat) (left : Int) (k : Nat) (lo : Int) (g : Landed)
    (r' c' : Int) :
    forUp (fun r g => forUp (fun c g => setCell g r c emptyCell) w left g) k lo g r' c' =
      if (lo ≤ r' ∧ r' < lo + (k : Int)) ∧ left ≤ c' ∧ c' < left + (w : Int)
      then emptyCell else g r' c' := by
  induction k generalizing lo g with
  | zero =>
    have : ¬ ((lo ≤ r' ∧ r' < lo + ((0 : Nat) : Int)) ∧ left ≤ c' ∧ c' < left + (w : Int)) := by
      omega
    rw [if_neg this]; rfl
  | succ k ih =>
    show forUp (fun r g => forUp (fun c g => setCell g r c emptyCell) w left g) k (lo + 1)
      (forUp (fun c g => setCell g lo c emptyCell) w left g) r' c' = _
    rw [ih, fillRow_apply]
    by_cases h1 : (lo + 1 ≤ r' ∧ r' < lo + 1 + (k : Int)) ∧ left ≤ c' ∧ c' < left + (w : Int)
    · have h2 : (lo ≤ r' ∧ r' < lo + ((k + 1 : Nat) : Int)) ∧ left ≤ c' ∧
          c' < left + (w : Int) := by push_cast; omega
      rw [if_pos h1, if_pos h2]
    · rw [if_neg h1]
      by_cases h4 : r' = lo ∧ left ≤ c' ∧ c' < left + (w : Int)
      · have h2 : (lo ≤ r' ∧ r' < lo + ((k + 1 : Nat) : Int)) ∧ left ≤ c' ∧
            c' < left + (w : Int) := by push_cast; omega
        rw [if_pos h4, if_pos h2]
      · have h2 : ¬ ((lo ≤ r' ∧ r' < lo + ((k + 1 : Nat) : Int)) ∧ left ≤ c' ∧
            c' < left + (w : Int)) := by push_cast; omega
        rw [if_neg h4, if_neg h2]

/-! ## Searches -/

theorem anyUp_eq_true_iff (p : Int → Bool) (k : Nat) (i : Int) :
    anyUp p k i = true ↔ ∃ j : Int, i ≤ j ∧ j < i + (k : Int) ∧ p j = true := by
  induction k generalizing i with
  | zero =>
    simp only [anyUp, Bool.false_eq_true, false_iff]
    rintro ⟨j, h1, h2, _⟩
    omega
  | succ k ih =>
    unfold anyUp
    by_cases hp : p i = true
    · simp only [hp, if_true, true_iff]
      exact ⟨i, le_refl _, by push_cast; omega, hp⟩
    · simp only [hp, Bool.false_eq_true, if_false]
      rw [ih]
      constructor
      · rintro ⟨j, h1, h2, h3⟩
        exact ⟨j, by omega, by push_cast; omega, h3⟩
      · rintro ⟨j, h1, h2, h3⟩
        have hne : j ≠ i := fun h => hp (h ▸ h3)
        exact ⟨j, by omega, by push_cast at h2; omega, h3⟩

theorem findUp_eq_some_iff (p : Int → Bool) (k : Nat) (i j : Int) :
    findUp p k i = some j ↔
      i ≤ j ∧ j < i + (k : Int) ∧ p j = true ∧ ∀ j' : Int, i ≤ j' → j' < j → p j' = false := by
  induction k generalizing i with
  | zero =>
    unfold findUp
    constructor
    · intro h
      exact Option.noConfusion h
    · rintro ⟨h1, h2, _⟩
      omega
  | succ k ih =>
    unfold findUp
    by_cases hp : p i = true
    · simp only [hp, if_true, Option.some.injEq]
      constructor
      · rintro rfl
        exact ⟨le_refl _, by push_cast; omega, hp, fun j' h1 h2 => by omega⟩
      · rintro ⟨h1, _, _, h4⟩
        by_contra hne
        have := h4 i (le_refl _) (by omega)
        rw [hp] at this
        exact Bool.noConfusion this
    · simp only [hp, Bool.false_eq_true, if_false]
      rw [ih]
      have hpf : p i = false := by simpa using hp
      constructor
      · rintro ⟨h1, h2, h3, h4⟩
        refine ⟨by omega, by push_cast; omega, h3, fun j' h5 h6 => ?_⟩
        by_cases hj : j' = i
        · rw [hj]; exact hpf
        · exact h4 j' (by omega) h6
      · rintro ⟨h1, h2, h3, h4⟩
        have hne : j ≠ i := fun h => hp (h ▸ h3)
        exact ⟨by omega, by push_cast at h2; omega, h3, fun j' h5 h6 => h4 j' (by omega) h6⟩

theorem findUp_eq_none_iff (p : Int → Bool) (k : Nat) (i : Int) :
    findUp p k i = none ↔ ∀ j : Int, i ≤ j → j < i + (k : Int) → p j = false := by
  induction k generalizing i with
  | zero =>
    simp only [findUp, true_iff]
    intro j h1 h2
    omega
  | succ k ih =>
    unfold findUp
    by_cases hp : p i = true
    · simp only [hp, if_true]
      constructor
      · intro h
        exact Option.noConfusion h
      · intro h
        have := h i (le_refl _) (by push_cast; omega)
        rw [hp] at this
        exact Bool.noConfusion this
    · simp only [hp, Bool.false_eq_true, if_false]
      rw [ih]
      have hpf : p i = false := by simpa using hp
      constructor
      · intro h j h1 h2
        by_cases hj : j = i
        · rw [hj]; exact hpf
        · exact h j (by omega) (by push_cast at h2; omega)
      · intro h j h1 h2
        exact h j (by omega) (by push_cast; omega)

/-- The column loop of the content test finds a filled cell exactly when the row has one. -/
theorem rowHasContent_iff (m : MonitorGrid) (landed : Landed) (r : Int) :
    rowHasContent m landed r = true ↔ RowFilled m landed r := by
  unfold rowHasContent RowFilled
  rw [anyUp_eq_true_iff]
  constructor
  · rintro ⟨c, h1, h2, h3⟩
    exact ⟨c, h1, ((col_range_iff m.left m.right c).1 ⟨h1, h2⟩).2, h3⟩
  · rintro ⟨c, h1, h2, h3⟩
    exact ⟨c, h1, ((col_range_iff m.left m.right c).2 ⟨h1, h2⟩).2, h3⟩

theorem rowHasContent_eq_false_iff (m : MonitorGrid) (landed : Landed) (r : Int) :
    rowHasContent m landed r = false ↔ ¬ RowFilled m landed r := by
  rw [← rowHasContent_iff, Bool.not_eq_true]

/-- The search of the gravity shift returns the topmost content row when there is one. -/
theorem topContentRow_eq (m : MonitorGrid) (landed : Landed) (tc : Int)
    (h : IsTopContent m landed tc) : topContentRow m landed = tc := by
  obtain ⟨h1, h2, h3, h4⟩ := h
  have : findUp (fun r => rowHasContent m landed r) (m.bottom - m.top).toNat m.top = some tc := by
    rw [findUp_eq_some_iff]
    refine ⟨h1, by omega, (rowHasContent_iff m landed tc).2 h3, fun j' h5 h6 => ?_⟩
    exact (rowHasContent_eq_false_iff m landed j').2 (h4 j' h5 h6)
  unfold topContentRow
  rw [this]
  rfl

/-- The search of the gravity shift always returns a row in `[top, bottom]` when the
region is not inverted. -/
theorem topContentRow_bounds (m : MonitorGrid) (landed : Landed) (h : m.top ≤ m.bottom) :
    m.top ≤ topContentRow m landed ∧ topContentRow m landed ≤ m.bottom := by
  unfold topContentRow
  cases hf : findUp (fun r => rowHasContent m landed r) (m.bottom - m.top).toNat m.top with
  | none => exact ⟨h, le_refl _⟩
  | some j =>
    obtain ⟨h1, h2, _, _⟩ := (findUp_eq_some_iff _ _ _ _).1 hf
    show m.top ≤ j ∧ j ≤ m.bottom
    omega

/-! ## Gravity shift: closed form -/

/-- Closed form of `ApplyGravityForMonitor` for `numRows ≥ 0`, with `tc` the row found
by its search: inside the columns of the region, rows `[tc, min (tc + numRows) bottom)`
are emptied, rows `[tc + numRows, bottom)` hold the old row `numRows` above, and every
other cell is unchanged. -/
theorem ApplyGravityForMonitor_apply (m : MonitorGrid) (numRows : Int) (hn : 0 ≤ numRows)
    (landed : Landed) (r c : Int) :
    ApplyGravityForMonitor m numRows landed r c =
      if (topContentRow m landed ≤ r ∧ r < topContentRow m landed + numRows ∧ r < m.bottom) ∧
          m.left ≤ c ∧ c < m.right then emptyCell
      else if (topContentRow m landed + numRows ≤ r ∧ r < m.bottom) ∧
          m.left ≤ c ∧ c < m.right then landed (r - numRows) c
      else landed r c := by
  unfold ApplyGravityForMonitor clearVacated shiftRowsDown
  simp only []
  generalize topContentRow m landed = tc
  rw [clearLoop_apply, shiftLoop_apply numRows hn]
  by_cases h1 : (tc ≤ r ∧ r < tc + numRows ∧ r < m.bottom) ∧ m.left ≤ c ∧ c < m.right
  · have h2 : (tc ≤ r ∧ r < tc + ((min (tc + numRows) m.bottom - tc).toNat : Int)) ∧
        m.left ≤ c ∧ c < m.left + ((m.right - m.left).toNat : Int) := by omega
    rw [if_pos h1, if_pos h2]
  · have h2 : ¬ ((tc ≤ r ∧ r < tc + ((min (tc + numRows) m.bottom - tc).toNat : Int)) ∧
        m.left ≤ c ∧ c < m.left + ((m.right - m.left).toNat : Int)) := by omega
    rw [if_neg h1, if_neg h2]
    by_cases h3 : (tc + numRows ≤ r ∧ r < m.bottom) ∧ m.left ≤ c ∧ c < m.right
    · have h4 : (m.bottom - 1 - (((m.bottom - (tc + numRows)).toNat : Nat) : Int) < r ∧
          r ≤ m.bottom - 1) ∧ m.left ≤ c ∧
          c < m.left + ((m.right - m.left).toNat : Int) := by omega
      rw [if_pos h3, if_pos h4]
    · have h4 : ¬ ((m.bottom - 1 - (((m.bottom - (tc + numRows)).toNat : Nat) : Int) < r ∧
          r ≤ m.bottom - 1) ∧ m.left ≤ c ∧
          c < m.left + ((m.right - m.left).toNat : Int)) := by omega
      rw [if_neg h3, if_neg h4]

/-- Row 2 is the topmost content row of `singleCellGrid` in `region10`. -/
theorem singleCellGrid_top : IsTopContent region10 singleCellGrid 2 := by
  refine ⟨by decide, by decide, ⟨3, by decide, by decide, by decide⟩, ?_⟩
  rintro r _ h2 ⟨c, _, _, hf⟩
  have hne : ¬ (r = 2 ∧ c = 3) := by omega
  simp [singleCellGrid, hne, emptyCell] at hf

/-- C4: the gravity shift preserves structure: for a region inside the grid and `n >= 1`,
with `topContent` the topmost row of the region holding a filled cell before the call,
after `ApplyGravityForMonitor(region, n)` every cell `(r, c)` with
`topContent + n <= r <= region.bottom - 1` and `region.left <= c < region.right` equals
(filled, color and brightness) the cell `(r - n, c)` as it was before the call. -/
theorem ApplyGravityForMonitor_shifted (gridRows gridCols : Int) (region : MonitorGrid)
    (landed : Landed) (n topContent r c : Int)
    (_hin : region.Inside gridRows gridCols) (hn : 1 ≤ n)
    (htc : IsTopContent region landed topContent)
    (hr : topContent + n ≤ r ∧ r ≤ region.bottom - 1)
    (hc : region.left ≤ c ∧ c < region.right) :
    ApplyGravityForMonitor region n landed r c = landed (r - n) c := by
  rw [ApplyGravityForMonitor_apply region n (by omega), topContentRow_eq region landed _ htc]
  have h1 : ¬ ((topContent ≤ r ∧ r < topContent + n ∧ r < region.bottom) ∧
      region.left ≤ c ∧ c < region.right) := by omega
  have h2 : (topContent + n ≤ r ∧ r < region.bottom) ∧ region.left ≤ c ∧ c < region.right := by
    omega
  rw [if_neg h1, if_pos h2]

/-- Witness of C4: the single cell at row 2 of a 10-row region, shifted by 4, is found
at row 6. -/
theorem ApplyGravityForMonitor_shifted_witness :
    region10.Inside 10 10 ∧ (1 : Int) ≤ 4 ∧ IsTopContent region10 singleCellGrid 2 ∧
    ((2 : Int) + 4 ≤ 6 ∧ (6 : Int) ≤ region10.bottom - 1) ∧
    (region10.left ≤ 3 ∧ (3 : Int) < region10.right) ∧
    ApplyGravityForMonitor region10 4 singleCellGrid 6 3 = singleCellGrid (6 - 4) 3 ∧
    singleCellGrid (6 - 4) 3 = ⟨true, RGB 0 255 100, 200⟩ :=
  ⟨by decide, by decide, singleCellGrid_top, by decide, by decide,
    ApplyGravityForMonitor_shifted 10 10 region10 singleCellGrid 4 2 6 3
      (by decide) (by decide) singleCellGrid_top (by decide) (by decide),
    by decide⟩

/-- C5: after `ApplyGravityForMonitor(region, n)` with `n >= 1`, every cell of the region
in rows `[topContent, min(topContent + n, region.bottom))` is empty (`{false, 0, 0}`),
where `topContent` is the topmost content row before the call. -/
theorem ApplyGravityForMonitor_vacated (region : MonitorGrid) (landed : Landed)
    (n topContent r c : Int) (hn : 1 ≤ n)
    (htc : IsTopContent region landed topContent)
    (hr : topContent ≤ r ∧ r < min (topContent + n) region.bottom)
    (hc : region.left ≤ c ∧ c < region.right) :
    ApplyGravityForMonitor region n landed r c = emptyCell := by
  rw [ApplyGravityForMonitor_apply region n (by omega), topContentRow_eq region landed _ htc]
  have h1 : (topContent ≤ r ∧ r < topContent + n ∧ r < region.bottom) ∧
      region.left ≤ c ∧ c < region.right := by omega
  rw [if_pos h1]

/-- Witness of C5 (scenario C): a single filled cell at row 2 of an otherwise empty
10-row region, shifted with `n = 4`, ends at row 6 and rows 2..5 are empty at its column. -/
theorem ApplyGravityForMonitor_vacated_witness :
    (1 : Int) ≤ 4 ∧ IsTopContent region10 singleCellGrid 2 ∧
    (region10.left ≤ 3 ∧ (3 : Int) < region10.right) ∧
    ApplyGravityForMonitor region10 4 singleCellGrid 2 3 = emptyCell ∧
    ApplyGravityForMonitor region10 4 singleCellGrid 3 3 = emptyCell ∧
    ApplyGravityForMonitor region10 4 singleCellGrid 4 3 = emptyCell ∧
    ApplyGravityForMonitor region10 4 singleCellGrid 5 3 = emptyCell ∧
    ApplyGravityForMonitor region10 4 singleCellGrid 6 3 = ⟨true, RGB 0 255 100, 200⟩ :=
  ⟨by decide, singleCellGrid_top, by decide,
    ApplyGravityForMonitor_vacated region10 singleCellGrid 4 2 2 3 (by decide)
      singleCellGrid_top (by decide) (by decide),
    ApplyGravityForMonitor_vacated region10 singleCellGrid 4 2 3 3 (by decide)
      singleCellGrid_top (by decide) (by decide),
    ApplyGravityForMonitor_vacated region10 singleCellGrid 4 2 4 3 (by decide)
      singleCellGrid_top (by decide) (by decide),
    ApplyGravityForMonitor_vacated region10 singleCellGrid 4 2 5 3 (by decide)
      singleCellGrid_top (by decide) (by decide),
    by decide⟩

/-- C6: `ApplyGravityForMonitor(region, 0)` is a no-op: the whole landed grid after the
call equals the grid before the call, for every landed grid and every region. -/
theorem ApplyGravityForMonitor_zero (region : MonitorGrid) (landed : Landed) :
    ApplyGravityForMonitor region 0 landed = landed := by
  funext r c
  rw [ApplyGravityForMonitor_apply region 0 (le_refl _)]
  have h1 : ¬ ((topContentRow region landed ≤ r ∧ r < topContentRow region landed + 0 ∧
      r < region.bottom) ∧ region.left ≤ c ∧ c < region.right) := by omega
  rw [if_neg h1]
  split
  · rw [sub_zero]
  · rfl

/-! ## Fill level -/

/-- The counting loop adds to its counter the number of indices `r` in `[i, i + k)` with
`p r`; that number is at most `k`. -/
theorem countLoop_spec (p : Int → Bool) (k : Nat) (i : Int) :
    ∃ S : Finset Int, (∀ r : Int, r ∈ S ↔ (i ≤ r ∧ r < i + (k : Int)) ∧ p r = true) ∧
      S.card ≤ k ∧
      ∀ acc : Int, forUp (fun r (n : Int) => if p r then n + 1 else n) k i acc =
        acc + (S.card : Int) := by
  induction k generalizing i with
  | zero =>
    refine ⟨∅, fun r => ?_, by simp, fun acc => by simp [forUp]⟩
    simp only [Finset.not_mem_empty, false_iff]
    rintro ⟨h, _⟩
    omega
  | succ k ih =>
    obtain ⟨S, hS, hcard, hloop⟩ := ih (i + 1)
    have hi : i ∉ S := fun h => by
      have := ((hS i).1 h).1
      omega
    by_cases hp : p i = true
    · refine ⟨insert i S, fun r => ?_, ?_, fun acc => ?_⟩
      · rw [Finset.mem_insert, hS]
        constructor
        · rintro (rfl | ⟨h1, h2⟩)
          · exact ⟨⟨le_refl _, by push_cast; omega⟩, hp⟩
          · exact ⟨⟨by omega, by push_cast; omega⟩, h2⟩
        · rintro ⟨⟨h1, h2⟩, h3⟩
          by_cases hr : r = i
          · exact Or.inl hr
          · exact Or.inr ⟨⟨by omega, by push_cast at h2; omega⟩, h3⟩
      · rw [Finset.card_insert_of_not_mem hi]
        omega
      · show forUp (fun r (n : Int) => if p r then n + 1 else n) k (i + 1)
          (if p i then acc + 1 else acc) = _
        rw [hloop, if_pos hp, Finset.card_insert_of_not_mem hi]
        push_cast
        ring
    · refine ⟨S, fun r => ?_, by omega, fun acc => ?_⟩
      · rw [hS]
        constructor
        · rintro ⟨⟨h1, h2⟩, h3⟩
          exact ⟨⟨by omega, by push_cast; omega⟩, h3⟩
        · rintro ⟨⟨h1, h2⟩, h3⟩
          have hr : r ≠ i := fun h => hp (h ▸ h3)
          exact ⟨⟨by omega, by push_cast at h2; omega⟩, h3⟩
      · show forUp (fun r (n : Int) => if p r then n + 1 else n) k (i + 1)
          (if p i then acc + 1 else acc) = _
        rw [hloop, if_neg hp]

/-- The counter of `GetMonitorFillPct` is the number of content rows of the region, which
is at most the number of its rows. -/
theorem countFilledRows_spec (m : MonitorGrid) (landed : Landed) :
    ∃ S : Finset Int,
      (∀ r : Int, r ∈ S ↔ (m.top ≤ r ∧ r < m.bottom) ∧ RowFilled m landed r) ∧
      S.card ≤ (m.bottom - m.top).toNat ∧ countFilledRows m landed = (S.card : Int) := by
  obtain ⟨S, hS, hcard, hloop⟩ :=
    countLoop_spec (fun r => rowHasContent m landed r) (m.bottom - m.top).toNat m.top
  refine ⟨S, fun r => ?_, hcard, ?_⟩
  · rw [hS, rowHasContent_iff]
    constructor
    · rintro ⟨⟨h1, h2⟩, h3⟩
      exact ⟨⟨h1, by omega⟩, h3⟩
    · rintro ⟨⟨h1, h2⟩, h3⟩
      exact ⟨⟨h1, by omega⟩, h3⟩
  · unfold countFilledRows
    rw [hloop, zero_add]

/-- C7: for every region and landed grid, `GetMonitorFillPct` lies in `[0, 1]`; it is the
number of rows `r` in `[top, bottom)` having at least one filled cell in columns
`[left, right)` divided by `bottom - top`, and `0` when `bottom - top <= 0`
(float arithmetic taken as exact). -/
theorem GetMonitorFillPct_spec (region : MonitorGrid) (landed : Landed) :
    0 ≤ GetMonitorFillPct region landed ∧ GetMonitorFillPct region landed ≤ 1 ∧
    ∃ S : Finset Int,
      (∀ r : Int, r ∈ S ↔ (region.top ≤ r ∧ r < region.bottom) ∧
        ∃ c : Int, region.left ≤ c ∧ c < region.right ∧ (landed r c).filled = true) ∧
      GetMonitorFillPct region landed =
        if region.bottom - region.top ≤ 0 then 0
        else (S.card : ℚ) / ((region.bottom - region.top : Int) : ℚ) := by
  obtain ⟨S, hS, hcard, hcount⟩ := countFilledRows_spec region landed
  have hval : GetMonitorFillPct region landed =
      if region.bottom - region.top ≤ 0 then 0
      else (S.card : ℚ) / ((region.bottom - region.top : Int) : ℚ) := by
    unfold GetMonitorFillPct
    simp only [hcount, Int.cast_natCast]
  refine ⟨?_, ?_, S, hS, hval⟩
  · rw [hval]
    split
    · exact le_refl _
    · next h =>
      have hpos : (0 : ℚ) < ((region.bottom - region.top : Int) : ℚ) := by
        exact_mod_cast (by omega : (0 : Int) < region.bottom - region.top)
      positivity
  · rw [hval]
    split
    · exact zero_le_one
    · next h =>
      have hpos : (0 : ℚ) < ((region.bottom - region.top : Int) : ℚ) := by
        exact_mod_cast (by omega : (0 : Int) < region.bottom - region.top)
      rw [div_le_one hpos]
      have : (S.card : Int) ≤ region.bottom - region.top := by omega
      exact_mod_cast this

/-! ## Start of a clear -/

/-- The collecting loop, scanning rows `r, r - 1, …` (`k` rows): it appends to the rows
already collected a strictly descending list of content rows of the scanned range, stops
at `ROWS_TO_CLEAR` rows in total, and misses a content row of the range only when it
stopped there, above every row it collected. -/
theorem collectContentRows_spec (m : MonitorGrid) (landed : Landed) (k : Nat) (r : Int)
    (acc : List Int) (hacc : acc.length ≤ ROWS_TO_CLEAR) :
    ∃ L : List Int, collectContentRows m landed k r acc = acc ++ L ∧
      L.Pairwise (fun a b => b < a) ∧
      (∀ x ∈ L, (r - (k : Int) < x ∧ x ≤ r) ∧ RowFilled m landed x) ∧
      acc.length + L.length ≤ ROWS_TO_CLEAR ∧
      ∀ x : Int, r - (k : Int) < x → x ≤ r → RowFilled m landed x → x ∉ L →
        acc.length + L.length = ROWS_TO_CLEAR ∧ ∀ y ∈ L, x < y := by
  induction k generalizing r acc with
  | zero =>
    refine ⟨[], by simp [collectContentRows], List.Pairwise.nil, by simp, by simpa using hacc, ?_⟩
    intro x h1 h2
    omega
  | succ k ih =>
    unfold collectContentRows
    by_cases hlen : acc.length < ROWS_TO_CLEAR
    · rw [if_pos hlen]
      by_cases hrow : rowHasContent m landed r = true
      · rw [if_pos hrow]
        obtain ⟨L, hL, hpw, hmem, hle, hmiss⟩ :=
          ih (r - 1) (acc ++ [r]) (by rw [List.length_append, List.length_singleton]; omega)
        rw [List.length_append, List.length_singleton] at hle hmiss
        refine ⟨r :: L, by rw [hL]; simp, ?_, ?_, ?_, ?_⟩
        · rw [List.pairwise_cons]
          exact ⟨fun y hy => by have := (hmem y hy).1; omega, hpw⟩
        · intro x hx
          rcases List.mem_cons.1 hx with rfl | hx
          · exact ⟨⟨by push_cast; omega, le_refl _⟩, (rowHasContent_iff m landed x).1 hrow⟩
          · have := hmem x hx
            exact ⟨⟨by push_cast; omega, by omega⟩, this.2⟩
        · rw [List.length_cons]; omega
        · intro x h1 h2 h3 h4
          have hxr : x ≠ r := fun h => h4 (h ▸ List.mem_cons_self _ _)
          have hxL : x ∉ L := fun h => h4 (List.mem_cons_of_mem _ h)
          obtain ⟨h5, h6⟩ := hmiss x (by push_cast at h1; omega) (by omega) h3 hxL
          refine ⟨by rw [List.length_cons]; omega, fun y hy => ?_⟩
          rcases List.mem_cons.1 hy with rfl | hy
          · omega
          · exact h6 y hy
      · rw [if_neg hrow]
        obtain ⟨L, hL, hpw, hmem, hle, hmiss⟩ := ih (r - 1) acc hacc
        refine ⟨L, hL, hpw, ?_, hle, ?_⟩
        · intro x hx
          have := hmem x hx
          exact ⟨⟨by push_cast; omega, by omega⟩, this.2⟩
        · intro x h1 h2 h3 h4
          have hxr : x ≠ r := fun h => hrow ((rowHasContent_iff m landed r).2 (h ▸ h3))
          exact hmiss x (by push_cast at h1; omega) (by omega) h3 h4
    · rw [if_neg hlen]
      refine ⟨[], by simp, List.Pairwise.nil, by simp, by simpa using hacc, ?_⟩
      intro x _ _ _ _
      exact ⟨by rw [List.length_nil]; omega, by simp⟩

/-- The loop that lists the rows of the span: `hi, hi + 1, …` (`n` rows), in this order. -/
theorem spanLoop_eq (n : Nat) (hi : Int) (acc : List Int) :
    forUp (fun r (rows : List Int) => rows ++ [r]) n hi acc =
      acc ++ (List.range n).map (fun i : Nat => hi + (i : Int)) := by
  induction n generalizing hi acc with
  | zero => simp [forUp]
  | succ n ih =>
    show forUp (fun r (rows : List Int) => rows ++ [r]) n (hi + 1) (acc ++ [hi]) = _
    rw [ih, List.range_succ_eq_map, List.map_cons, List.map_map, List.append_assoc]
    congr 1
    simp only [List.singleton_append, Nat.cast_zero, add_zero, List.cons.injEq, true_and]
    apply List.map_congr_left
    intro i _
    simp only [Function.comp, Nat.succ_eq_add_one]
    push_cast
    ring

/-- When the region has a content row, `StartClearForMonitor` records the span from the
`ROWS_TO_CLEAR`-th content row from the bottom (or the topmost one) down to the
bottom-most content row and enters the flash phase. -/
theorem StartClearForMonitor_spec (m : MonitorGrid) (landed : Landed) (mci : MonitorClearInfo)
    (x0 : Int) (hx0 : m.top ≤ x0 ∧ x0 < m.bottom) (hfill : RowFilled m landed x0) :
    ∃ lo hi : Int, IsLowestContent m landed lo ∧ IsHighestOfSpan m landed hi ∧ hi ≤ lo ∧
      StartClearForMonitor m landed mci =
        { mci with
          dropOffset := 0
          lowestRow := lo
          highestRow := hi
          rows := rowSpan hi lo
          dropTarget := (((lo - hi + 1) * CELL : Int) : ℚ)
          phase := CLEAR_FLASH
          flashTick := 20 } := by
  obtain ⟨L, hL, hpw, hmem, hle, hmiss⟩ :=
    collectContentRows_spec m landed (m.bottom - m.top).toNat (m.bottom - 1) []
      (Nat.zero_le _)
  rw [List.nil_append] at hL
  simp only [List.length_nil, zero_add] at hle hmiss
  have hrange : ∀ x ∈ L, (m.top ≤ x ∧ x < m.bottom) ∧ RowFilled m landed x := by
    intro x hx
    have := hmem x hx
    exact ⟨by omega, this.2⟩
  have hmiss' : ∀ x : Int, m.top ≤ x → x < m.bottom → RowFilled m landed x → x ∉ L →
      L.length = ROWS_TO_CLEAR ∧ ∀ y ∈ L, x < y := by
    intro x h1 h2 h3 h4
    exact hmiss x (by omega) (by omega) h3 h4
  have hne : L ≠ [] := by
    intro hnil
    have := (hmiss' x0 hx0.1 hx0.2 hfill (by rw [hnil]; simp)).1
    rw [hnil] at this
    exact absurd this (by decide)
  obtain ⟨lo, t, hLcons⟩ := List.exists_cons_of_ne_nil hne
  obtain ⟨hi, hlast⟩ : ∃ hi, L.getLast? = some hi := by
    cases h : L.getLast? with
    | none => exact absurd (List.getLast?_eq_none_iff.1 h) hne
    | some hi => exact ⟨hi, rfl⟩
  obtain ⟨init, hLinit⟩ := List.getLast?_eq_some_iff.1 hlast
  have hloL : lo ∈ L := by rw [hLcons]; exact List.mem_cons_self _ _
  have hhiL : hi ∈ L := by rw [hLinit]; simp
  have hle_lo : ∀ y ∈ L, y ≤ lo := by
    intro y hy
    rw [hLcons] at hy hpw
    rcases List.mem_cons.1 hy with rfl | hy
    · exact le_refl _
    · exact le_of_lt ((List.pairwise_cons.1 hpw).1 y hy)
  have hge_hi : ∀ y ∈ L, hi ≤ y := by
    intro y hy
    rw [hLinit] at hy hpw
    rcases List.mem_append.1 hy with hy | hy
    · exact le_of_lt ((List.pairwise_append.1 hpw).2.2 y hy hi (List.mem_singleton_self _))
    · rw [List.mem_singleton.1 hy]
  have hnodup : L.Nodup := hpw.imp (fun h => (ne_of_lt h).symm)
  refine ⟨lo, hi, ⟨(hrange lo hloL).1, (hrange lo hloL).2, ?_⟩,
    ⟨(hrange hi hhiL).1, (hrange hi hhiL).2, L.toFinset, ?_, ?_⟩, hge_hi lo hloL, ?_⟩
  · intro r h1 h2 h3
    have hr : r ∉ L := fun h => by have := hle_lo r h; omega
    have := (hmiss' r (by have := (hrange lo hloL).1; omega) h2 h3 hr).2 lo hloL
    omega
  · intro r
    rw [List.mem_toFinset]
    constructor
    · intro h
      exact ⟨⟨hge_hi r h, (hrange r h).1.2⟩, (hrange r h).2⟩
    · rintro ⟨⟨h1, h2⟩, h3⟩
      by_contra hr
      have := (hmiss' r (by have := (hrange hi hhiL).1; omega) h2 h3 hr).2 hi hhiL
      omega
  · rw [List.toFinset_card_of_nodup hnodup]
    by_cases hlen : L.length = ROWS_TO_CLEAR
    · exact Or.inl hlen
    · refine Or.inr ⟨by omega, fun r h1 h2 h3 => ?_⟩
      have hr : r ∉ L := fun h => by have := hge_hi r h; omega
      exact hlen (hmiss' r h1 (by have := (hrange hi hhiL).1; omega) h3 hr).1
  · have hhead : L.head? = some lo := by rw [hLcons]; rfl
    unfold StartClearForMonitor
    simp only [hL, hhead, hlast, spanLoop_eq, List.nil_append, rowSpan]

/-- A fill level at or above the threshold means that the region has a content row. -/
theorem exists_content_of_fill (m : MonitorGrid) (landed : Landed)
    (h : GetMonitorFillPct m landed ≥ FILL_CLEAR_PCT) :
    ∃ x0 : Int, (m.top ≤ x0 ∧ x0 < m.bottom) ∧ RowFilled m landed x0 := by
  obtain ⟨S, hS, _, hcount⟩ := countFilledRows_spec m landed
  unfold GetMonitorFillPct FILL_CLEAR_PCT at h
  simp only [hcount, Int.cast_natCast] at h
  by_cases hH : m.bottom - m.top ≤ 0
  · rw [if_pos hH] at h
    norm_num at h
  · rw [if_neg hH] at h
    have hcard : S.card ≠ 0 := by
      intro h0
      rw [h0] at h
      norm_num at h
    obtain ⟨x0, hx0⟩ := Finset.card_pos.1 (Nat.pos_of_ne_zero hcard)
    exact ⟨x0, (hS x0).1 hx0⟩

/-- C8: Idle -> Flash. For a controller in `CLEAR_IDLE` whose region has fill `>= 0.30`,
one controller step leaves the landed grid unchanged and sets `phase = CLEAR_FLASH`,
`flashTick = 20`, `lowestRow` = the bottom-most content row of the region, `highestRow` =
the 4th content row counting upward from the bottom (or the topmost content row when
fewer than 4 rows have content), `rows` = the ascending contiguous list
`highestRow..lowestRow`, and `dropTarget = (lowestRow - highestRow + 1) * CELL`; if the
fill is `< 0.30` the controller stays idle and nothing changes. -/
theorem updateClear_idle (region : MonitorGrid) (landed : Landed) (mci : MonitorClearInfo)
    (hidle : mci.phase = CLEAR_IDLE) :
    (GetMonitorFillPct region landed ≥ FILL_CLEAR_PCT →
      ∃ lo hi : Int, IsLowestContent region landed lo ∧ IsHighestOfSpan region landed hi ∧
        hi ≤ lo ∧
        updateClear region landed mci =
          (landed,
            { mci with
              phase := CLEAR_FLASH
              flashTick := 20
              lowestRow := lo
              highestRow := hi
              rows := rowSpan hi lo
              dropTarget := (((lo - hi + 1) * CELL : Int) : ℚ)
              dropOffset := 0 })) ∧
    (GetMonitorFillPct region landed < FILL_CLEAR_PCT →
      updateClear region landed mci = (landed, mci)) := by
  constructor
  · intro hfill
    obtain ⟨x0, hx0, hrow⟩ := exists_content_of_fill region landed hfill
    obtain ⟨lo, hi, hlo, hhi, hle, hstart⟩ :=
      StartClearForMonitor_spec region landed mci x0 hx0 hrow
    refine ⟨lo, hi, hlo, hhi, hle, ?_⟩
    simp only [updateClear, hidle, hfill, if_true, hstart]
  · intro hfill
    have : ¬ (GetMonitorFillPct region landed ≥ FILL_CLEAR_PCT) := not_le.2 hfill
    simp only [updateClear, hidle, this, if_false]

/-- Fill level of scenario A: 4 of the 10 rows have content. -/
theorem fullRowsGrid_fill : GetMonitorFillPct region10 fullRowsGrid = 4 / 10 := by
  have hc : countFilledRows region10 fullRowsGrid = 4 := by decide
  have hH : ¬ (region10.bottom - region10.top ≤ 0) := by decide
  have hval : region10.bottom - region10.top = 10 := by decide
  unfold GetMonitorFillPct
  simp only [hc, hH, if_false, hval]
  norm_num

/-- In scenario A the idle branch of the controller step calls `StartClearForMonitor`. -/
theorem updateClear_scenarioA :
    updateClear region10 fullRowsGrid idleInfo =
      (fullRowsGrid, StartClearForMonitor region10 fullRowsGrid idleInfo) := by
  have hfill : GetMonitorFillPct region10 fullRowsGrid ≥ FILL_CLEAR_PCT := by
    rw [fullRowsGrid_fill]; norm_num [FILL_CLEAR_PCT]
  have hidle : idleInfo.phase = CLEAR_IDLE := rfl
  simp only [updateClear, hidle, hfill, if_true]

/-- Witness of C8 (scenario A): a 10 x 10 region with rows 6..9 full has fill 0.4; one
controller step from idle gives the flash phase with the span `[6, 9]`. -/
theorem updateClear_idle_witness :
    idleInfo.phase = CLEAR_IDLE ∧
    GetMonitorFillPct region10 fullRowsGrid = 4 / 10 ∧
    GetMonitorFillPct region10 fullRowsGrid ≥ FILL_CLEAR_PCT ∧
    (∃ lo hi : Int, IsLowestContent region10 fullRowsGrid lo ∧
        IsHighestOfSpan region10 fullRowsGrid hi ∧ hi ≤ lo ∧
        updateClear region10 fullRowsGrid idleInfo =
          (fullRowsGrid,
            { idleInfo with
              phase := CLEAR_FLASH
              flashTick := 20
              lowestRow := lo
              highestRow := hi
              rows := rowSpan hi lo
              dropTarget := (((lo - hi + 1) * CELL : Int) : ℚ)
              dropOffset := 0 })) ∧
    (updateClear region10 fullRowsGrid idleInfo).2.phase = CLEAR_FLASH ∧
    (updateClear region10 fullRowsGrid idleInfo).2.highestRow = 6 ∧
    (updateClear region10 fullRowsGrid idleInfo).2.lowestRow = 9 ∧
    (updateClear region10 fullRowsGrid idleInfo).2.rows = [6, 7, 8, 9] ∧
    (updateClear region10 fullRowsGrid idleInfo).2.flashTick = 20 :=
  ⟨rfl, fullRowsGrid_fill, by rw [fullRowsGrid_fill]; norm_num [FILL_CLEAR_PCT],
    (updateClear_idle region10 fullRowsGrid idleInfo rfl).1
      (by rw [fullRowsGrid_fill]; norm_num [FILL_CLEAR_PCT]),
    by rw [updateClear_scenarioA]; decide, by rw [updateClear_scenarioA]; decide,
    by rw [updateClear_scenarioA]; decide, by rw [updateClear_scenarioA]; decide,
    by rw [updateClear_scenarioA]; decide⟩

/-! ## Flash phase -/

/-- Closed form of the clearing loop of `ApplyClearAndStartDrop`. -/
theorem clearRows_apply (m : MonitorGrid) (rows : List Int) (landed : Landed) (r c : Int) :
    clearRows m rows landed r c =
      if r ∈ rows ∧ m.left ≤ c ∧ c < m.right then emptyCell else landed r c := by
  unfold clearRows
  induction rows generalizing landed with
  | nil => simp
  | cons a rows ih =>
    rw [List.foldl_cons, ih, fillRow_apply]
    by_cases h1 : r ∈ rows ∧ m.left ≤ c ∧ c < m.right
    · have h2 : r ∈ a :: rows ∧ m.left ≤ c ∧ c < m.right :=
        ⟨List.mem_cons_of_mem _ h1.1, h1.2⟩
      rw [if_pos h1, if_pos h2]
    · rw [if_neg h1]
      by_cases h3 : r = a ∧ m.left ≤ c ∧ c < m.left + ((m.right - m.left).toNat : Int)
      · have h2 : r ∈ a :: rows ∧ m.left ≤ c ∧ c < m.right :=
          ⟨h3.1 ▸ List.mem_cons_self _ _, by omega⟩
        rw [if_pos h3, if_pos h2]
      · have h2 : ¬ (r ∈ a :: rows ∧ m.left ≤ c ∧ c < m.right) := by
          rintro ⟨h4, h5⟩
          rcases List.mem_cons.1 h4 with h6 | h6
          · exact h3 ⟨h6, by omega⟩
          · exact h1 ⟨h6, h5⟩
        rw [if_neg h3, if_neg h2]

/-- A flash step with more than one tick left only counts down. -/
theorem updateClear_flash_hold (m : MonitorGrid) (landed : Landed) (mci : MonitorClearInfo)
    (hphase : mci.phase = CLEAR_FLASH) (htick : 1 < mci.flashTick) :
    updateClear m landed mci = (landed, { mci with flashTick := mci.flashTick - 1 }) := by
  have : ¬ (mci.flashTick - 1 ≤ 0) := by omega
  simp only [updateClear, hphase, this, if_false]

/-- The flash step with one tick left (or none) commits the clear and starts the drop. -/
theorem updateClear_flash_end (m : MonitorGrid) (landed : Landed) (mci : MonitorClearInfo)
    (hphase : mci.phase = CLEAR_FLASH) (htick : mci.flashTick ≤ 1) :
    updateClear m landed mci =
      (clearRows m mci.rows landed,
        { mci with flashTick := mci.flashTick - 1, dropOffset := 0, phase := CLEAR_DROP }) := by
  have : mci.flashTick - 1 ≤ 0 := by omega
  simp only [updateClear, hphase, this, if_true, ApplyClearAndStartDrop]

/-- During the first 19 steps of a flash started at 20 the controller only counts down. -/
theorem runClear_flash (m : MonitorGrid) (env : Nat → Landed → Landed) (landed : Landed)
    (mci : MonitorClearInfo) (hphase : mci.phase = CLEAR_FLASH) (htick : mci.flashTick = 20)
    (k : Nat) (hk : k ≤ 19) :
    (runClear m env k (landed, mci)).2 = { mci with flashTick := 20 - (k : Int) } := by
  induction k with
  | zero =>
    show mci = _
    rw [← htick]
    simp
  | succ k ih =>
    have ih' := ih (by omega)
    show (updateClear m (env k (runClear m env k (landed, mci)).1)
      (runClear m env k (landed, mci)).2).2 = _
    rw [ih', updateClear_flash_hold m _ { mci with flashTick := 20 - (k : Int) } hphase
      (by show 1 < 20 - (k : Int); omega)]
    show { mci with flashTick := 20 - (k : Int) - 1 } = _
    congr 1
    push_cast
    ring

/-- A controller step from idle that ends in the flash phase has run
`StartClearForMonitor` on a region with content: 20 flash ticks, a span `hi..lo`, and a
drop target of as many cells as the span has rows. -/
theorem updateClear_entered_flash (m : MonitorGrid) (landed : Landed) (mci : MonitorClearInfo)
    (hidle : mci.phase = CLEAR_IDLE)
    (hentered : (updateClear m landed mci).2.phase = CLEAR_FLASH) :
    (updateClear m landed mci).1 = landed ∧
    (updateClear m landed mci).2.phase = CLEAR_FLASH ∧
    (updateClear m landed mci).2.flashTick = 20 ∧
    (updateClear m landed mci).2.dropTarget =
      ((((updateClear m landed mci).2.rows.length : Int) * CELL : Int) : ℚ) := by
  by_cases hfill : GetMonitorFillPct m landed ≥ FILL_CLEAR_PCT
  · obtain ⟨x0, hx0, hrow⟩ := exists_content_of_fill m landed hfill
    obtain ⟨lo, hi, _, _, hle, hstart⟩ := StartClearForMonitor_spec m landed mci x0 hx0 hrow
    have heq : updateClear m landed mci = (landed, StartClearForMonitor m landed mci) := by
      simp only [updateClear, hidle, hfill, if_true]
    rw [heq, hstart]
    refine ⟨rfl, rfl, rfl, ?_⟩
    show (((lo - hi + 1) * CELL : Int) : ℚ) = ((((rowSpan hi lo).length : Int) * CELL : Int) : ℚ)
    have hlen : ((rowSpan hi lo).length : Int) = lo - hi + 1 := by
      unfold rowSpan
      rw [List.length_map, List.length_range]
      omega
    rw [hlen]
  · have heq : updateClear m landed mci = (landed, mci) := by
      simp only [updateClear, hidle, hfill, if_false]
    rw [heq] at hentered
    rw [hidle] at hentered
    exact absurd hentered (by decide)

/-- C9: the flash lasts exactly 20 ticks. A controller that has just entered
`CLEAR_FLASH` (by a step from idle; `flashTick = 20`) is still in `CLEAR_FLASH` after each
of the next 19 controller steps, whatever happens to the landed grid in between; on the
20th step its phase becomes `CLEAR_DROP`, `dropOffset = 0`, the recorded rows are kept,
`dropTarget` is still (number of rows of the span) * `CELL`, and every cell of every row
of the recorded span within the columns `[left, right)` of the region is empty. -/
theorem flash_lasts_twenty_ticks (region : MonitorGrid) (env : Nat → Landed → Landed)
    (landed : Landed) (mci : MonitorClearInfo) (hidle : mci.phase = CLEAR_IDLE)
    (hentered : (updateClear region landed mci).2.phase = CLEAR_FLASH) :
    (updateClear region landed mci).2.flashTick = 20 ∧
    (∀ k : Nat, k ≤ 19 →
      (runClear region env k (updateClear region landed mci)).2.phase = CLEAR_FLASH) ∧
    (runClear region env 20 (updateClear region landed mci)).2.phase = CLEAR_DROP ∧
    (runClear region env 20 (updateClear region landed mci)).2.dropOffset = 0 ∧
    (runClear region env 20 (updateClear region landed mci)).2.rows =
      (updateClear region landed mci).2.rows ∧
    (runClear region env 20 (updateClear region landed mci)).2.dropTarget =
      ((((updateClear region landed mci).2.rows.length : Int) * CELL : Int) : ℚ) ∧
    ∀ r ∈ (updateClear region landed mci).2.rows, ∀ c : Int,
      region.left ≤ c → c < region.right →
      (runClear region env 20 (updateClear region landed mci)).1 r c = emptyCell := by
  obtain ⟨_, hphase, htick, htarget⟩ := updateClear_entered_flash region landed mci hidle hentered
  generalize updateClear region landed mci = st at hphase htick htarget ⊢
  obtain ⟨g, f⟩ := st
  simp only at hphase htick htarget ⊢
  have hrun := runClear_flash region env g f hphase htick
  have h20 : runClear region env 20 (g, f) =
      (clearRows region f.rows (env 19 (runClear region env 19 (g, f)).1),
        { f with flashTick := 0, dropOffset := 0, phase := CLEAR_DROP }) := by
    show updateClear region (env 19 (runClear region env 19 (g, f)).1)
      (runClear region env 19 (g, f)).2 = _
    rw [hrun 19 (le_refl _),
      updateClear_flash_end region _ { f with flashTick := 20 - ((19 : Nat) : Int) } hphase
        (by show 20 - ((19 : Nat) : Int) ≤ 1; decide)]
    rfl
  refine ⟨htick, fun k hk => ?_, ?_, ?_, ?_, ?_, ?_⟩
  · rw [hrun k hk]
    exact hphase
  · rw [h20]
  · rw [h20]
  · rw [h20]
  · rw [h20]
    exact htarget
  · intro r hr c hc1 hc2
    rw [h20]
    show clearRows region f.rows _ r c = emptyCell
    rw [clearRows_apply, if_pos ⟨hr, hc1, hc2⟩]

/-- Witness of C9 (scenario B): after the step that starts the flash on the 10 x 10
region with rows 6..9 full, the controller is in the flash phase for 19 more steps and
the 20th step gives the drop phase, a drop target of `4 * CELL` and empty rows 6..9. -/
theorem flash_lasts_twenty_ticks_witness :
    idleInfo.phase = CLEAR_IDLE ∧
    (updateClear region10 fullRowsGrid idleInfo).2.phase = CLEAR_FLASH ∧
    (updateClear region10 fullRowsGrid idleInfo).2.rows = [6, 7, 8, 9] ∧
    (runClear region10 (fun _ g => g) 19
      (updateClear region10 fullRowsGrid idleInfo)).2.phase = CLEAR_FLASH ∧
    (runClear region10 (fun _ g => g) 20
      (updateClear region10 fullRowsGrid idleInfo)).2.phase = CLEAR_DROP ∧
    (runClear region10 (fun _ g => g) 20
      (updateClear region10 fullRowsGrid idleInfo)).2.dropOffset = 0 ∧
    (runClear region10 (fun _ g => g) 20
      (updateClear region10 fullRowsGrid idleInfo)).2.dropTarget = (((4 * CELL : Int)) : ℚ) ∧
    (runClear region10 (fun _ g => g) 20
      (updateClear region10 fullRowsGrid idleInfo)).1 6 0 = emptyCell ∧
    (runClear region10 (fun _ g => g) 20
      (updateClear region10 fullRowsGrid idleInfo)).1 9 9 = emptyCell := by
  have hentered : (updateClear region10 fullRowsGrid idleInfo).2.phase = CLEAR_FLASH := by
    rw [updateClear_scenarioA]; decide
  have hrows : (updateClear region10 fullRowsGrid idleInfo).2.rows = [6, 7, 8, 9] := by
    rw [updateClear_scenarioA]; decide
  obtain ⟨_, hflash, hdrop, hoff, _, htarget, hempty⟩ :=
    flash_lasts_twenty_ticks region10 (fun _ g => g) fullRowsGrid idleInfo rfl hentered
  refine ⟨rfl, hentered, hrows, hflash 19 (le_refl _), hdrop, hoff, ?_, ?_, ?_⟩
  · rw [htarget, hrows]
    rfl
  · exact hempty 6 (by rw [hrows]; decide) 0 (by decide) (by decide)
  · exact hempty 9 (by rw [hrows]; decide) 9 (by decide) (by decide)

/-! ## Phase order -/

/-- `StartClearForMonitor` either enters the flash phase or leaves the phase alone. -/
theorem StartClearForMonitor_phase (m : MonitorGrid) (landed : Landed)
    (mci : MonitorClearInfo) :
    (StartClearForMonitor m landed mci).phase = mci.phase ∨
      (StartClearForMonitor m landed mci).phase = CLEAR_FLASH := by
  unfold StartClearForMonitor
  simp only []
  split
  · exact Or.inr rfl
  · exact Or.inl rfl

/-- A controller step keeps the phase or moves it to the next phase of the cycle. -/
theorem updateClear_phase (m : MonitorGrid) (landed : Landed) (mci : MonitorClearInfo) :
    (updateClear m landed mci).2.phase = mci.phase ∨
      (updateClear m landed mci).2.phase = nextPhase mci.phase := by
  cases hp : mci.phase with
  | CLEAR_IDLE =>
    by_cases hfill : GetMonitorFillPct m landed ≥ FILL_CLEAR_PCT
    · have heq : updateClear m landed mci = (landed, StartClearForMonitor m landed mci) := by
        simp only [updateClear, hp, hfill, if_true]
      rw [heq]
      rcases StartClearForMonitor_phase m landed mci with h | h
      · exact Or.inl (h.trans hp)
      · exact Or.inr h
    · have heq : updateClear m landed mci = (landed, mci) := by
        simp only [updateClear, hp, hfill, if_false]
      rw [heq]
      exact Or.inl hp
  | CLEAR_FLASH =>
    by_cases htick : mci.flashTick - 1 ≤ 0
    · right
      simp only [updateClear, hp, htick, if_true, ApplyClearAndStartDrop]
      rfl
    · left
      simp only [updateClear, hp, htick, if_false]
  | CLEAR_DROP =>
    by_cases hlt : mci.dropOffset < mci.dropTarget
    · by_cases hge : mci.dropOffset + (3 + mci.dropOffset * (5 / 100)) ≥ mci.dropTarget
      · right
        simp only [updateClear, hp, hlt, hge, if_true]
        rfl
      · left
        simp only [updateClear, hp, hlt, hge, if_true, if_false]
    · right
      simp only [updateClear, hp, hlt, if_false]
      rfl

/-- C10: phase order. One controller step changes the phase only along Idle -> Flash,
Flash -> Drop or Drop -> Idle, or leaves it unchanged; there is never a step Idle -> Drop,
Flash -> Idle or Drop -> Flash. Hence along every run of the controller, whatever the
rest of the tick does to the landed grid, each change of phase goes to the next phase of
the cycle Idle, Flash, Drop, Idle. -/
theorem updateClear_phase_order (region : MonitorGrid) (landed : Landed)
    (mci : MonitorClearInfo) :
    ((updateClear region landed mci).2.phase = mci.phase ∨
      (mci.phase = CLEAR_IDLE ∧ (updateClear region landed mci).2.phase = CLEAR_FLASH) ∨
      (mci.phase = CLEAR_FLASH ∧ (updateClear region landed mci).2.phase = CLEAR_DROP) ∨
      (mci.phase = CLEAR_DROP ∧ (updateClear region landed mci).2.phase = CLEAR_IDLE)) ∧
    ¬ (mci.phase = CLEAR_IDLE ∧ (updateClear region landed mci).2.phase = CLEAR_DROP) ∧
    ¬ (mci.phase = CLEAR_FLASH ∧ (updateClear region landed mci).2.phase = CLEAR_IDLE) ∧
    ¬ (mci.phase = CLEAR_DROP ∧ (updateClear region landed mci).2.phase = CLEAR_FLASH) ∧
    ∀ (env : Nat → Landed → Landed) (k : Nat),
      (runClear region env (k + 1) (landed, mci)).2.phase =
          (runClear region env k (landed, mci)).2.phase ∨
        (runClear region env (k + 1) (landed, mci)).2.phase =
          nextPhase (runClear region env k (landed, mci)).2.phase := by
  have key := updateClear_phase region landed mci
  refine ⟨?_, ?_, ?_, ?_, fun env k => ?_⟩
  · rcases key with h | h
    · exact Or.inl h
    · right
      cases hp : mci.phase with
      | CLEAR_IDLE => rw [hp] at h; exact Or.inl ⟨rfl, h⟩
      | CLEAR_FLASH => rw [hp] at h; exact Or.inr (Or.inl ⟨rfl, h⟩)
      | CLEAR_DROP => rw [hp] at h; exact Or.inr (Or.inr ⟨rfl, h⟩)
  · rintro ⟨hp, hq⟩
    rw [hp, hq] at key
    revert key
    decide
  · rintro ⟨hp, hq⟩
    rw [hp, hq] at key
    revert key
    decide
  · rintro ⟨hp, hq⟩
    rw [hp, hq] at key
    revert key
    decide
  · exact updateClear_phase region _ _

/-! ## Row-stepped collision scan -/

/-- The timers and the tail change leave the head position, the column, the piece type
and the stream kind alone. -/
theorem preMove_fields (mon : MonitorGrid) (landed : Landed) (s : MatrixStream) (rng : Rng) :
    (preMove mon landed s rng).1.y = s.y ∧ (preMove mon landed s rng).1.col = s.col ∧
    (preMove mon landed s rng).1.pieceType = s.pieceType ∧
    (preMove mon landed s rng).1.hasPiece = s.hasPiece ∧
    (preMove mon landed s rng).1.monitorIdx = s.monitorIdx := by
  unfold preMove mutateTail updateTimers
  simp only []
  split_ifs <;> exact ⟨rfl, rfl, rfl, rfl, rfl⟩

/-- When some row of the scan window fails, the scan stops at the least failing row and
`landRow` is the row above it. -/
theorem scanLandRow_spec (pieceType rotation col : Int) (mon : MonitorGrid) (landed : Landed)
    (checkFrom endRow t : Int) (hlo : checkFrom ≤ t) (hhi : t ≤ endRow)
    (hfail : CanPieceFitAt pieceType rotation t col mon landed = false) :
    ∃ t0 : Int, (checkFrom ≤ t0 ∧ t0 ≤ t) ∧
      CanPieceFitAt pieceType rotation t0 col mon landed = false ∧
      (∀ u : Int, checkFrom ≤ u → u < t0 →
        CanPieceFitAt pieceType rotation u col mon landed = true) ∧
      scanLandRow pieceType rotation col mon landed checkFrom endRow = t0 - 1 := by
  unfold scanLandRow
  cases hf : findUp (fun testRow => !CanPieceFitAt pieceType rotation testRow col mon landed)
      (endRow + 1 - checkFrom).toNat checkFrom with
  | none =>
    have := (findUp_eq_none_iff _ _ _).1 hf t hlo (by omega)
    simp only [hfail, Bool.not_false] at this
    exact absurd this (by decide)
  | some t0 =>
    obtain ⟨h1, h2, h3, h4⟩ := (findUp_eq_some_iff _ _ _ _).1 hf
    have hle : t0 ≤ t := by
      by_contra hgt
      have := h4 t hlo (by omega)
      simp only [hfail, Bool.not_false] at this
      exact absurd this (by decide)
    refine ⟨t0, ⟨h1, hle⟩, by simpa using h3, fun u hu1 hu2 => ?_, rfl⟩
    simpa using h4 u hu1 hu2

/-- The flag `anyOnScreen` is false exactly when no occupied mask cell has its row in the grid. -/
theorem anyOnScreen_eq_false_iff (gridRows pieceType rotation landRow : Int) :
    anyOnScreen gridRows pieceType rotation landRow = false ↔
      ∀ r c : Nat, r < 4 → c < 4 → maskCell pieceType rotation r c = true →
        ¬ (0 ≤ landRow + (r : Int) ∧ landRow + (r : Int) < gridRows) := by
  unfold anyOnScreen
  rw [← Bool.not_eq_true, List.any_eq_true]
  simp only [List.any_eq_true, List.mem_range, Bool.and_eq_true, decide_eq_true_eq, ge_iff_le,
    not_exists, not_and]
  constructor
  · intro h r c hr hc hm h0
    exact h r hr c hc ⟨hm, h0⟩
  · intro h r hr c hc hb
    exact h r c hr hc hb.1 hb.2

/-- The landing commit leaves the grid that `LandPiece` gives for the head row `landRow`:
where the commit is skipped, `LandPiece` would not have written any cell. -/
theorem commitLanding_grid (gridRows gridCols : Int) (landed : Landed) (s : MatrixStream)
    (landRow : Int) :
    (commitLanding gridRows gridCols landed s landRow).1 =
      LandPiece gridRows gridCols landed { s with y := (landRow : ℚ) } := by
  have hkeep : (∀ r c : Nat, r < 4 → c < 4 → maskCell s.pieceType s.rotation r c = true →
        ¬ (0 ≤ landRow + (r : Int) ∧ landRow + (r : Int) < gridRows)) →
      LandPiece gridRows gridCols landed { s with y := (landRow : ℚ) } = landed := by
    intro h
    funext gr gc
    apply (LandPiece_apply gridRows gridCols landed _ gr gc).2
    rintro ⟨r, c, hr, hc, hm, h1, _, h3, h4, _, _⟩
    have hy : truncInt ({ s with y := (landRow : ℚ) } : MatrixStream).y = landRow :=
      truncInt_intCast landRow
    rw [hy] at h1
    exact h r c hr hc hm ⟨by omega, by omega⟩
  unfold commitLanding
  by_cases h3 : landRow ≥ -3
  · rw [if_pos h3]
    simp only []
    cases hon : anyOnScreen gridRows s.pieceType s.rotation landRow
    · simp only [Bool.false_eq_true, if_false]
      exact (hkeep ((anyOnScreen_eq_false_iff _ _ _ _).1 hon)).symm
    · simp only [if_true]
  · rw [if_neg h3]
    refine (hkeep (fun r c hr _ _ => ?_)).symm
    omega

/-- The respawn does not read the head position: the stream committed at `landRow` and
the stream before the commit respawn alike. -/
theorem ResetStream_commitLanding (gridRows gridCols : Int) (mon : MonitorGrid)
    (landed : Landed) (s : MatrixStream) (landRow : Int) (rng : Rng) :
    ResetStream mon (commitLanding gridRows gridCols landed s landRow).2 rng =
      ResetStream mon s rng := by
  unfold commitLanding
  by_cases h3 : landRow ≥ -3
  · rw [if_pos h3]
    simp only []
    cases anyOnScreen gridRows s.pieceType s.rotation landRow <;> rfl
  · rw [if_neg h3]

/-- When the scan of a piece stream finds `landRow`, the stream is committed at `landRow`
and respawned. -/
theorem moveStream_landing (gridRows gridCols : Int) (mon : MonitorGrid) (speedMul : ℚ)
    (landed : Landed) (s : MatrixStream) (rng : Rng) (landRow : Int)
    (hp : s.hasPiece = true) (hend : truncInt (s.y + s.speed * speedMul) ≥ -3)
    (hscan : scanLandRow s.pieceType s.rotation s.col mon landed (max (truncInt s.y) (-3))
      (truncInt (s.y + s.speed * speedMul)) = landRow)
    (hne : landRow ≠ -999) :
    moveStream gridRows gridCols mon speedMul landed s rng =
      (LandPiece gridRows gridCols landed { s with y := (landRow : ℚ) },
        ResetStream mon s rng) := by
  have hcf : (if truncInt s.y < -3 then (-3 : Int) else truncInt s.y) =
      max (truncInt s.y) (-3) := by
    split_ifs <;> omega
  unfold moveStream
  simp only [hp, Bool.not_true, Bool.false_eq_true, if_false, hend, if_true, hcf, hscan,
    true_and, hne, ne_eq, not_false_eq_true, commitLanding_grid, ResetStream_commitLanding]

/-- C2: row-stepped collision never tunnels. In one `Update` step of a piece-bearing
stream with head row `a = (int)y` and destination row `b = (int)(y + speed * speedMul)`
(speed and rotation as they are when the movement is computed), if `CanPieceFitAt` fails
at some row `t` with `max(a, -3) <= t <= b`, then the stream lands in this tick: with `t0`
the smallest failing row of that range, `landRow = t0 - 1`, the grid after the step is the
grid of `LandPiece` for head row `t0 - 1`, and the stream is respawned by `ResetStream`.
So the landing row is strictly below (in index) every failing row of the range and the
piece fits at every scanned row before `t0`. -/
theorem scan_never_tunnels (gridRows gridCols : Int) (mon : MonitorGrid)
    (monitorClearing : Bool) (landed : Landed) (s : MatrixStream) (rng : Rng) (t : Int)
    (hp : s.hasPiece = true)
    (hlo : max (truncInt s.y) (-3) ≤ t)
    (hhi : t ≤ truncInt (s.y + (preMove mon landed s rng).1.speed * speedMulOf monitorClearing))
    (hfail : CanPieceFitAt s.pieceType (preMove mon landed s rng).1.rotation t s.col mon
      landed = false) :
    ∃ t0 : Int, (max (truncInt s.y) (-3) ≤ t0 ∧ t0 ≤ t) ∧
      CanPieceFitAt s.pieceType (preMove mon landed s rng).1.rotation t0 s.col mon landed
        = false ∧
      (∀ u : Int, max (truncInt s.y) (-3) ≤ u → u < t0 →
        CanPieceFitAt s.pieceType (preMove mon landed s rng).1.rotation u s.col mon landed
          = true) ∧
      (∀ t' : Int, max (truncInt s.y) (-3) ≤ t' →
        t' ≤ truncInt (s.y + (preMove mon landed s rng).1.speed * speedMulOf monitorClearing) →
        CanPieceFitAt s.pieceType (preMove mon landed s rng).1.rotation t' s.col mon landed
          = false → t0 - 1 < t') ∧
      scanLandRow s.pieceType (preMove mon landed s rng).1.rotation s.col mon landed
        (max (truncInt s.y) (-3))
        (truncInt (s.y + (preMove mon landed s rng).1.speed * speedMulOf monitorClearing))
        = t0 - 1 ∧
      (updateStream gridRows gridCols mon monitorClearing landed s rng).1 =
        LandPiece gridRows gridCols landed
          { (preMove mon landed s rng).1 with y := ((t0 - 1 : Int) : ℚ) } ∧
      (updateStream gridRows gridCols mon monitorClearing landed s rng).2 =
        ResetStream mon (preMove mon landed s rng).1 (preMove mon landed s rng).2 := by
  obtain ⟨hy, hcol, hpt, hhp, _⟩ := preMove_fields mon landed s rng
  obtain ⟨t0, ⟨h1, h2⟩, h3, h4, h5⟩ :=
    scanLandRow_spec s.pieceType (preMove mon landed s rng).1.rotation s.col mon landed
      (max (truncInt s.y) (-3))
      (truncInt (s.y + (preMove mon landed s rng).1.speed * speedMulOf monitorClearing))
      t hlo hhi hfail
  have hmove := moveStream_landing gridRows gridCols mon (speedMulOf monitorClearing) landed
    (preMove mon landed s rng).1 (preMove mon landed s rng).2 (t0 - 1)
    (by rw [hhp]; exact hp) (by rw [hy]; omega) (by rw [hy, hcol, hpt]; exact h5) (by omega)
  refine ⟨t0, ⟨h1, h2⟩, h3, h4, fun t' ht1 _ ht3 => ?_, h5, ?_, ?_⟩
  · by_contra hge
    have := h4 t' ht1 (by omega)
    rw [ht3] at this
    exact absurd this (by decide)
  · show (moveStream gridRows gridCols mon (speedMulOf monitorClearing) landed
      (preMove mon landed s rng).1 (preMove mon landed s rng).2).1 = _
    rw [hmove]
  · show (moveStream gridRows gridCols mon (speedMulOf monitorClearing) landed
      (preMove mon landed s rng).1 (preMove mon landed s rng).2).2 = _
    rw [hmove]

/-- The stream of scenario D when its movement is computed: both timers have counted
down once, nothing else has changed. -/
theorem preMove_fastStream :
    (preMove region10 floorGrid fastStream rngOnes).1 =
      { fastStream with ticksToRotate := 29, ticksToHardDrop := 499 } := by
  rfl

/-- Head row and destination row of scenario D: rows 5 and 11. -/
theorem fastStream_rows :
    truncInt fastStream.y = 5 ∧
    truncInt (fastStream.y + (preMove region10 floorGrid fastStream rngOnes).1.speed *
      speedMulOf false) = 11 := by
  refine ⟨truncInt_intCast 5, ?_⟩
  rw [preMove_fastStream]
  have : fastStream.y + ({ fastStream with ticksToRotate := 29, ticksToHardDrop := 499 } :
      MatrixStream).speed * speedMulOf false = ((11 : Int) : ℚ) := by
    show ((5 : Int) : ℚ) + ((6 : Int) : ℚ) * speedMulOf false = ((11 : Int) : ℚ)
    norm_num [speedMulOf]
  rw [this]
  exact truncInt_intCast 11

/-- Witness of C2 (scenario D): an O piece at head row 5 falling 6 rows per tick above a
filled row 9 would reach row 11; rows 8..11 fail, so it lands at head row 7, on top of the
filled row (cells of rows 7 and 8 written, the filled row untouched), and is respawned in
the same monitor. -/
theorem scan_never_tunnels_witness :
    fastStream.hasPiece = true ∧
    max (truncInt fastStream.y) (-3) ≤ 9 ∧
    (9 : Int) ≤ truncInt (fastStream.y +
      (preMove region10 floorGrid fastStream rngOnes).1.speed * speedMulOf false) ∧
    CanPieceFitAt fastStream.pieceType (preMove region10 floorGrid fastStream rngOnes).1.rotation
      9 fastStream.col region10 floorGrid = false ∧
    scanLandRow fastStream.pieceType (preMove region10 floorGrid fastStream rngOnes).1.rotation
      fastStream.col region10 floorGrid (max (truncInt fastStream.y) (-3))
      (truncInt (fastStream.y +
        (preMove region10 floorGrid fastStream rngOnes).1.speed * speedMulOf false)) = 7 ∧
    (updateStream 10 10 region10 false floorGrid fastStream rngOnes).1 7 5 =
      ⟨true, RGB 0 200 80, 255⟩ ∧
    (updateStream 10 10 region10 false floorGrid fastStream rngOnes).1 8 5 =
      ⟨true, RGB 0 200 80, 255⟩ ∧
    (updateStream 10 10 region10 false floorGrid fastStream rngOnes).1 9 5 = floorGrid 9 5 ∧
    (updateStream 10 10 region10 false floorGrid fastStream rngOnes).2.1.monitorIdx =
      fastStream.monitorIdx := by
  have hrot : (preMove region10 floorGrid fastStream rngOnes).1.rotation = 0 := by
    rw [preMove_fastStream]; rfl
  have hlo : max (truncInt fastStream.y) (-3) ≤ 9 := by
    rw [fastStream_rows.1]; decide
  have hhi : (9 : Int) ≤ truncInt (fastStream.y +
      (preMove region10 floorGrid fastStream rngOnes).1.speed * speedMulOf false) := by
    rw [fastStream_rows.2]; decide
  have hfail : CanPieceFitAt fastStream.pieceType
      (preMove region10 floorGrid fastStream rngOnes).1.rotation 9 fastStream.col region10
      floorGrid = false := by
    rw [hrot]; decide
  obtain ⟨t0, ⟨h1, h2⟩, h3, h4, _, h5, h6, h7⟩ :=
    scan_never_tunnels 10 10 region10 false floorGrid fastStream rngOnes 9 rfl hlo hhi hfail
  rw [fastStream_rows.1] at h1 h4
  rw [hrot] at h3 h4
  have h1' : 5 ≤ t0 := by
    have : max (5 : Int) (-3) = 5 := by decide
    rw [this] at h1
    exact h1
  have ht0 : t0 = 8 := by
    by_contra hne
    rcases Int.lt_or_gt_of_ne hne with hlt | hgt
    · have hfit : ∀ u : Int, 5 ≤ u → u < 8 →
          CanPieceFitAt fastStream.pieceType 0 u fastStream.col region10 floorGrid = true := by
        intro u hu1 hu2
        interval_cases u <;> decide
      rw [hfit t0 h1' hlt] at h3
      exact absurd h3 (by decide)
    · have h8 := h4 8 (by decide) hgt
      have : CanPieceFitAt fastStream.pieceType 0 8 fastStream.col region10 floorGrid = false := by
        decide
      rw [this] at h8
      exact absurd h8 (by decide)
  subst ht0
  have hgrid : ∀ gr gc : Int,
      (updateStream 10 10 region10 false floorGrid fastStream rngOnes).1 gr gc =
        LandPiece 10 10 floorGrid
          { (preMove region10 floorGrid fastStream rngOnes).1 with y := (((8 : Int) - 1 : Int) : ℚ) }
          gr gc := fun gr gc => by rw [h6]
  have hy : truncInt ({ (preMove region10 floorGrid fastStream rngOnes).1 with
      y := (((8 : Int) - 1 : Int) : ℚ) } : MatrixStream).y = 7 := truncInt_intCast _
  have hcol : ({ (preMove region10 floorGrid fastStream rngOnes).1 with
      y := (((8 : Int) - 1 : Int) : ℚ) } : MatrixStream).col = 5 := by
    show (preMove region10 floorGrid fastStream rngOnes).1.col = 5
    rw [preMove_fastStream]; rfl
  have hcolor : ({ (preMove region10 floorGrid fastStream rngOnes).1 with
      y := (((8 : Int) - 1 : Int) : ℚ) } : MatrixStream).pieceColor = RGB 0 200 80 := by
    show (preMove region10 floorGrid fastStream rngOnes).1.pieceColor = _
    rw [preMove_fastStream]; rfl
  have hmask : ∀ r c : Nat, maskCell ({ (preMove region10 floorGrid fastStream rngOnes).1 with
      y := (((8 : Int) - 1 : Int) : ℚ) } : MatrixStream).pieceType
      ({ (preMove region10 floorGrid fastStream rngOnes).1 with
      y := (((8 : Int) - 1 : Int) : ℚ) } : MatrixStream).rotation r c = maskCell 1 0 r c := by
    intro r c
    show maskCell (preMove region10 floorGrid fastStream rngOnes).1.pieceType
      (preMove region10 floorGrid fastStream rngOnes).1.rotation r c = _
    rw [preMove_fastStream]; rfl
  refine ⟨rfl, hlo, hhi, hfail, ?_, ?_, ?_, ?_, ?_⟩
  · rw [h5]; rfl
  · rw [hgrid, ← hcolor]
    apply (LandPiece_apply 10 10 floorGrid _ 7 5).1
    refine ⟨0, 1, by decide, by decide, ?_⟩
    unfold landWrites
    rw [hmask, hy, hcol]
    decide
  · rw [hgrid, ← hcolor]
    apply (LandPiece_apply 10 10 floorGrid _ 8 5).1
    refine ⟨1, 1, by decide, by decide, ?_⟩
    unfold landWrites
    rw [hmask, hy, hcol]
    decide
  · rw [hgrid]
    apply (LandPiece_apply 10 10 floorGrid _ 9 5).2
    rintro ⟨r, c, hr, hc, hw⟩
    unfold landWrites at hw
    rw [hmask, hy, hcol] at hw
    obtain ⟨hm, hgr, _⟩ := hw
    have hr2 : r = 2 := by omega
    subst hr2
    interval_cases c <;> exact absurd hm (by decide)
  · rw [h7]
    rfl

/-! ## Drop phase -/

/-- A drop step below the target that reaches it: the offset is set to the target, the
gravity shift runs with the number of recorded rows, and the controller is idle again. -/
theorem updateClear_drop_reach (m : MonitorGrid) (landed : Landed) (mci : MonitorClearInfo)
    (hphase : mci.phase = CLEAR_DROP) (hlt : mci.dropOffset < mci.dropTarget)
    (hge : mci.dropOffset + (3 + mci.dropOffset * (5 / 100)) ≥ mci.dropTarget) :
    updateClear m landed mci =
      (ApplyGravityForMonitor m (mci.rows.length : Int) landed,
        { mci with dropOffset := mci.dropTarget, phase := CLEAR_IDLE }) := by
  simp only [updateClear, hphase, hlt, hge, if_true]

/-- A drop step that stays below the target only advances the offset. -/
theorem updateClear_drop_advance (m : MonitorGrid) (landed : Landed) (mci : MonitorClearInfo)
    (hphase : mci.phase = CLEAR_DROP) (hlt : mci.dropOffset < mci.dropTarget)
    (hnge : ¬ mci.dropOffset + (3 + mci.dropOffset * (5 / 100)) ≥ mci.dropTarget) :
    updateClear m landed mci =
      (landed, { mci with dropOffset := mci.dropOffset + (3 + mci.dropOffset * (5 / 100)) }) := by
  simp only [updateClear, hphase, hlt, hnge, if_true, if_false]

/-- A controller step keeps `ClearInv`. -/
theorem updateClear_inv (m : MonitorGrid) (landed : Landed) (mci : MonitorClearInfo)
    (hinv : ClearInv mci) : ClearInv (updateClear m landed mci).2 := by
  cases hp : mci.phase with
  | CLEAR_IDLE =>
    by_cases hfill : GetMonitorFillPct m landed ≥ FILL_CLEAR_PCT
    · obtain ⟨x0, hx0, hrow⟩ := exists_content_of_fill m landed hfill
      obtain ⟨lo, hi, _, _, hle, hstart⟩ := StartClearForMonitor_spec m landed mci x0 hx0 hrow
      have heq : updateClear m landed mci = (landed, StartClearForMonitor m landed mci) := by
        simp only [updateClear, hp, hfill, if_true]
      rw [heq, hstart]
      refine ⟨fun _ => ?_, (fun h => by cases h)⟩
      show (0 : ℚ) < (((lo - hi + 1) * CELL : Int) : ℚ)
      have : (0 : Int) < (lo - hi + 1) * CELL := by
        unfold CELL
        omega
      exact_mod_cast this
    · have heq : updateClear m landed mci = (landed, mci) := by
        simp only [updateClear, hp, hfill, if_false]
      rw [heq]
      exact hinv
  | CLEAR_FLASH =>
    have hT := hinv.1 hp
    by_cases htick : mci.flashTick ≤ 1
    · rw [updateClear_flash_end m landed mci hp htick]
      exact ⟨(fun h => by cases h), fun _ => ⟨le_refl _, hT⟩⟩
    · rw [updateClear_flash_hold m landed mci hp (by omega)]
      exact ⟨fun _ => hT, fun h => absurd (hp.symm.trans h) (by decide)⟩
  | CLEAR_DROP =>
    obtain ⟨h0, hlt⟩ := hinv.2 hp
    by_cases hge : mci.dropOffset + (3 + mci.dropOffset * (5 / 100)) ≥ mci.dropTarget
    · rw [updateClear_drop_reach m landed mci hp hlt hge]
      exact ⟨(fun h => by cases h), (fun h => by cases h)⟩
    · rw [updateClear_drop_advance m landed mci hp hlt hge]
      refine ⟨fun h => absurd (hp.symm.trans h) (by decide), fun _ => ⟨?_, not_le.1 hge⟩⟩
      show 0 ≤ mci.dropOffset + (3 + mci.dropOffset * (5 / 100))
      linarith

/-- Every state of a run that starts idle satisfies `ClearInv`. -/
theorem runClear_inv (m : MonitorGrid) (env : Nat → Landed → Landed) (landed : Landed)
    (mci : MonitorClearInfo) (hidle : mci.phase = CLEAR_IDLE) (k : Nat) :
    ClearInv (runClear m env k (landed, mci)).2 := by
  induction k with
  | zero =>
    exact ⟨fun h => absurd (hidle.symm.trans h) (by decide),
      fun h => absurd (hidle.symm.trans h) (by decide)⟩
  | succ k ih => exact updateClear_inv m _ _ ih

/-- C11: during `CLEAR_DROP` (any state in the drop phase of a run of the controller that
started idle) a controller step replaces `dropOffset = d` by
`min(dropTarget, d + 3 + 0.05 * d)`, so `dropOffset` does not decrease and never exceeds
`dropTarget`; the controller leaves the drop phase (to idle) exactly at the step in which
`dropOffset` becomes equal to `dropTarget`, and at that step the gravity shift is applied
with `n` = number of rows of the recorded span; otherwise the grid and the phase are left
alone (float arithmetic taken as exact). -/
theorem updateClear_drop_step (region : MonitorGrid) (env : Nat → Landed → Landed)
    (landed0 : Landed) (mci0 : MonitorClearInfo) (k : Nat) (landed : Landed)
    (mci : MonitorClearInfo) (hidle : mci0.phase = CLEAR_IDLE)
    (hreach : mci = (runClear region env k (landed0, mci0)).2)
    (hdrop : mci.phase = CLEAR_DROP) :
    (updateClear region landed mci).2.dropOffset =
      min mci.dropTarget (mci.dropOffset + 3 + 5 / 100 * mci.dropOffset) ∧
    mci.dropOffset ≤ (updateClear region landed mci).2.dropOffset ∧
    (updateClear region landed mci).2.dropOffset ≤ mci.dropTarget ∧
    (updateClear region landed mci).2.dropTarget = mci.dropTarget ∧
    ((updateClear region landed mci).2.phase = CLEAR_IDLE ↔
      (updateClear region landed mci).2.dropOffset = mci.dropTarget) ∧
    ((updateClear region landed mci).2.dropOffset = mci.dropTarget →
      (updateClear region landed mci).1 =
        ApplyGravityForMonitor region (mci.rows.length : Int) landed) ∧
    ((updateClear region landed mci).2.dropOffset ≠ mci.dropTarget →
      (updateClear region landed mci).1 = landed ∧
      (updateClear region landed mci).2.phase = CLEAR_DROP) := by
  have hinv : ClearInv mci := by
    rw [hreach]
    exact runClear_inv region env landed0 mci0 hidle k
  obtain ⟨h0, hlt⟩ := hinv.2 hdrop
  by_cases hge : mci.dropOffset + (3 + mci.dropOffset * (5 / 100)) ≥ mci.dropTarget
  · rw [updateClear_drop_reach region landed mci hdrop hlt hge]
    have hmin : min mci.dropTarget (mci.dropOffset + 3 + 5 / 100 * mci.dropOffset) =
        mci.dropTarget := by
      apply min_eq_left
      linarith
    refine ⟨hmin.symm, le_of_lt hlt, le_refl _, rfl, ⟨fun _ => rfl, fun _ => rfl⟩,
      fun _ => rfl, fun h => absurd rfl h⟩
  · rw [updateClear_drop_advance region landed mci hdrop hlt hge]
    have hlt' : mci.dropOffset + (3 + mci.dropOffset * (5 / 100)) < mci.dropTarget :=
      not_le.1 hge
    have hmin : min mci.dropTarget (mci.dropOffset + 3 + 5 / 100 * mci.dropOffset) =
        mci.dropOffset + (3 + mci.dropOffset * (5 / 100)) := by
      rw [min_eq_right (by linarith)]
      ring
    have hne : mci.dropOffset + (3 + mci.dropOffset * (5 / 100)) ≠ mci.dropTarget :=
      ne_of_lt hlt'
    refine ⟨hmin.symm, ?_, le_of_lt hlt', rfl, ⟨fun h => ?_, fun h => absurd h hne⟩,
      fun h => absurd h hne, fun _ => ⟨rfl, hdrop⟩⟩
    · show mci.dropOffset ≤ mci.dropOffset + (3 + mci.dropOffset * (5 / 100))
      linarith
    · have h' : mci.phase = CLEAR_IDLE := h
      rw [hdrop] at h'
      cases h'

/-- The first step of a run, peeled off. -/
theorem runClear_succ_first (m : MonitorGrid) (env : Nat → Landed → Landed) (k : Nat)
    (st : Landed × MonitorClearInfo) :
    runClear m env (k + 1) st =
      runClear m (fun i => env (i + 1)) k (updateClear m (env 0 st.1) st.2) := by
  induction k with
  | zero => rfl
  | succ k ih =>
    show updateClear m (env (k + 1) (runClear m env (k + 1) st).1)
      (runClear m env (k + 1) st).2 = _
    rw [ih]
    rfl

/-- Scenario A continued for 20 more undisturbed ticks: the controller is in the drop
phase with offset 0 and a target of 4 cells. -/
theorem runClear_scenario_drop :
    (runClear region10 (fun _ g => g) 21 (fullRowsGrid, idleInfo)).2.phase = CLEAR_DROP ∧
    (runClear region10 (fun _ g => g) 21 (fullRowsGrid, idleInfo)).2.dropOffset = 0 ∧
    (runClear region10 (fun _ g => g) 21 (fullRowsGrid, idleInfo)).2.dropTarget =
      (((4 * CELL : Int)) : ℚ) ∧
    (runClear region10 (fun _ g => g) 21 (fullRowsGrid, idleInfo)).2.rows = [6, 7, 8, 9] := by
  rw [runClear_succ_first]
  show (runClear region10 (fun _ g => g) 20
      (updateClear region10 fullRowsGrid idleInfo)).2.phase = CLEAR_DROP ∧ _
  rw [updateClear_scenarioA]
  refine ⟨by decide, rfl, rfl, by decide⟩

/-- Witness of C11: the first drop step after scenario B moves the offset from 0 to
`min(64, 3) = 3` and stays in the drop phase with the grid untouched. -/
theorem updateClear_drop_step_witness :
    idleInfo.phase = CLEAR_IDLE ∧
    (runClear region10 (fun _ g => g) 21 (fullRowsGrid, idleInfo)).2.phase = CLEAR_DROP ∧
    (updateClear region10 fullRowsGrid
      (runClear region10 (fun _ g => g) 21 (fullRowsGrid, idleInfo)).2).2.dropOffset = 3 ∧
    (updateClear region10 fullRowsGrid
      (runClear region10 (fun _ g => g) 21 (fullRowsGrid, idleInfo)).2).2.phase = CLEAR_DROP ∧
    (updateClear region10 fullRowsGrid
      (runClear region10 (fun _ g => g) 21 (fullRowsGrid, idleInfo)).2).1 = fullRowsGrid := by
  obtain ⟨hphase, hoff, htarget, _⟩ := runClear_scenario_drop
  obtain ⟨hstep, _, _, _, _, _, hstay⟩ :=
    updateClear_drop_step region10 (fun _ g => g) fullRowsGrid idleInfo 21 fullRowsGrid
      (runClear region10 (fun _ g => g) 21 (fullRowsGrid, idleInfo)).2 rfl rfl hphase
  have hval : (updateClear region10 fullRowsGrid
      (runClear region10 (fun _ g => g) 21 (fullRowsGrid, idleInfo)).2).2.dropOffset = 3 := by
    rw [hstep, hoff, htarget]
    norm_num [CELL]
  have hne : (updateClear region10 fullRowsGrid
      (runClear region10 (fun _ g => g) 21 (fullRowsGrid, idleInfo)).2).2.dropOffset ≠
      (runClear region10 (fun _ g => g) 21 (fullRowsGrid, idleInfo)).2.dropTarget := by
    rw [hval, htarget]
    norm_num [CELL]
  exact ⟨rfl, hphase, hval, (hstay hne).2, (hstay hne).1⟩

/-! ## Brightness decay -/

/-- The body of the column loop of the fade, cell by cell. -/
theorem fadeBody_apply (r c : Int) (g : Landed) (r' c' : Int) :
    (if (g r c).brightness > 80 then
        setCell g r c { g r c with brightness := (g r c).brightness - 3 }
      else g) r' c' =
      if r' = r ∧ c' = c then fadeCell (g r c) else g r' c' := by
  unfold fadeCell
  by_cases hb : (g r c).brightness > 80
  · simp only [hb, if_true, setCell]
  · simp only [hb, if_false]
    by_cases h : r' = r ∧ c' = c
    · rw [if_pos h, h.1, h.2]
    · rw [if_neg h]

/-- The column loop of the fade over `n` columns from `left`. -/
theorem fadeRow_apply (r : Int) (n : Nat) (left : Int) (g : Landed) (r' c' : Int) :
    forUp (fun c g =>
        if (g r c).brightness > 80 then
          setCell g r c { g r c with brightness := (g r c).brightness - 3 }
        else g) n left g r' c' =
      if r' = r ∧ left ≤ c' ∧ c' < left + (n : Int) then fadeCell (g r' c') else g r' c' := by
  induction n generalizing left g with
  | zero =>
    have : ¬ (r' = r ∧ left ≤ c' ∧ c' < left + ((0 : Nat) : Int)) := by omega
    rw [if_neg this]; rfl
  | succ k ih =>
    show forUp _ k (left + 1)
      (if (g r left).brightness > 80 then
        setCell g r left { g r left with brightness := (g r left).brightness - 3 }
      else g) r' c' = _
    rw [ih, fadeBody_apply]
    by_cases h1 : r' = r ∧ left + 1 ≤ c' ∧ c' < left + 1 + (k : Int)
    · have h2 : r' = r ∧ left ≤ c' ∧ c' < left + ((k + 1 : Nat) : Int) := by
        push_cast; omega
      have h3 : ¬ (r' = r ∧ c' = left) := by omega
      rw [if_pos h1, if_pos h2, if_neg h3]
    · rw [if_neg h1]
      by_cases h4 : r' = r ∧ c' = left
      · have h2 : r' = r ∧ left ≤ c' ∧ c' < left + ((k + 1 : Nat) : Int) := by
          push_cast; omega
        rw [if_pos h4, if_pos h2, h4.1, h4.2]
      · have h2 : ¬ (r' = r ∧ left ≤ c' ∧ c' < left + ((k + 1 : Nat) : Int)) := by
          push_cast; omega
        rw [if_neg h4, if_neg h2]

/-- The row loop of the fade over `k` rows from `lo`, each over `n` columns from `left`. -/
theorem fadeRows_apply (n : Nat) (left : Int) (k : Nat) (lo : Int) (g : Landed)
    (r' c' : Int) :
    forUp (fun r g =>
        forUp (fun c g =>
            if (g r c).brightness > 80 then
              setCell g r c { g r c with brightness := (g r c).brightness - 3 }
            else g) n left g) k lo g r' c' =
      if (lo ≤ r' ∧ r' < lo + (k : Int)) ∧ left ≤ c' ∧ c' < left + (n : Int)
      then fadeCell (g r' c') else g r' c' := by
  induction k generalizing lo g with
  | zero =>
    have : ¬ ((lo ≤ r' ∧ r' < lo + ((0 : Nat) : Int)) ∧ left ≤ c' ∧ c' < left + (n : Int)) := by
      omega
    rw [if_neg this]; rfl
  | succ k ih =>
    show forUp _ k (lo + 1)
      (forUp (fun c g =>
        if (g lo c).brightness > 80 then
          setCell g lo c { g lo c with brightness := (g lo c).brightness - 3 }
        else g) n left g) r' c' = _
    rw [ih, fadeRow_apply]
    by_cases h1 : (lo + 1 ≤ r' ∧ r' < lo + 1 + (k : Int)) ∧ left ≤ c' ∧ c' < left + (n : Int)
    · have h2 : (lo ≤ r' ∧ r' < lo + ((k + 1 : Nat) : Int)) ∧ left ≤ c' ∧
          c' < left + (n : Int) := by push_cast; omega
      have h3 : ¬ (r' = lo ∧ left ≤ c' ∧ c' < left + (n : Int)) := by omega
      rw [if_pos h1, if_pos h2, if_neg h3]
    · rw [if_neg h1]
      by_cases h4 : r' = lo ∧ left ≤ c' ∧ c' < left + (n : Int)
      · have h2 : (lo ≤ r' ∧ r' < lo + ((k + 1 : Nat) : Int)) ∧ left ≤ c' ∧
            c' < left + (n : Int) := by push_cast; omega
        rw [if_pos h4, if_pos h2]
      · have h2 : ¬ ((lo ≤ r' ∧ r' < lo + ((k + 1 : Nat) : Int)) ∧ left ≤ c' ∧
            c' < left + (n : Int)) := by push_cast; omega
        rw [if_neg h4, if_neg h2]

/-- Closed form of the fade pass: every cell of the grid is faded once, nothing else
changes. -/
theorem fadeLanded_apply (gridRows gridCols : Int) (landed : Landed) (r c : Int) :
    fadeLanded gridRows gridCols landed r c =
      if (0 ≤ r ∧ r < gridRows) ∧ 0 ≤ c ∧ c < gridCols then fadeCell (landed r c)
      else landed r c := by
  unfold fadeLanded
  rw [fadeRows_apply]
  by_cases h : (0 ≤ r ∧ r < gridRows) ∧ 0 ≤ c ∧ c < gridCols
  · have h2 : (0 ≤ r ∧ r < 0 + (gridRows.toNat : Int)) ∧ 0 ≤ c ∧
        c < 0 + (gridCols.toNat : Int) := by omega
    rw [if_pos h, if_pos h2]
  · have h2 : ¬ ((0 ≤ r ∧ r < 0 + (gridRows.toNat : Int)) ∧ 0 ≤ c ∧
        c < 0 + (gridCols.toNat : Int)) := by omega
    rw [if_neg h, if_neg h2]

/-- C12, as stated, fails: a landed cell whose brightness has faded from 255 to 81 is at
least 80 before the pass and 78 after it, not `max(80, 81 - 3) = 80`. -/
theorem fadeLanded_clamp_counterexample :
    ((0 : Int) ≤ 9 ∧ (9 : Int) < 10 ∧ (0 : Int) ≤ 0 ∧ (0 : Int) < 10) ∧
    (fadedGrid 9 0).brightness = 81 ∧
    (fadeLanded 10 10 fadedGrid 9 0).brightness = 78 ∧
    (fadeLanded 10 10 fadedGrid 9 0).brightness ≠ max 80 ((fadedGrid 9 0).brightness - 3) ∧
    ¬ ((fadedGrid 9 0).brightness ≥ 80 → (fadeLanded 10 10 fadedGrid 9 0).brightness ≥ 80) := by
  have h : fadeLanded 10 10 fadedGrid 9 0 = ⟨true, RGB 0 255 100, 78⟩ := by
    rw [fadeLanded_apply]
    decide
  rw [h]
  decide

/-- C12 (amended): one decay pass maps the brightness `b` of a grid cell to `b - 3` when
`b > 80` (without clamping) and leaves `b <= 80` unchanged, so a cell whose brightness
was at least 78 before the pass has brightness at least 78 after it, and a brightness
of at least 83 stays at least 80; `filled` and `color` are unchanged, and so is every
position outside the grid. -/
theorem fadeLanded_spec (gridRows gridCols : Int) (landed : Landed) (r c : Int) :
    ((0 ≤ r ∧ r < gridRows) ∧ 0 ≤ c ∧ c < gridCols →
      ((landed r c).brightness > 80 →
        (fadeLanded gridRows gridCols landed r c).brightness = (landed r c).brightness - 3) ∧
      ((landed r c).brightness ≤ 80 →
        (fadeLanded gridRows gridCols landed r c).brightness = (landed r c).brightness) ∧
      ((landed r c).brightness ≥ 78 →
        (fadeLanded gridRows gridCols landed r c).brightness ≥ 78) ∧
      ((landed r c).brightness ≥ 83 →
        (fadeLanded gridRows gridCols landed r c).brightness ≥ 80)) ∧
    (fadeLanded gridRows gridCols landed r c).filled = (landed r c).filled ∧
    (fadeLanded gridRows gridCols landed r c).color = (landed r c).color ∧
    (¬ ((0 ≤ r ∧ r < gridRows) ∧ 0 ≤ c ∧ c < gridCols) →
      fadeLanded gridRows gridCols landed r c = landed r c) := by
  rw [fadeLanded_apply]
  by_cases hin : (0 ≤ r ∧ r < gridRows) ∧ 0 ≤ c ∧ c < gridCols
  · rw [if_pos hin]
    unfold fadeCell
    by_cases hb : (landed r c).brightness > 80
    · rw [if_pos hb]
      refine ⟨fun _ => ⟨fun _ => rfl, fun h => ?_, fun _ => ?_, fun h => ?_⟩, rfl, rfl,
        fun h => absurd hin h⟩
      · omega
      · show (landed r c).brightness - 3 ≥ 78
        omega
      · show (landed r c).brightness - 3 ≥ 80
        omega
    · rw [if_neg hb]
      refine ⟨fun _ => ⟨fun h => absurd h hb, fun _ => rfl, fun h => h, fun h => ?_⟩, rfl, rfl,
        fun h => absurd hin h⟩
      omega
  · rw [if_neg hin]
    exact ⟨fun h => absurd h hin, rfl, rfl, fun _ => rfl⟩

/-- Witness of C12 (amended): the cell of `fadedGrid` at brightness 81 drops to 78 and
keeps its colour; a cell at brightness 0 is unchanged. -/
theorem fadeLanded_spec_witness :
    (((0 : Int) ≤ 9 ∧ (9 : Int) < 10) ∧ (0 : Int) ≤ 0 ∧ (0 : Int) < 10) ∧
    (fadedGrid 9 0).brightness > 80 ∧
    (fadeLanded 10 10 fadedGrid 9 0).brightness = (fadedGrid 9 0).brightness - 3 ∧
    (fadeLanded 10 10 fadedGrid 9 0).color = (fadedGrid 9 0).color ∧
    (fadeLanded 10 10 fadedGrid 9 0).filled = (fadedGrid 9 0).filled :=
  ⟨by decide, by decide,
    ((fadeLanded_spec 10 10 fadedGrid 9 0).1 (by decide)).1 (by decide),
    (fadeLanded_spec 10 10 fadedGrid 9 0).2.2.1,
    (fadeLanded_spec 10 10 fadedGrid 9 0).2.1⟩

/-! ## Region computation -/

/-- Floor of an integer quotient by the cell size. -/
theorem floor_div_CELL (a : Int) : ⌊((a : Int) : ℚ) / ((CELL : Int) : ℚ)⌋ = a / 16 := by
  have h := Rat.floor_intCast_div_natCast a 16
  have hc : ((CELL : Int) : ℚ) = ((16 : ℕ) : ℚ) := by
    unfold CELL
    norm_num
  rw [hc, h]
  rfl

/-- Ceiling of an integer quotient by the cell size. -/
theorem ceil_div_CELL (a : Int) : ⌈((a : Int) : ℚ) / ((CELL : Int) : ℚ)⌉ = -((-a) / 16) := by
  have h := floor_div_CELL (-a)
  have hneg : (((-a : Int)) : ℚ) / ((CELL : Int) : ℚ) = -(((a : Int) : ℚ) / ((CELL : Int) : ℚ)) := by
    push_cast
    ring
  rw [hneg, Int.floor_neg] at h
  omega

/-- Outside the virtual screen the rounding-up division is not the ceiling: for a
rectangle whose right edge is 20 pixels to the left of the virtual origin the pushed region
has `right = (-20 + 15) / 16 = 0` (C division truncates towards zero), while
`ceil(-20 / 16) = -1`. No monitor of the enumeration gives such a rectangle, the virtual
origin being the top-left corner of the bounding rectangle of all monitors. -/
theorem MonitorEnumProc_left_of_origin :
    MonitorEnumProc 100 100 0 0 leftOfOrigin [] = [⟨0, 0, 0, 1⟩] ∧
    ⌈(((leftOfOrigin.right - 0 : Int)) : ℚ) / ((CELL : Int) : ℚ)⌉ = -1 ∧
    (monitorGridOf 100 100 0 0 leftOfOrigin).right ≠
      min 100 ⌈(((leftOfOrigin.right - 0 : Int)) : ℚ) / ((CELL : Int) : ℚ)⌉ := by
  have hceil : ⌈(((leftOfOrigin.right - 0 : Int)) : ℚ) / ((CELL : Int) : ℚ)⌉ = -1 := by
    rw [ceil_div_CELL]
    decide
  refine ⟨by decide, hceil, ?_⟩
  rw [hceil]
  decide

/-- C14: `canFit` is monotone under decreasing row. For every piece type, rotation,
column, region and rows `r' < r`: if `CanPieceFitAt` holds at anchor row `r` and no cell
that the mask would occupy when anchored at `r'`, inside the region, is filled, then
`CanPieceFitAt` holds at anchor row `r'`; in particular, on a landed grid with no filled
cell in the region, fitting at `r` implies fitting at every row `r' < r`. -/
theorem CanPieceFitAt_mono (pieceType rotation col : Int) (region : MonitorGrid)
    (landed : Landed) (r r' : Int) (hlt : r' < r)
    (hfit : CanPieceFitAt pieceType rotation r col region landed = true) :
    ((∀ i c : Nat, i < 4 → c < 4 → maskCell pieceType rotation i c = true →
        region.top ≤ r' + (i : Int) → r' + (i : Int) < region.bottom →
        region.left ≤ col + (c : Int) - 1 → col + (c : Int) - 1 < region.right →
        (landed (r' + (i : Int)) (col + (c : Int) - 1)).filled = false) →
      CanPieceFitAt pieceType rotation r' col region landed = true) ∧
    ((∀ gr gc : Int, region.top ≤ gr → gr < region.bottom → region.left ≤ gc →
        gc < region.right → (landed gr gc).filled = false) →
      CanPieceFitAt pieceType rotation r' col region landed = true) := by
  have key : (∀ i c : Nat, i < 4 → c < 4 → maskCell pieceType rotation i c = true →
        region.top ≤ r' + (i : Int) → r' + (i : Int) < region.bottom →
        region.left ≤ col + (c : Int) - 1 → col + (c : Int) - 1 < region.right →
        (landed (r' + (i : Int)) (col + (c : Int) - 1)).filled = false) →
      CanPieceFitAt pieceType rotation r' col region landed = true := by
    intro hfree
    rw [← Bool.not_eq_false, CanPieceFitAt_eq_false_iff]
    rintro ⟨i, c, hi, hc, hcell⟩
    obtain ⟨hm, htop, hl, hr, hbad⟩ := (cellFits_eq_false_iff _ _ _ _ _ _ _ _).1 hcell
    rcases hbad with hfloor | hfilled
    · have hfail : CanPieceFitAt pieceType rotation r col region landed = false := by
        rw [CanPieceFitAt_eq_false_iff]
        refine ⟨i, c, hi, hc, (cellFits_eq_false_iff _ _ _ _ _ _ _ _).2
          ⟨hm, by omega, hl, hr, Or.inl (by omega)⟩⟩
      rw [hfit] at hfail
      exact Bool.noConfusion hfail
    · by_cases hb : r' + (i : Int) < region.bottom
      · rw [hfree i c hi hc hm htop hb hl hr] at hfilled
        exact Bool.noConfusion hfilled
      · have hfail : CanPieceFitAt pieceType rotation r col region landed = false := by
          rw [CanPieceFitAt_eq_false_iff]
          refine ⟨i, c, hi, hc, (cellFits_eq_false_iff _ _ _ _ _ _ _ _).2
            ⟨hm, by omega, hl, hr, Or.inl (by omega)⟩⟩
        rw [hfit] at hfail
        exact Bool.noConfusion hfail
  exact ⟨key, fun hempty => key (fun i c _ _ _ h1 h2 h3 h4 => hempty _ _ h1 h2 h3 h4)⟩

/-- Witness of C14: above a filled floor row 9 the O piece fits at anchor row 7, the cells
it would occupy at anchor row 3 are free, and it fits at anchor row 3; on the empty grid
it fits at row 8 and hence at row 0. -/
theorem CanPieceFitAt_mono_witness :
    (3 : Int) < 7 ∧ CanPieceFitAt 1 0 7 5 region10 floorGrid = true ∧
    CanPieceFitAt 1 0 3 5 region10 floorGrid = true ∧
    CanPieceFitAt 1 0 0 5 region10 emptyGrid = true :=
  ⟨by decide, by decide,
    (CanPieceFitAt_mono 1 0 5 region10 floorGrid 7 3 (by decide) (by decide)).1
      (fun i c hi _ _ _ _ _ _ => by
        have hne : ¬ ((3 : Int) + (i : Int) = 9 ∧ 0 ≤ (5 : Int) + (c : Int) - 1 ∧
            (5 : Int) + (c : Int) - 1 < 10) := by omega
        simp only [floorGrid, hne, if_false, emptyCell]),
    (CanPieceFitAt_mono 1 0 5 region10 emptyGrid 8 0 (by decide) (by decide)).2
      (fun _ _ _ _ _ _ => rfl)⟩

/-! ## Stream update: movement without landing or respawn -/

/-- A stream that neither lands nor scrolls off the bottom only moves its head. -/
theorem moveStream_plain (gridRows gridCols : Int) (mon : MonitorGrid) (speedMul : ℚ)
    (landed : Landed) (s : MatrixStream) (rng : Rng)
    (hland : ¬ Lands mon landed s speedMul) (hoff : ¬ OffBottom mon s speedMul) :
    moveStream gridRows gridCols mon speedMul landed s rng =
      (landed, { s with y := s.y + s.speed * speedMul }, rng) := by
  unfold OffBottom at hoff
  unfold Lands at hland
  cases hp : s.hasPiece
  · simp only [moveStream, hp, Bool.not_false, if_true, hoff, if_false]
  · by_cases hend : truncInt (s.y + s.speed * speedMul) ≥ -3
    · have hscan : scanLandRow s.pieceType s.rotation s.col mon landed
          (if truncInt s.y < -3 then -3 else truncInt s.y)
          (truncInt (s.y + s.speed * speedMul)) = -999 := by
        by_contra hne
        exact hland ⟨hp, hend, hne⟩
      simp only [moveStream, hp, Bool.not_true, Bool.false_eq_true, if_false, hend, if_true,
        hscan, ne_eq, not_true_eq_false, and_false, hoff]
    · simp only [moveStream, hp, Bool.not_true, Bool.false_eq_true, if_false, hend,
        ne_eq, not_true_eq_false, and_false, false_and, hoff]

/-- The respawn keeps the monitor and the kind of a stream. -/
theorem ResetStream_fields (m : MonitorGrid) (s : MatrixStream) (rng : Rng) :
    (ResetStream m s rng).1.monitorIdx = s.monitorIdx ∧
    (ResetStream m s rng).1.hasPiece = s.hasPiece :=
  ⟨rfl, rfl⟩

/-- The movement of a stream, with or without landing or respawn, keeps its monitor and
its kind. -/
theorem moveStream_fields (gridRows gridCols : Int) (mon : MonitorGrid) (speedMul : ℚ)
    (landed : Landed) (s : MatrixStream) (rng : Rng) :
    (moveStream gridRows gridCols mon speedMul landed s rng).2.1.monitorIdx = s.monitorIdx ∧
    (moveStream gridRows gridCols mon speedMul landed s rng).2.1.hasPiece = s.hasPiece := by
  simp only [moveStream]
  split_ifs <;> first
    | exact ⟨rfl, rfl⟩
    | (simp only [ResetStream_commitLanding]; exact ⟨rfl, rfl⟩)

/-! ## Streams stay in their monitor -/

/-- An integer draw lies between its bounds. -/
theorem RandInt_range (lo hi : Int) (rng : Rng) (h : lo ≤ hi) :
    lo ≤ (RandInt lo hi rng).1 ∧ (RandInt lo hi rng).1 ≤ hi := by
  unfold RandInt
  simp only []
  have h1 : 0 ≤ Int.tmod ((rand rng).1 : Int) (hi - lo + 1) :=
    Int.tmod_nonneg _ (Int.ofNat_nonneg _)
  have h2 : Int.tmod ((rand rng).1 : Int) (hi - lo + 1) < hi - lo + 1 :=
    Int.tmod_lt_of_pos _ (by omega)
  omega

/-- One stream update keeps the monitor and the kind of the stream. -/
theorem updateStream_fields (gridRows gridCols : Int) (mon : MonitorGrid)
    (monitorClearing : Bool) (landed : Landed) (s : MatrixStream) (rng : Rng) :
    (updateStream gridRows gridCols mon monitorClearing landed s rng).2.1.monitorIdx =
      s.monitorIdx ∧
    (updateStream gridRows gridCols mon monitorClearing landed s rng).2.1.hasPiece =
      s.hasPiece := by
  obtain ⟨_, _, _, hhp, hmi⟩ := preMove_fields mon landed s rng
  obtain ⟨h1, h2⟩ := moveStream_fields gridRows gridCols mon (speedMulOf monitorClearing)
    landed (preMove mon landed s rng).1 (preMove mon landed s rng).2
  exact ⟨h1.trans hmi, h2.trans hhp⟩

/-- The stream loop keeps, position by position, the monitor and the kind of every stream. -/
theorem updateStreams_fields (gridRows gridCols : Int) (monitors : List MonitorGrid)
    (monitorClears : List MonitorClearInfo) (landed : Landed) (rng : Rng)
    (streams : List MatrixStream) :
    (updateStreams gridRows gridCols monitors monitorClears landed rng streams).2.1.map
        (fun s => (s.monitorIdx, s.hasPiece)) =
      streams.map (fun s => (s.monitorIdx, s.hasPiece)) := by
  induction streams generalizing landed rng with
  | nil => rfl
  | cons s rest ih =>
    simp only [updateStreams, List.map_cons, ih, List.cons.injEq, and_true, Prod.mk.injEq]
    exact updateStream_fields _ _ _ _ _ _ _

/-- C16: a stream never migrates between regions. For every tick, the list of
(`monitorIdx`, `hasPiece`) of the streams after `Update` is the list before it, and one
stream update keeps both, also through a landing or an off-bottom respawn; for a region
of width `>= 1` the column of a stream respawned by `ResetStream` satisfies
`region.left <= col < region.right` for the region it is respawned in. -/
theorem streams_never_migrate (gridRows gridCols : Int) (monitors : List MonitorGrid)
    (w : World) (region : MonitorGrid) (monitorClearing : Bool) (landed : Landed)
    (s : MatrixStream) (rng : Rng) :
    (Update gridRows gridCols monitors w).streams.map (fun s => (s.monitorIdx, s.hasPiece)) =
      w.streams.map (fun s => (s.monitorIdx, s.hasPiece)) ∧
    (updateStream gridRows gridCols region monitorClearing landed s rng).2.1.monitorIdx =
      s.monitorIdx ∧
    (updateStream gridRows gridCols region monitorClearing landed s rng).2.1.hasPiece =
      s.hasPiece ∧
    (ResetStream region s rng).1.monitorIdx = s.monitorIdx ∧
    (ResetStream region s rng).1.hasPiece = s.hasPiece ∧
    (region.right - region.left ≥ 1 →
      region.left ≤ (ResetStream region s rng).1.col ∧
      (ResetStream region s rng).1.col < region.right) := by
  refine ⟨?_, (updateStream_fields _ _ _ _ _ _ _).1, (updateStream_fields _ _ _ _ _ _ _).2,
    rfl, rfl, fun hw => ?_⟩
  · exact updateStreams_fields _ _ _ _ _ _ _
  · have h := RandInt_range region.left (region.right - 1) rng (by omega)
    show region.left ≤ (RandInt region.left (region.right - 1) rng).1 ∧
      (RandInt region.left (region.right - 1) rng).1 < region.right
    omega

/-- Witness of C16: in `region10` (width 10) a respawned stream gets a column in
`[0, 10)` and keeps its monitor. -/
theorem streams_never_migrate_witness :
    region10.right - region10.left ≥ 1 ∧
    (region10.left ≤ (ResetStream region10 fastStream rngOnes).1.col ∧
      (ResetStream region10 fastStream rngOnes).1.col < region10.right) ∧
    (ResetStream region10 fastStream rngOnes).1.monitorIdx = fastStream.monitorIdx :=
  ⟨by decide,
    (streams_never_migrate 10 10 [region10] ⟨floorGrid, [idleInfo], [fastStream], rngOnes⟩
      region10 false floorGrid fastStream rngOnes).2.2.2.2.2 (by decide),
    rfl⟩

/-! ## Timers -/

/-- A tail-only stream has no timers to update. -/
theorem updateTimers_tail_only (m : MonitorGrid) (landed : Landed) (s : MatrixStream)
    (rng : Rng) (hp : s.hasPiece = false) : updateTimers m landed s rng = (s, rng) := by
  simp only [updateTimers, hp, Bool.false_eq_true, if_false]

/-- The hard-drop trigger leaves rotation and rotation timer alone; the rotation timer of
a piece stream counts down by one, or is redrawn when it expires. -/
theorem updateTimers_ticksToRotate (m : MonitorGrid) (landed : Landed) (s : MatrixStream)
    (rng : Rng) (hp : s.hasPiece = true) :
    (0 < s.ticksToRotate - 1 →
      (updateTimers m landed s rng).1.ticksToRotate = s.ticksToRotate - 1 ∧
      (updateTimers m landed s rng).1.rotation = s.rotation) ∧
    (s.ticksToRotate - 1 ≤ 0 →
      (updateTimers m landed s rng).1.ticksToRotate =
        (RandInt 10 50 (RandInt 1 3 rng).2).1 ∧
      (updateTimers m landed s rng).1.rotation =
        if CanPieceFitAt s.pieceType (Int.tmod (s.rotation + (RandInt 1 3 rng).1) 4)
            (truncInt s.y) s.col m landed = true
        then Int.tmod (s.rotation + (RandInt 1 3 rng).1) 4 else s.rotation) := by
  constructor
  · intro h
    have hn : ¬ (s.ticksToRotate - 1 ≤ 0) := by omega
    simp only [updateTimers, hp, if_true, hn, if_false]
    split_ifs <;> exact ⟨rfl, rfl⟩
  · intro h
    simp only [updateTimers, hp, if_true, h]
    split_ifs <;> exact ⟨rfl, rfl⟩

/-- The hard-drop timer of a piece stream that is not hard-dropping counts down by one;
the speed changes only when that timer expires. -/
theorem updateTimers_hardDrop (m : MonitorGrid) (landed : Landed) (s : MatrixStream)
    (rng : Rng) (hp : s.hasPiece = true) :
    (s.hardDropping = false →
      (updateTimers m landed s rng).1.ticksToHardDrop = s.ticksToHardDrop - 1) ∧
    (s.hardDropping = true →
      (updateTimers m landed s rng).1.ticksToHardDrop = s.ticksToHardDrop) ∧
    (¬ (s.hardDropping = false ∧ s.ticksToHardDrop - 1 ≤ 0) →
      (updateTimers m landed s rng).1.speed = s.speed) := by
  refine ⟨fun h => ?_, fun h => ?_, fun h => ?_⟩
  · simp only [updateTimers, hp, if_true]
    split_ifs <;> first | rfl | simp_all
  · simp only [updateTimers, hp, if_true]
    split_ifs <;> first | rfl | simp_all
  · simp only [updateTimers, hp, if_true]
    split_ifs <;> first | rfl | simp_all

/-- The tail change touches the glyphs only. -/
theorem mutateTail_fields (s : MatrixStream) (rng : Rng) :
    (mutateTail s rng).1.ticksToRotate = s.ticksToRotate ∧
    (mutateTail s rng).1.ticksToHardDrop = s.ticksToHardDrop ∧
    (mutateTail s rng).1.speed = s.speed ∧
    (mutateTail s rng).1.rotation = s.rotation ∧
    (mutateTail s rng).1.hardDropping = s.hardDropping := by
  unfold mutateTail
  simp only []
  split_ifs <;> exact ⟨rfl, rfl, rfl, rfl, rfl⟩

/-- The stream `rotatingStream` on the empty 10 x 10 region when its movement is
computed: rotated to rotation 2, rotation timer redrawn to 11, hard-drop timer at 499. -/
theorem preMove_rotatingStream :
    (preMove region10 emptyGrid rotatingStream rngOnes).1 = rotatedStream := by
  rfl

/-- The stream `rotatingStream` moves from row 2 to row 3 without landing or respawn. -/
theorem rotatingStream_plain :
    ¬ Lands region10 emptyGrid (preMove region10 emptyGrid rotatingStream rngOnes).1
        (speedMulOf false) ∧
    ¬ OffBottom region10 (preMove region10 emptyGrid rotatingStream rngOnes).1
        (speedMulOf false) := by
  rw [preMove_rotatingStream]
  have hy : truncInt rotatedStream.y = 2 := truncInt_intCast 2
  have hnew : truncInt (rotatedStream.y + rotatedStream.speed * speedMulOf false) = 3 := by
    have : rotatedStream.y + rotatedStream.speed * speedMulOf false = ((3 : Int) : ℚ) := by
      show ((2 : Int) : ℚ) + ((1 : Int) : ℚ) * speedMulOf false = ((3 : Int) : ℚ)
      norm_num [speedMulOf]
    rw [this]
    exact truncInt_intCast 3
  constructor
  · unfold Lands
    rw [hnew, hy]
    rintro ⟨_, _, hne⟩
    exact hne (by decide)
  · unfold OffBottom
    rw [hnew]
    decide

/-- One stream update that neither lands nor respawns, for either value of the flag
`monitorClearing`: the grid is left alone, the head advances by `speed * 0.20` when the
flag is set and by `speed * 1.0` when it is not (`speed` after the hard-drop trigger), and
the timers run as for any piece stream, whatever the flag. -/
theorem updateStream_plain (gridRows gridCols : Int) (mon : MonitorGrid)
    (monitorClearing : Bool) (landed : Landed) (s : MatrixStream) (rng : Rng)
    (hland : ¬ Lands mon landed (preMove mon landed s rng).1 (speedMulOf monitorClearing))
    (hoff : ¬ OffBottom mon (preMove mon landed s rng).1 (speedMulOf monitorClearing)) :
    (updateStream gridRows gridCols mon monitorClearing landed s rng).1 = landed ∧
    (monitorClearing = true →
      (updateStream gridRows gridCols mon monitorClearing landed s rng).2.1.y =
        s.y + (preMove mon landed s rng).1.speed * (20 / 100)) ∧
    (monitorClearing = false →
      (updateStream gridRows gridCols mon monitorClearing landed s rng).2.1.y =
        s.y + (preMove mon landed s rng).1.speed * 1) ∧
    (¬ (s.hasPiece = true ∧ s.hardDropping = false ∧ s.ticksToHardDrop - 1 ≤ 0) →
      (preMove mon landed s rng).1.speed = s.speed) ∧
    (s.hasPiece = true → 0 < s.ticksToRotate - 1 →
      (updateStream gridRows gridCols mon monitorClearing landed s rng).2.1.ticksToRotate =
        s.ticksToRotate - 1) ∧
    (s.hasPiece = true → s.ticksToRotate - 1 ≤ 0 →
      10 ≤ (updateStream gridRows gridCols mon monitorClearing landed s rng).2.1.ticksToRotate ∧
      (updateStream gridRows gridCols mon monitorClearing landed s rng).2.1.ticksToRotate ≤ 50) ∧
    (s.hasPiece = true → s.hardDropping = false →
      (updateStream gridRows gridCols mon monitorClearing landed s rng).2.1.ticksToHardDrop =
        s.ticksToHardDrop - 1) ∧
    (s.hasPiece = true → s.hardDropping = true →
      (updateStream gridRows gridCols mon monitorClearing landed s rng).2.1.ticksToHardDrop =
        s.ticksToHardDrop) ∧
    (s.hasPiece = false →
      (updateStream gridRows gridCols mon monitorClearing landed s rng).2.1.ticksToRotate =
        s.ticksToRotate ∧
      (updateStream gridRows gridCols mon monitorClearing landed s rng).2.1.ticksToHardDrop =
        s.ticksToHardDrop) := by
  have hmove : updateStream gridRows gridCols mon monitorClearing landed s rng =
      (landed,
        { (preMove mon landed s rng).1 with
          y := (preMove mon landed s rng).1.y +
            (preMove mon landed s rng).1.speed * speedMulOf monitorClearing },
        (preMove mon landed s rng).2) :=
    moveStream_plain gridRows gridCols mon (speedMulOf monitorClearing) landed _ _ hland hoff
  obtain ⟨hy, _, _, _, _⟩ := preMove_fields mon landed s rng
  obtain ⟨hm1, hm2, hm3, _, _⟩ :=
    mutateTail_fields (updateTimers mon landed s rng).1 (updateTimers mon landed s rng).2
  have hrot : (updateStream gridRows gridCols mon monitorClearing landed s rng).2.1.ticksToRotate
      = (updateTimers mon landed s rng).1.ticksToRotate := by
    rw [hmove]; exact hm1
  have hhd : (updateStream gridRows gridCols mon monitorClearing landed s rng).2.1.ticksToHardDrop
      = (updateTimers mon landed s rng).1.ticksToHardDrop := by
    rw [hmove]; exact hm2
  have hsp : (preMove mon landed s rng).1.speed = (updateTimers mon landed s rng).1.speed := hm3
  have hnewy : (updateStream gridRows gridCols mon monitorClearing landed s rng).2.1.y =
      s.y + (preMove mon landed s rng).1.speed * speedMulOf monitorClearing := by
    rw [hmove, ← hy]
  refine ⟨by rw [hmove], fun hc => ?_, fun hc => ?_, fun hno => ?_, fun hp h => ?_,
    fun hp h => ?_, fun hp h => ?_, fun hp h => ?_, fun hp => ?_⟩
  · rw [hnewy, hc]; rfl
  · rw [hnewy, hc]; rfl
  · rw [hsp]
    cases hp : s.hasPiece
    · rw [updateTimers_tail_only mon landed s rng hp]
    · exact (updateTimers_hardDrop mon landed s rng hp).2.2 (fun hh => hno ⟨hp, hh⟩)
  · rw [hrot]
    exact ((updateTimers_ticksToRotate mon landed s rng hp).1 h).1
  · rw [hrot, ((updateTimers_ticksToRotate mon landed s rng hp).2 h).1]
    exact RandInt_range 10 50 _ (by decide)
  · rw [hhd]
    exact (updateTimers_hardDrop mon landed s rng hp).1 h
  · rw [hhd]
    exact (updateTimers_hardDrop mon landed s rng hp).2.1 h
  · rw [hrot, hhd, updateTimers_tail_only mon landed s rng hp]
    exact ⟨rfl, rfl⟩

/-- The stream loop over a list split in two runs over the first part and then, from the
grid and the draws it leaves, over the second part. -/
theorem updateStreams_append (gridRows gridCols : Int) (monitors : List MonitorGrid)
    (monitorClears : List MonitorClearInfo) (landed : Landed) (rng : Rng)
    (pre rest : List MatrixStream) :
    updateStreams gridRows gridCols monitors monitorClears landed rng (pre ++ rest) =
      ((updateStreams gridRows gridCols monitors monitorClears
          (updateStreams gridRows gridCols monitors monitorClears landed rng pre).1
          (updateStreams gridRows gridCols monitors monitorClears landed rng pre).2.2 rest).1,
        (updateStreams gridRows gridCols monitors monitorClears landed rng pre).2.1 ++
          (updateStreams gridRows gridCols monitors monitorClears
            (updateStreams gridRows gridCols monitors monitorClears landed rng pre).1
            (updateStreams gridRows gridCols monitors monitorClears landed rng pre).2.2
            rest).2.1,
        (updateStreams gridRows gridCols monitors monitorClears
          (updateStreams gridRows gridCols monitors monitorClears landed rng pre).1
          (updateStreams gridRows gridCols monitors monitorClears landed rng pre).2.2
          rest).2.2) := by
  induction pre generalizing landed rng with
  | nil => rfl
  | cons s pre ih =>
    rw [List.cons_append]
    simp only [updateStreams]
    rw [ih]
    rfl

/-- The stream loop returns as many streams as it was given. -/
theorem updateStreams_length (gridRows gridCols : Int) (monitors : List MonitorGrid)
    (monitorClears : List MonitorClearInfo) (landed : Landed) (rng : Rng)
    (streams : List MatrixStream) :
    (updateStreams gridRows gridCols monitors monitorClears landed rng streams).2.1.length =
      streams.length := by
  have h := congrArg List.length
    (updateStreams_fields gridRows gridCols monitors monitorClears landed rng streams)
  simpa using h

/-- The stream at position `pre.length` of the world after one tick of `Update` is the
result of `updateStream` on the stream at that position before the tick, run on the grid
and the draws that the loop has reached, with the region `g_monitors[s.monitorIdx]`
and the flag `monitorClearing` computed from the controllers after the controller loop of
this tick (the controllers of the world after the tick). -/
theorem Update_stream_at (gridRows gridCols : Int) (monitors : List MonitorGrid) (w : World)
    (pre post : List MatrixStream) (s : MatrixStream) (hw : w.streams = pre ++ s :: post) :
    (Update gridRows gridCols monitors w).streams[pre.length]? = some
      (updateStream gridRows gridCols (monitors.getD s.monitorIdx.toNat default)
        (if s.monitorIdx < ((Update gridRows gridCols monitors w).monitorClears.length : Int)
          then ((Update gridRows gridCols monitors w).monitorClears.getD
            s.monitorIdx.toNat default).phase != CLEAR_IDLE
          else false)
        (streamLoopState gridRows gridCols monitors w pre).1 s
        (streamLoopState gridRows gridCols monitors w pre).2).2.1 ∧
    (streamLoopState gridRows gridCols monitors w (pre ++ [s])).1 =
      (updateStream gridRows gridCols (monitors.getD s.monitorIdx.toNat default)
        (if s.monitorIdx < ((Update gridRows gridCols monitors w).monitorClears.length : Int)
          then ((Update gridRows gridCols monitors w).monitorClears.getD
            s.monitorIdx.toNat default).phase != CLEAR_IDLE
          else false)
        (streamLoopState gridRows gridCols monitors w pre).1 s
        (streamLoopState gridRows gridCols monitors w pre).2).1 := by
  constructor
  · show (updateStreams gridRows gridCols monitors
        (updateClears monitors w.landed w.monitorClears).2
        (updateClears monitors w.landed w.monitorClears).1 w.rng w.streams).2.1[pre.length]? = _
    rw [hw, updateStreams_append]
    simp only []
    rw [List.getElem?_append_right (by rw [updateStreams_length]), updateStreams_length,
      Nat.sub_self]
    simp only [updateStreams, List.getElem?_cons_zero]
    rfl
  · show (updateStreams gridRows gridCols monitors
        (updateClears monitors w.landed w.monitorClears).2
        (updateClears monitors w.landed w.monitorClears).1 w.rng (pre ++ [s])).1 = _
    rw [updateStreams_append]
    rfl

/-- The controller step of `region10` over the empty grid: fill 0, the controller stays
idle. -/
theorem updateClear_emptyGrid :
    updateClear region10 emptyGrid idleInfo = (emptyGrid, idleInfo) := by
  have hc : countFilledRows region10 emptyGrid = 0 := by decide
  have hH : ¬ (region10.bottom - region10.top ≤ 0) := by decide
  have hfill : ¬ GetMonitorFillPct region10 emptyGrid ≥ FILL_CLEAR_PCT := by
    unfold GetMonitorFillPct
    simp only [hc, hH, if_false]
    norm_num [FILL_CLEAR_PCT]
  have hidle : idleInfo.phase = CLEAR_IDLE := rfl
  simp only [updateClear, hidle, hfill, if_false]

/-- C15, as stated, fails: in the tick of `rotatingWorld` the controller stays idle and
the piece stream `rotatingStream`, which neither lands nor respawns and whose rotation
timer is at 1, does not end the tick with the timer at 0 but with a fresh draw (here 11). -/
theorem timers_decrement_counterexample :
    ¬ Lands region10 emptyGrid (preMove region10 emptyGrid rotatingStream rngOnes).1
        (speedMulOf false) ∧
    ¬ OffBottom region10 (preMove region10 emptyGrid rotatingStream rngOnes).1
        (speedMulOf false) ∧
    (updateStream 10 10 region10 false emptyGrid rotatingStream rngOnes).2.1.ticksToRotate
      = 11 ∧
    (updateStream 10 10 region10 false emptyGrid rotatingStream rngOnes).2.1.ticksToRotate
      ≠ rotatingStream.ticksToRotate - 1 ∧
    (Update 10 10 [region10] rotatingWorld).monitorClears = [idleInfo] ∧
    (Update 10 10 [region10] rotatingWorld).streams[0]? =
      some (updateStream 10 10 region10 false emptyGrid rotatingStream rngOnes).2.1 := by
  obtain ⟨h1, h2⟩ := rotatingStream_plain
  have hmove : updateStream 10 10 region10 false emptyGrid rotatingStream rngOnes =
      (emptyGrid,
        { (preMove region10 emptyGrid rotatingStream rngOnes).1 with
          y := (preMove region10 emptyGrid rotatingStream rngOnes).1.y +
            (preMove region10 emptyGrid rotatingStream rngOnes).1.speed * speedMulOf false },
        (preMove region10 emptyGrid rotatingStream rngOnes).2) :=
    moveStream_plain 10 10 region10 (speedMulOf false) emptyGrid _ _ h1 h2
  have hval : (updateStream 10 10 region10 false emptyGrid rotatingStream
      rngOnes).2.1.ticksToRotate = 11 := by
    rw [hmove]
    show (preMove region10 emptyGrid rotatingStream rngOnes).1.ticksToRotate = 11
    rw [preMove_rotatingStream]
    rfl
  have hclears : (Update 10 10 [region10] rotatingWorld).monitorClears = [idleInfo] := by
    show [(updateClear region10 emptyGrid idleInfo).2] = _
    rw [updateClear_emptyGrid]
  have hst : streamLoopState 10 10 [region10] rotatingWorld [] = (emptyGrid, rngOnes) := by
    show ((updateClear region10 emptyGrid idleInfo).1, rngOnes) = _
    rw [updateClear_emptyGrid]
  have hat := (Update_stream_at 10 10 [region10] rotatingWorld [] [] rotatingStream rfl).1
  rw [hclears, hst] at hat
  refine ⟨h1, h2, hval, ?_, hclears, hat⟩
  rw [hval]
  decide

/-- C15 (amended): clear slow-down, arithmetic taken as exact. Let `s` be the stream at
position `pre.length` of the world before one tick of `Update`, `ph` the phase of the
controller `g_monitorClears[s.monitorIdx]` after this tick's controller step (the
controllers of the world after the tick), and `mon`, `landed`, `rng` the region
`g_monitors[s.monitorIdx]`, the grid and the draws when the stream loop reaches `s`. If
`s` neither lands nor respawns in this tick, then the stream `s'` at that position after
the tick has its head advanced by `speed * 0.20` when `ph` is not idle and by
`speed * 1.0` when `ph` is idle, `speed` being its speed after this tick's hard-drop
trigger (its old speed when none fires), and its update leaves the landed grid alone. The
timers do not depend on the phase: for a piece stream `ticksToRotate` is decremented by 1,
and redrawn in `[10, 50]` when that reaches 0; `ticksToHardDrop` is decremented by exactly
1 unless the stream is hard-dropping; a tail-only stream keeps both timers. -/
theorem clear_slow_down (gridRows gridCols : Int) (monitors : List MonitorGrid) (w : World)
    (pre post : List MatrixStream) (s : MatrixStream) (ph : ClearPhase) (mon : MonitorGrid)
    (landed : Landed) (rng : Rng)
    (hw : w.streams = pre ++ s :: post)
    (hidx : 0 ≤ s.monitorIdx ∧
      s.monitorIdx < ((Update gridRows gridCols monitors w).monitorClears.length : Int))
    (hph : ((Update gridRows gridCols monitors w).monitorClears.getD
      s.monitorIdx.toNat default).phase = ph)
    (hmon : monitors.getD s.monitorIdx.toNat default = mon)
    (hst : streamLoopState gridRows gridCols monitors w pre = (landed, rng))
    (hland : ¬ Lands mon landed (preMove mon landed s rng).1 (speedMulOf (ph != CLEAR_IDLE)))
    (hoff : ¬ OffBottom mon (preMove mon landed s rng).1 (speedMulOf (ph != CLEAR_IDLE))) :
    ∃ s' : MatrixStream,
      (Update gridRows gridCols monitors w).streams[pre.length]? = some s' ∧
      (streamLoopState gridRows gridCols monitors w (pre ++ [s])).1 = landed ∧
      (ph ≠ CLEAR_IDLE → s'.y = s.y + (preMove mon landed s rng).1.speed * (20 / 100)) ∧
      (ph = CLEAR_IDLE → s'.y = s.y + (preMove mon landed s rng).1.speed * 1) ∧
      (¬ (s.hasPiece = true ∧ s.hardDropping = false ∧ s.ticksToHardDrop - 1 ≤ 0) →
        (preMove mon landed s rng).1.speed = s.speed) ∧
      (s.hasPiece = true → 0 < s.ticksToRotate - 1 →
        s'.ticksToRotate = s.ticksToRotate - 1) ∧
      (s.hasPiece = true → s.ticksToRotate - 1 ≤ 0 →
        10 ≤ s'.ticksToRotate ∧ s'.ticksToRotate ≤ 50) ∧
      (s.hasPiece = true → s.hardDropping = false →
        s'.ticksToHardDrop = s.ticksToHardDrop - 1) ∧
      (s.hasPiece = true → s.hardDropping = true →
        s'.ticksToHardDrop = s.ticksToHardDrop) ∧
      (s.hasPiece = false →
        s'.ticksToRotate = s.ticksToRotate ∧ s'.ticksToHardDrop = s.ticksToHardDrop) := by
  obtain ⟨hat, hgrid⟩ := Update_stream_at gridRows gridCols monitors w pre post s hw
  rw [if_pos hidx.2, hph, hmon, hst] at hat hgrid
  obtain ⟨h0, h1, h2, h3, h4, h5, h6, h7, h8⟩ :=
    updateStream_plain gridRows gridCols mon (ph != CLEAR_IDLE) landed s rng hland hoff
  refine ⟨_, hat, hgrid.trans h0, fun hne => h1 ?_, fun heq => h2 ?_, h3, h4, h5, h6, h7, h8⟩
  · cases ph
    · exact absurd rfl hne
    · rfl
    · rfl
  · rw [heq]
    rfl

/-- The stream `slowedStream` when its movement is computed on draws that are all 1: only
its timers have counted down. -/
theorem preMove_slowedStream (landed : Landed) :
    (preMove region10 landed slowedStream rngOnes).1 =
      { slowedStream with ticksToRotate := 29, ticksToHardDrop := 499 } := by
  rfl

/-- The tick of `clearingWorld` as the stream loop reaches `slowedStream`: the controller
has just left idle for the flash (fill 0.4), the grid is untouched, and at a fifth of its
speed the stream reaches row 3 without landing or respawn. -/
theorem clearingWorld_tick :
    (0 ≤ slowedStream.monitorIdx ∧ slowedStream.monitorIdx <
      ((Update 10 10 [region10] clearingWorld).monitorClears.length : Int)) ∧
    ((Update 10 10 [region10] clearingWorld).monitorClears.getD
      slowedStream.monitorIdx.toNat default).phase = CLEAR_FLASH ∧
    streamLoopState 10 10 [region10] clearingWorld [] = (fullRowsGrid, rngOnes) ∧
    ¬ Lands region10 fullRowsGrid (preMove region10 fullRowsGrid slowedStream rngOnes).1
      (speedMulOf (CLEAR_FLASH != CLEAR_IDLE)) ∧
    ¬ OffBottom region10 (preMove region10 fullRowsGrid slowedStream rngOnes).1
      (speedMulOf (CLEAR_FLASH != CLEAR_IDLE)) := by
  have hclears : (Update 10 10 [region10] clearingWorld).monitorClears =
      [StartClearForMonitor region10 fullRowsGrid idleInfo] := by
    show [(updateClear region10 fullRowsGrid idleInfo).2] = _
    rw [updateClear_scenarioA]
  have hnew : truncInt ((preMove region10 fullRowsGrid slowedStream rngOnes).1.y +
      (preMove region10 fullRowsGrid slowedStream rngOnes).1.speed *
        speedMulOf (CLEAR_FLASH != CLEAR_IDLE)) = 3 := by
    rw [preMove_slowedStream]
    have : ({ slowedStream with ticksToRotate := 29, ticksToHardDrop := 499 } :
        MatrixStream).y + ({ slowedStream with ticksToRotate := 29, ticksToHardDrop := 499 } :
        MatrixStream).speed * speedMulOf (CLEAR_FLASH != CLEAR_IDLE) = ((3 : Int) : ℚ) := by
      show ((2 : Int) : ℚ) + ((5 : Int) : ℚ) * speedMulOf true = ((3 : Int) : ℚ)
      norm_num [speedMulOf]
    rw [this]
    exact truncInt_intCast 3
  have hy : truncInt (preMove region10 fullRowsGrid slowedStream rngOnes).1.y = 2 := by
    rw [preMove_slowedStream]
    exact truncInt_intCast 2
  refine ⟨?_, ?_, ?_, ?_, ?_⟩
  · rw [hclears]
    decide
  · rw [hclears]
    show (StartClearForMonitor region10 fullRowsGrid idleInfo).phase = CLEAR_FLASH
    decide
  · show ((updateClear region10 fullRowsGrid idleInfo).1, rngOnes) = _
    rw [updateClear_scenarioA]
  · unfold Lands
    rw [hnew, hy, preMove_slowedStream]
    rintro ⟨_, _, hne⟩
    exact hne (by decide)
  · unfold OffBottom
    rw [hnew, preMove_slowedStream]
    decide

/-- The tick of `idleWorld` as the stream loop reaches `slowedStream`: the controller
stays idle (fill 0), and at full speed the stream reaches row 7 without landing or
respawn. -/
theorem idleWorld_tick :
    (0 ≤ slowedStream.monitorIdx ∧ slowedStream.monitorIdx <
      ((Update 10 10 [region10] idleWorld).monitorClears.length : Int)) ∧
    ((Update 10 10 [region10] idleWorld).monitorClears.getD
      slowedStream.monitorIdx.toNat default).phase = CLEAR_IDLE ∧
    streamLoopState 10 10 [region10] idleWorld [] = (emptyGrid, rngOnes) ∧
    ¬ Lands region10 emptyGrid (preMove region10 emptyGrid slowedStream rngOnes).1
      (speedMulOf (CLEAR_IDLE != CLEAR_IDLE)) ∧
    ¬ OffBottom region10 (preMove region10 emptyGrid slowedStream rngOnes).1
      (speedMulOf (CLEAR_IDLE != CLEAR_IDLE)) := by
  have hclears : (Update 10 10 [region10] idleWorld).monitorClears = [idleInfo] := by
    show [(updateClear region10 emptyGrid idleInfo).2] = _
    rw [updateClear_emptyGrid]
  have hnew : truncInt ((preMove region10 emptyGrid slowedStream rngOnes).1.y +
      (preMove region10 emptyGrid slowedStream rngOnes).1.speed *
        speedMulOf (CLEAR_IDLE != CLEAR_IDLE)) = 7 := by
    rw [preMove_slowedStream]
    have : ({ slowedStream with ticksToRotate := 29, ticksToHardDrop := 499 } :
        MatrixStream).y + ({ slowedStream with ticksToRotate := 29, ticksToHardDrop := 499 } :
        MatrixStream).speed * speedMulOf (CLEAR_IDLE != CLEAR_IDLE) = ((7 : Int) : ℚ) := by
      show ((2 : Int) : ℚ) + ((5 : Int) : ℚ) * speedMulOf false = ((7 : Int) : ℚ)
      norm_num [speedMulOf]
    rw [this]
    exact truncInt_intCast 7
  have hy : truncInt (preMove region10 emptyGrid slowedStream rngOnes).1.y = 2 := by
    rw [preMove_slowedStream]
    exact truncInt_intCast 2
  refine ⟨?_, ?_, ?_, ?_, ?_⟩
  · rw [hclears]
    decide
  · rw [hclears]
    rfl
  · show ((updateClear region10 emptyGrid idleInfo).1, rngOnes) = _
    rw [updateClear_emptyGrid]
  · unfold Lands
    rw [hnew, hy, preMove_slowedStream]
    rintro ⟨_, _, hne⟩
    exact hne (by decide)
  · unfold OffBottom
    rw [hnew, preMove_slowedStream]
    decide

/-- Witness of C15 (amended). In `clearingWorld` the controller of `region10` leaves idle
in this tick, so its phase after the controller step is `CLEAR_FLASH`, and the stream
`slowedStream` (speed 5, head row 2), which neither lands nor respawns, advances by
`5 * 0.20 = 1` row to row 3. In `idleWorld` the controller stays idle and the same stream
advances by `5 * 1.0 = 5` rows to row 7. In both its timers go from 30 to 29 and from 500
to 499. -/
theorem clear_slow_down_witness :
    clearingWorld.streams = [] ++ slowedStream :: [] ∧
    (0 ≤ slowedStream.monitorIdx ∧ slowedStream.monitorIdx <
      ((Update 10 10 [region10] clearingWorld).monitorClears.length : Int)) ∧
    ((Update 10 10 [region10] clearingWorld).monitorClears.getD
      slowedStream.monitorIdx.toNat default).phase = CLEAR_FLASH ∧
    streamLoopState 10 10 [region10] clearingWorld [] = (fullRowsGrid, rngOnes) ∧
    ¬ Lands region10 fullRowsGrid (preMove region10 fullRowsGrid slowedStream rngOnes).1
      (speedMulOf (CLEAR_FLASH != CLEAR_IDLE)) ∧
    ¬ OffBottom region10 (preMove region10 fullRowsGrid slowedStream rngOnes).1
      (speedMulOf (CLEAR_FLASH != CLEAR_IDLE)) ∧
    (∃ s' : MatrixStream,
      (Update 10 10 [region10] clearingWorld).streams[0]? = some s' ∧
      s'.y = slowedStream.y + slowedStream.speed * (20 / 100) ∧
      s'.y = ((3 : Int) : ℚ) ∧
      s'.ticksToRotate = 29 ∧ s'.ticksToHardDrop = 499) ∧
    ((Update 10 10 [region10] idleWorld).monitorClears.getD
      slowedStream.monitorIdx.toNat default).phase = CLEAR_IDLE ∧
    (∃ s' : MatrixStream,
      (Update 10 10 [region10] idleWorld).streams[0]? = some s' ∧
      s'.y = slowedStream.y + slowedStream.speed * 1 ∧
      s'.y = ((7 : Int) : ℚ) ∧
      s'.ticksToRotate = 29 ∧ s'.ticksToHardDrop = 499) := by
  obtain ⟨hidx, hph, hst, hland, hoff⟩ := clearingWorld_tick
  obtain ⟨hidx', hph', hst', hland', hoff'⟩ := idleWorld_tick
  obtain ⟨s1, hs1, _, hslow, _, hspeed, hrot, _, hhd, _, _⟩ :=
    clear_slow_down 10 10 [region10] clearingWorld [] [] slowedStream CLEAR_FLASH region10
      fullRowsGrid rngOnes rfl hidx hph rfl hst hland hoff
  obtain ⟨s2, hs2, _, _, hfull, hspeed', hrot', _, hhd', _, _⟩ :=
    clear_slow_down 10 10 [region10] idleWorld [] [] slowedStream CLEAR_IDLE region10
      emptyGrid rngOnes rfl hidx' hph' rfl hst' hland' hoff'
  have hy1 : s1.y = slowedStream.y + slowedStream.speed * (20 / 100) := by
    rw [← hspeed (by decide)]
    exact hslow (by decide)
  have hy2 : s2.y = slowedStream.y + slowedStream.speed * 1 := by
    rw [← hspeed' (by decide)]
    exact hfull rfl
  refine ⟨rfl, hidx, hph, hst, hland, hoff,
    ⟨s1, hs1, hy1, ?_, hrot rfl (by decide), hhd rfl rfl⟩, hph',
    ⟨s2, hs2, hy2, ?_, hrot' rfl (by decide), hhd' rfl rfl⟩⟩
  · rw [hy1]
    show ((2 : Int) : ℚ) + ((5 : Int) : ℚ) * (20 / 100) = ((3 : Int) : ℚ)
    norm_num
  · rw [hy2]
    show ((2 : Int) : ℚ) + ((5 : Int) : ℚ) * 1 = ((7 : Int) : ℚ)
    norm_num

/-! ## Independence of the region controllers -/

/-- The rows of a span are the rows between its ends. -/
theorem mem_rowSpan (hi lo r : Int) : r ∈ rowSpan hi lo ↔ hi ≤ r ∧ r ≤ lo := by
  unfold rowSpan
  rw [List.mem_map]
  constructor
  · rintro ⟨i, hi', rfl⟩
    have := List.mem_range.1 hi'
    omega
  · rintro ⟨h1, h2⟩
    refine ⟨(r - hi).toNat, List.mem_range.2 (by omega), by omega⟩

/-- The rows recorded by a step from idle into the flash phase lie inside the region. -/
theorem entered_flash_rows (m : MonitorGrid) (landed : Landed) (mci : MonitorClearInfo)
    (hidle : mci.phase = CLEAR_IDLE)
    (hentered : (updateClear m landed mci).2.phase = CLEAR_FLASH) :
    ∀ r ∈ (updateClear m landed mci).2.rows, m.top ≤ r ∧ r < m.bottom := by
  by_cases hfill : GetMonitorFillPct m landed ≥ FILL_CLEAR_PCT
  · obtain ⟨x0, hx0, hrow⟩ := exists_content_of_fill m landed hfill
    obtain ⟨lo, hi, hlo, hhi, _, hstart⟩ := StartClearForMonitor_spec m landed mci x0 hx0 hrow
    have heq : updateClear m landed mci = (landed, StartClearForMonitor m landed mci) := by
      simp only [updateClear, hidle, hfill, if_true]
    rw [heq, hstart]
    intro r hr
    have hmem := (mem_rowSpan hi lo r).1 hr
    have h1 := hlo.1
    have h2 := hhi.1
    omega
  · have heq : updateClear m landed mci = (landed, mci) := by
      simp only [updateClear, hidle, hfill, if_false]
    rw [heq] at hentered
    rw [hidle] at hentered
    cases hentered

/-- The row found by the search of the gravity shift is not above the region, or it is
the floor of the region. -/
theorem topContentRow_ge (m : MonitorGrid) (landed : Landed) :
    m.top ≤ topContentRow m landed ∨ topContentRow m landed = m.bottom := by
  unfold topContentRow
  cases hf : findUp (fun r => rowHasContent m landed r) (m.bottom - m.top).toNat m.top with
  | none => exact Or.inr rfl
  | some j => exact Or.inl ((findUp_eq_some_iff _ _ _ _).1 hf).1

/-- The loop over the controllers, cut at one controller: the controllers before it are
stepped as if it were not there, and it hands the ones after it the landed grid only. -/
theorem updateClears_cut (monitors : List MonitorGrid) (landed : Landed)
    (pre : List MonitorClearInfo) (mci : MonitorClearInfo) (post : List MonitorClearInfo) :
    updateClears monitors landed (pre ++ mci :: post) =
      ((updateClears monitors
          (updateClear (monitors.getD mci.monIdx.toNat default)
            (updateClears monitors landed pre).1 mci).1 post).1,
        (updateClears monitors landed pre).2 ++
          (updateClear (monitors.getD mci.monIdx.toNat default)
            (updateClears monitors landed pre).1 mci).2 ::
          (updateClears monitors
            (updateClear (monitors.getD mci.monIdx.toNat default)
              (updateClears monitors landed pre).1 mci).1 post).2) := by
  induction pre generalizing landed with
  | nil => rfl
  | cons a pre ih =>
    show updateClears monitors landed (a :: (pre ++ mci :: post)) = _
    simp only [updateClears, ih, List.cons_append]

/-- C17: region controllers are independent. For a region `R`, a span recorded by
`StartClearForMonitor` (by a step from idle into the flash phase) and `n >= 0`, the clear
commit `ApplyClearAndStartDrop` and the gravity shift `ApplyGravityForMonitor` leave
every landed cell outside `[R.top, R.bottom) x [R.left, R.right)` unchanged; and in the
loop over the controllers the step of one controller changes no other controller's clear
state: the ones before it end as in the loop without it, the ones after it receive from it
the landed grid only. -/
theorem controllers_independent (region : MonitorGrid) (landed0 : Landed)
    (mci0 : MonitorClearInfo) (landed : Landed) (mci : MonitorClearInfo) (n r c : Int)
    (hidle : mci0.phase = CLEAR_IDLE)
    (hentered : (updateClear region landed0 mci0).2.phase = CLEAR_FLASH)
    (hrows : mci.rows = (updateClear region landed0 mci0).2.rows)
    (hn : 0 ≤ n)
    (hout : ¬ ((region.top ≤ r ∧ r < region.bottom) ∧ region.left ≤ c ∧ c < region.right)) :
    (ApplyClearAndStartDrop region landed mci).1 r c = landed r c ∧
    ApplyGravityForMonitor region n landed r c = landed r c ∧
    ∀ (monitors : List MonitorGrid) (pre post : List MonitorClearInfo) (g : Landed),
      (updateClears monitors g (pre ++ mci :: post)).2 =
        (updateClears monitors g pre).2 ++
          (updateClear (monitors.getD mci.monIdx.toNat default)
            (updateClears monitors g pre).1 mci).2 ::
          (updateClears monitors
            (updateClear (monitors.getD mci.monIdx.toNat default)
              (updateClears monitors g pre).1 mci).1 post).2 := by
  refine ⟨?_, ?_, fun monitors pre post g => ?_⟩
  · show clearRows region mci.rows landed r c = landed r c
    rw [clearRows_apply]
    have hno : ¬ (r ∈ mci.rows ∧ region.left ≤ c ∧ c < region.right) := by
      rintro ⟨hr, hc⟩
      rw [hrows] at hr
      exact hout ⟨entered_flash_rows region landed0 mci0 hidle hentered r hr, hc⟩
    rw [if_neg hno]
  · rw [ApplyGravityForMonitor_apply region n hn]
    have htc := topContentRow_ge region landed
    have h1 : ¬ ((topContentRow region landed ≤ r ∧ r < topContentRow region landed + n ∧
        r < region.bottom) ∧ region.left ≤ c ∧ c < region.right) := by
      rintro ⟨⟨h2, _, h3⟩, hc⟩
      apply hout
      refine ⟨⟨?_, h3⟩, hc⟩
      rcases htc with h | h <;> omega
    have h2 : ¬ ((topContentRow region landed + n ≤ r ∧ r < region.bottom) ∧
        region.left ≤ c ∧ c < region.right) := by
      rintro ⟨⟨h2, h3⟩, hc⟩
      apply hout
      refine ⟨⟨?_, h3⟩, hc⟩
      rcases htc with h | h <;> omega
    rw [if_neg h1, if_neg h2]
  · rw [updateClears_cut]

/-- Witness of C17: after the flash of scenario A has started in the 10 x 10 region, the
clear commit and a gravity shift by 4 leave the cell at row 3, column 12 (to the right of
the region) as it is. -/
theorem controllers_independent_witness :
    idleInfo.phase = CLEAR_IDLE ∧
    (updateClear region10 fullRowsGrid idleInfo).2.phase = CLEAR_FLASH ∧
    (0 : Int) ≤ 4 ∧
    ¬ ((region10.top ≤ 3 ∧ (3 : Int) < region10.bottom) ∧
        region10.left ≤ 12 ∧ (12 : Int) < region10.right) ∧
    (ApplyClearAndStartDrop region10 fullRowsGrid
      (updateClear region10 fullRowsGrid idleInfo).2).1 3 12 = fullRowsGrid 3 12 ∧
    ApplyGravityForMonitor region10 4 fullRowsGrid 3 12 = fullRowsGrid 3 12 := by
  have hentered : (updateClear region10 fullRowsGrid idleInfo).2.phase = CLEAR_FLASH := by
    rw [updateClear_scenarioA]; decide
  have h := controllers_independent region10 fullRowsGrid idleInfo fullRowsGrid
    (updateClear region10 fullRowsGrid idleInfo).2 4 3 12 rfl hentered rfl (by decide)
    (by decide)
  exact ⟨rfl, hentered, by decide, by decide, h.1, h.2.1⟩

/-! ## Floor check -/

/-- C19: rotation rule. When `ticksToRotate` reaches zero in a tick (piece stream with
rotation in 0..3), the candidate rotation is `(rotation + k) mod 4` for the drawn `k` in
`{1, 2, 3}`, hence in 0..3 and different from the current rotation; the rotation of the
stream becomes the candidate if `CanPieceFitAt` holds for the candidate at the current
head row `(int)y` and column, and is left unchanged otherwise; in both cases
`ticksToRotate` is reset to a value in `[10, 50]`. -/
theorem rotation_rule (m : MonitorGrid) (landed : Landed) (s : MatrixStream) (rng : Rng)
    (hp : s.hasPiece = true) (hzero : s.ticksToRotate - 1 ≤ 0)
    (hrot : 0 ≤ s.rotation ∧ s.rotation ≤ 3) :
    (1 ≤ (RandInt 1 3 rng).1 ∧ (RandInt 1 3 rng).1 ≤ 3) ∧
    (0 ≤ Int.tmod (s.rotation + (RandInt 1 3 rng).1) 4 ∧
      Int.tmod (s.rotation + (RandInt 1 3 rng).1) 4 ≤ 3) ∧
    Int.tmod (s.rotation + (RandInt 1 3 rng).1) 4 ≠ s.rotation ∧
    (CanPieceFitAt s.pieceType (Int.tmod (s.rotation + (RandInt 1 3 rng).1) 4)
        (GetPieceBottomRow s) s.col m landed = true →
      (updateTimers m landed s rng).1.rotation =
        Int.tmod (s.rotation + (RandInt 1 3 rng).1) 4) ∧
    (CanPieceFitAt s.pieceType (Int.tmod (s.rotation + (RandInt 1 3 rng).1) 4)
        (GetPieceBottomRow s) s.col m landed = false →
      (updateTimers m landed s rng).1.rotation = s.rotation) ∧
    (10 ≤ (updateTimers m landed s rng).1.ticksToRotate ∧
      (updateTimers m landed s rng).1.ticksToRotate ≤ 50) := by
  have hk := RandInt_range 1 3 rng (by decide)
  have hmod : Int.tmod (s.rotation + (RandInt 1 3 rng).1) 4 =
      (s.rotation + (RandInt 1 3 rng).1) % 4 :=
    Int.tmod_eq_emod (by omega) (by decide)
  obtain ⟨htick, hnew⟩ := (updateTimers_ticksToRotate m landed s rng hp).2 hzero
  refine ⟨hk, ?_, ?_, fun hfit => ?_, fun hfit => ?_, ?_⟩
  · rw [hmod]; omega
  · rw [hmod]; omega
  · rw [hnew]
    unfold GetPieceBottomRow at hfit
    rw [if_pos hfit]
  · rw [hnew]
    unfold GetPieceBottomRow at hfit
    rw [hfit]
    simp
  · rw [htick]
    exact RandInt_range 10 50 _ (by decide)

/-- Witness of C19: the O piece of `rotatingStream` (rotation 0, timer at 1) draws
`k = 2`; the candidate rotation 2 fits on the empty grid and becomes its rotation, and
the timer is redrawn to 11. -/
theorem rotation_rule_witness :
    rotatingStream.hasPiece = true ∧ rotatingStream.ticksToRotate - 1 ≤ 0 ∧
    (0 ≤ rotatingStream.rotation ∧ rotatingStream.rotation ≤ 3) ∧
    (RandInt 1 3 rngOnes).1 = 2 ∧
    (updateTimers region10 emptyGrid rotatingStream rngOnes).1.rotation =
      Int.tmod (rotatingStream.rotation + (RandInt 1 3 rngOnes).1) 4 ∧
    (10 ≤ (updateTimers region10 emptyGrid rotatingStream rngOnes).1.ticksToRotate ∧
      (updateTimers region10 emptyGrid rotatingStream rngOnes).1.ticksToRotate ≤ 50) :=
  ⟨rfl, by decide, by decide, by decide,
    (rotation_rule region10 emptyGrid rotatingStream rngOnes rfl (by decide)
      (by decide)).2.2.2.1 (by decide),
    (rotation_rule region10 emptyGrid rotatingStream rngOnes rfl (by decide)
      (by decide)).2.2.2.2.2⟩

/-! ## Head row -/

/-- The cast `(int)x` is the floor for `x ≥ 0` and the ceiling for `x < 0`. -/
theorem truncInt_eq (x : ℚ) : truncInt x = if 0 ≤ x then ⌊x⌋ else ⌈x⌉ := by
  unfold truncInt
  by_cases h : 0 ≤ x
  · rw [if_pos h, Rat.floor_def, Int.tdiv_eq_ediv (Rat.num_nonneg.2 h) (Int.ofNat_nonneg _)]
  · rw [if_neg h]
    have hnum : x.num < 0 := Rat.num_neg.2 (not_le.1 h)
    have h1 : Int.tdiv x.num x.den = -(Int.tdiv (-x.num) x.den) := by
      rw [Int.neg_tdiv, neg_neg]
    have h2 : Int.tdiv (-x.num) x.den = (-x.num) / x.den :=
      Int.tdiv_eq_ediv (by omega) (Int.ofNat_nonneg _)
    have h3 : ⌊-x⌋ = (-x.num) / x.den := by
      rw [Rat.floor_def, Rat.neg_num, Rat.neg_den]
    rw [h1, h2, ← h3, Int.floor_neg, neg_neg]

/-- Landing reads the head position through its head row only. -/
theorem LandPiece_headRow (gridRows gridCols : Int) (landed : Landed) (s : MatrixStream) :
    LandPiece gridRows gridCols landed s =
      LandPiece gridRows gridCols landed { s with y := ((GetPieceBottomRow s : Int) : ℚ) } := by
  unfold LandPiece GetPieceBottomRow
  simp only [truncInt_intCast]
  rfl

/-- Head position `-0.5`: the head row is 0 and the floor is -1. -/
theorem halfAboveStream_rows :
    GetPieceBottomRow halfAboveStream = 0 ∧ ⌊halfAboveStream.y⌋ = -1 := by
  constructor
  · unfold GetPieceBottomRow
    rw [truncInt_eq]
    have hneg : ¬ (0 ≤ halfAboveStream.y) := by
      show ¬ ((0 : ℚ) ≤ -1 / 2)
      norm_num
    rw [if_neg hneg, Int.ceil_eq_iff]
    show (((0 : Int) : ℚ) - 1 < -1 / 2) ∧ ((-1 / 2 : ℚ) ≤ ((0 : Int) : ℚ))
    norm_num
  · rw [Int.floor_eq_iff]
    show ((((-1 : Int)) : ℚ) ≤ -1 / 2) ∧ ((-1 / 2 : ℚ) < (((-1 : Int)) : ℚ) + 1)
    norm_num

/-- C20, as stated, fails: for the head position `-0.5` the head row is
`(int)(-0.5) = 0`, not `floor(-0.5) = -1`; landing an O piece there writes rows 0 and 1
(cell `(1, 5)` is written), not rows -1 and 0. -/
theorem head_row_floor_counterexample :
    halfAboveStream.y = -1 / 2 ∧
    GetPieceBottomRow halfAboveStream = 0 ∧ ⌊halfAboveStream.y⌋ = -1 ∧
    GetPieceBottomRow halfAboveStream ≠ ⌊halfAboveStream.y⌋ ∧
    LandPiece 10 10 emptyGrid halfAboveStream 1 5 = ⟨true, RGB 0 200 80, 255⟩ := by
  obtain ⟨h0, hfloor⟩ := halfAboveStream_rows
  refine ⟨rfl, h0, hfloor, by rw [h0, hfloor]; decide, ?_⟩
  have hrow : truncInt halfAboveStream.y = 0 := h0
  apply (LandPiece_apply 10 10 emptyGrid halfAboveStream 1 5).1
  refine ⟨1, 1, by decide, by decide, ?_⟩
  unfold landWrites
  rw [hrow]
  decide

/-- C20 (amended): the head row used for landing, for the start and the end of the
collision scan and for the rotation check is the cast `(int)` of the fractional head
position, that is its truncation towards zero: the floor for a head position `>= 0` and
the ceiling for a negative one (so `-0.5` gives head row 0). -/
theorem head_row_truncates (gridRows gridCols : Int) (mon : MonitorGrid) (speedMul : ℚ)
    (landed : Landed) (s : MatrixStream) (rng : Rng) :
    GetPieceBottomRow s = (if 0 ≤ s.y then ⌊s.y⌋ else ⌈s.y⌉) ∧
    LandPiece gridRows gridCols landed s =
      LandPiece gridRows gridCols landed { s with y := ((GetPieceBottomRow s : Int) : ℚ) } ∧
    (∀ landRow : Int, s.hasPiece = true →
      GetPieceBottomRow { s with y := s.y + s.speed * speedMul } ≥ -3 →
      scanLandRow s.pieceType s.rotation s.col mon landed (max (GetPieceBottomRow s) (-3))
        (GetPieceBottomRow { s with y := s.y + s.speed * speedMul }) = landRow →
      landRow ≠ -999 →
      moveStream gridRows gridCols mon speedMul landed s rng =
        (LandPiece gridRows gridCols landed { s with y := (landRow : ℚ) },
          ResetStream mon s rng)) ∧
    (s.hasPiece = true → s.ticksToRotate - 1 ≤ 0 →
      (updateTimers mon landed s rng).1.rotation =
        if CanPieceFitAt s.pieceType (Int.tmod (s.rotation + (RandInt 1 3 rng).1) 4)
            (GetPieceBottomRow s) s.col mon landed = true
        then Int.tmod (s.rotation + (RandInt 1 3 rng).1) 4 else s.rotation) := by
  refine ⟨truncInt_eq s.y, LandPiece_headRow gridRows gridCols landed s,
    fun landRow hp hend hscan hne =>
      moveStream_landing gridRows gridCols mon speedMul landed s rng landRow hp hend hscan hne,
    fun hp hzero => ((updateTimers_ticksToRotate mon landed s rng hp).2 hzero).2⟩

/-- Witness of C20 (amended): the stream at head position `-0.5` has head row
`ceil(-0.5) = 0`, and the stream `rotatingStream`, whose rotation timer expires, is
checked at its head row. -/
theorem head_row_truncates_witness :
    GetPieceBottomRow halfAboveStream = (if 0 ≤ halfAboveStream.y then ⌊halfAboveStream.y⌋
      else ⌈halfAboveStream.y⌉) ∧
    GetPieceBottomRow halfAboveStream = 0 ∧
    rotatingStream.hasPiece = true ∧ rotatingStream.ticksToRotate - 1 ≤ 0 ∧
    (updateTimers region10 emptyGrid rotatingStream rngOnes).1.rotation =
      if CanPieceFitAt rotatingStream.pieceType
          (Int.tmod (rotatingStream.rotation + (RandInt 1 3 rngOnes).1) 4)
          (GetPieceBottomRow rotatingStream) rotatingStream.col region10 emptyGrid = true
      then Int.tmod (rotatingStream.rotation + (RandInt 1 3 rngOnes).1) 4
      else rotatingStream.rotation :=
  ⟨(head_row_truncates 10 10 region10 1 emptyGrid halfAboveStream rngOnes).1,
    halfAboveStream_rows.1, rfl, by decide,
    (head_row_truncates 10 10 region10 1 emptyGrid rotatingStream rngOnes).2.2.2 rfl
      (by decide)⟩

/-! ## Brightness invariant -/

theorem CellOk_emptyCell : CellOk emptyCell := by
  unfold CellOk emptyCell
  simp

theorem CellOk_landedCell (k : Nat) : CellOk ⟨true, k, 255⟩ := by
  unfold CellOk
  simp

theorem CellOk_fadeCell (v : LandedCell) (h : CellOk v) : CellOk (fadeCell v) := by
  unfold fadeCell
  obtain ⟨h0, h1, h2⟩ := h
  by_cases hb : v.brightness > 80
  · rw [if_pos hb]
    refine ⟨?_, ?_, fun _ => ?_⟩
    · show 0 ≤ v.brightness - 3
      omega
    · show v.brightness - 3 ≤ 255
      omega
    · show 78 ≤ v.brightness - 3
      omega
  · rw [if_neg hb]
    exact ⟨h0, h1, h2⟩

/-- Each change of the landed grid keeps every cell within `CellOk`. -/
theorem applyOp_CellOk (op : LandedOp) (g : Landed) (h : ∀ r c, CellOk (g r c)) :
    ∀ r c, CellOk (applyOp op g r c) := by
  intro r c
  cases op with
  | land gridRows gridCols s =>
    show CellOk (LandPiece gridRows gridCols g s r c)
    by_cases hw : ∃ i j : Nat, i < 4 ∧ j < 4 ∧
        landWrites gridRows gridCols s (truncInt s.y) s.col i j r c
    · rw [(LandPiece_apply gridRows gridCols g s r c).1 hw]
      exact CellOk_landedCell _
    · rw [(LandPiece_apply gridRows gridCols g s r c).2 hw]
      exact h r c
  | clear m mci =>
    show CellOk (clearRows m mci.rows g r c)
    rw [clearRows_apply]
    split
    · exact CellOk_emptyCell
    · exact h r c
  | gravity m numRows =>
    show CellOk (ApplyGravityForMonitor m (numRows : Int) g r c)
    rw [ApplyGravityForMonitor_apply m (numRows : Int) (Int.ofNat_nonneg _)]
    split
    · exact CellOk_emptyCell
    · split
      · exact h _ _
      · exact h r c
  | decay gridRows gridCols =>
    show CellOk (fadeLanded gridRows gridCols g r c)
    rw [fadeLanded_apply]
    split
    · exact CellOk_fadeCell _ (h r c)
    · exact h r c

/-- A sequence of changes keeps every cell within `CellOk`. -/
theorem applyOps_CellOk (ops : List LandedOp) (g : Landed) (h : ∀ r c, CellOk (g r c)) :
    ∀ r c, CellOk (applyOps ops g r c) := by
  unfold applyOps
  induction ops generalizing g with
  | nil => exact h
  | cons op ops ih =>
    rw [List.foldl_cons]
    exact ih _ (applyOp_CellOk op g h)

/-- Changes applied one sequence after the other. -/
theorem applyOps_append (a b : List LandedOp) (g : Landed) :
    applyOps (a ++ b) g = applyOps b (applyOps a g) := by
  unfold applyOps
  rw [List.foldl_append]

/-- A controller step changes the landed grid by a clear commit, a gravity shift, or not
at all. -/
theorem updateClear_ops (m : MonitorGrid) (landed : Landed) (mci : MonitorClearInfo) :
    ∃ ops : List LandedOp, (updateClear m landed mci).1 = applyOps ops landed := by
  cases hp : mci.phase with
  | CLEAR_IDLE =>
    refine ⟨[], ?_⟩
    simp only [updateClear, hp]
    split_ifs <;> rfl
  | CLEAR_FLASH =>
    by_cases htick : mci.flashTick - 1 ≤ 0
    · refine ⟨[.clear m { mci with flashTick := mci.flashTick - 1 }], ?_⟩
      simp only [updateClear, hp, htick, if_true]
      rfl
    · refine ⟨[], ?_⟩
      simp only [updateClear, hp, htick, if_false]
      rfl
  | CLEAR_DROP =>
    by_cases hlt : mci.dropOffset < mci.dropTarget
    · by_cases hge : mci.dropOffset + (3 + mci.dropOffset * (5 / 100)) ≥ mci.dropTarget
      · refine ⟨[.gravity m mci.rows.length], ?_⟩
        rw [updateClear_drop_reach m landed mci hp hlt hge]
        rfl
      · refine ⟨[], ?_⟩
        rw [updateClear_drop_advance m landed mci hp hlt hge]
        rfl
    · refine ⟨[], ?_⟩
      simp only [updateClear, hp, hlt, if_false]
      rfl

/-- The loop over the controllers changes the landed grid by clear commits and gravity
shifts only. -/
theorem updateClears_ops (monitors : List MonitorGrid) (landed : Landed)
    (clears : List MonitorClearInfo) :
    ∃ ops : List LandedOp, (updateClears monitors landed clears).1 = applyOps ops landed := by
  induction clears generalizing landed with
  | nil => exact ⟨[], rfl⟩
  | cons mci rest ih =>
    obtain ⟨a, ha⟩ := updateClear_ops (monitors.getD mci.monIdx.toNat default) landed mci
    obtain ⟨b, hb⟩ := ih (updateClear (monitors.getD mci.monIdx.toNat default) landed mci).1
    refine ⟨a ++ b, ?_⟩
    rw [applyOps_append, ← ha, ← hb]
    rfl

/-- The movement of a stream changes the landed grid by a piece landing or not at all. -/
theorem moveStream_ops (gridRows gridCols : Int) (mon : MonitorGrid) (speedMul : ℚ)
    (landed : Landed) (s : MatrixStream) (rng : Rng) :
    ∃ ops : List LandedOp,
      (moveStream gridRows gridCols mon speedMul landed s rng).1 = applyOps ops landed := by
  by_cases hl : Lands mon landed s speedMul
  · obtain ⟨hp, hend, hne⟩ := hl
    have hcf : (if truncInt s.y < -3 then (-3 : Int) else truncInt s.y) =
        max (truncInt s.y) (-3) := by
      split_ifs <;> omega
    rw [hcf] at hne
    refine ⟨[.land gridRows gridCols { s with y :=
      ((scanLandRow s.pieceType s.rotation s.col mon landed (max (truncInt s.y) (-3))
        (truncInt (s.y + s.speed * speedMul)) : Int) : ℚ) }], ?_⟩
    rw [moveStream_landing gridRows gridCols mon speedMul landed s rng _ hp hend rfl hne]
    rfl
  · refine ⟨[], ?_⟩
    by_cases ho : OffBottom mon s speedMul
    · unfold OffBottom at ho
      unfold Lands at hl
      cases hp : s.hasPiece
      · simp only [moveStream, hp, Bool.not_false, if_true, ho]
        rfl
      · by_cases hend : truncInt (s.y + s.speed * speedMul) ≥ -3
        · have hscan : scanLandRow s.pieceType s.rotation s.col mon landed
              (if truncInt s.y < -3 then -3 else truncInt s.y)
              (truncInt (s.y + s.speed * speedMul)) = -999 := by
            by_contra hne
            exact hl ⟨hp, hend, hne⟩
          simp only [moveStream, hp, Bool.not_true, Bool.false_eq_true, if_false, hend,
            if_true, hscan, ne_eq, not_true_eq_false, and_false, ho]
          rfl
        · simp only [moveStream, hp, Bool.not_true, Bool.false_eq_true, if_false, hend,
            ne_eq, not_true_eq_false, and_false, false_and, ho, if_true]
          rfl
    · rw [moveStream_plain gridRows gridCols mon speedMul landed s rng hl ho]
      rfl

/-- The loop over the streams changes the landed grid by piece landings only. -/
theorem updateStreams_ops (gridRows gridCols : Int) (monitors : List MonitorGrid)
    (monitorClears : List MonitorClearInfo) (landed : Landed) (rng : Rng)
    (streams : List MatrixStream) :
    ∃ ops : List LandedOp,
      (updateStreams gridRows gridCols monitors monitorClears landed rng streams).1 =
        applyOps ops landed := by
  induction streams generalizing landed rng with
  | nil => exact ⟨[], rfl⟩
  | cons s rest ih =>
    obtain ⟨a, ha⟩ := moveStream_ops gridRows gridCols
      (monitors.getD s.monitorIdx.toNat default)
      (speedMulOf (if s.monitorIdx < (monitorClears.length : Int) then
        (monitorClears.getD s.monitorIdx.toNat default).phase != CLEAR_IDLE else false))
      landed
      (preMove (monitors.getD s.monitorIdx.toNat default) landed s rng).1
      (preMove (monitors.getD s.monitorIdx.toNat default) landed s rng).2
    obtain ⟨b, hb⟩ := ih
      (updateStream gridRows gridCols (monitors.getD s.monitorIdx.toNat default)
        (if s.monitorIdx < (monitorClears.length : Int) then
          (monitorClears.getD s.monitorIdx.toNat default).phase != CLEAR_IDLE else false)
        landed s rng).1
      (updateStream gridRows gridCols (monitors.getD s.monitorIdx.toNat default)
        (if s.monitorIdx < (monitorClears.length : Int) then
          (monitorClears.getD s.monitorIdx.toNat default).phase != CLEAR_IDLE else false)
        landed s rng).2.2
    refine ⟨a ++ b, ?_⟩
    rw [applyOps_append, ← ha]
    exact hb

/-- C21: landed-cell brightness invariant. Starting from the initial all-empty grid, after
any sequence of piece landings, clear commits, gravity shifts and decay passes, the
brightness of every cell lies in 0..255 and every filled cell has brightness `> 0`
(indeed at least 78): a filled cell is never fully dark. One tick of `Update` changes the
landed grid by such a sequence. -/
theorem brightness_invariant (ops : List LandedOp) (r c : Int) :
    0 ≤ (applyOps ops emptyGrid r c).brightness ∧
    (applyOps ops emptyGrid r c).brightness ≤ 255 ∧
    ((applyOps ops emptyGrid r c).filled = true →
      0 < (applyOps ops emptyGrid r c).brightness ∧
      78 ≤ (applyOps ops emptyGrid r c).brightness) ∧
    ∀ (gridRows gridCols : Int) (monitors : List MonitorGrid) (w : World),
      ∃ tick : List LandedOp,
        (Update gridRows gridCols monitors w).landed = applyOps tick w.landed := by
  obtain ⟨h0, h1, h2⟩ := applyOps_CellOk ops emptyGrid (fun _ _ => CellOk_emptyCell) r c
  refine ⟨h0, h1, fun hf => ?_, fun gridRows gridCols monitors w => ?_⟩
  · have := h2 hf
    exact ⟨by omega, this⟩
  · obtain ⟨a, ha⟩ := updateClears_ops monitors w.landed w.monitorClears
    obtain ⟨b, hb⟩ := updateStreams_ops gridRows gridCols monitors
      (updateClears monitors w.landed w.monitorClears).2
      (updateClears monitors w.landed w.monitorClears).1 w.rng w.streams
    refine ⟨a ++ b ++ [.decay gridRows gridCols], ?_⟩
    rw [applyOps_append, applyOps_append, ← ha, ← hb]
    rfl

/-- An O piece landed in a 10 x 10 grid, then one decay pass: cell `(8, 5)` is filled at
brightness 252. -/
theorem landed_then_faded :
    applyOps [.land 10 10 streamO, .decay 10 10] emptyGrid 8 5 = ⟨true, RGB 0 200 80, 252⟩ := by
  unfold applyOps
  simp only [List.foldl_cons, List.foldl_nil, applyOp]
  rw [fadeLanded_apply, if_pos (by decide)]
  have hland : LandPiece 10 10 emptyGrid streamO 8 5 = ⟨true, streamO.pieceColor, 255⟩ := by
    apply (LandPiece_apply 10 10 emptyGrid streamO 8 5).1
    refine ⟨0, 1, by decide, by decide, ?_⟩
    unfold landWrites
    rw [show truncInt streamO.y = 8 from truncInt_intCast 8]
    decide
  rw [hland]
  decide

/-- Witness of C21: after an O piece has landed in a 10 x 10 grid and one decay pass has
run, the cell `(8, 5)` is filled and its brightness is 252. -/
theorem brightness_invariant_witness :
    (applyOps [.land 10 10 streamO, .decay 10 10] emptyGrid 8 5).filled = true ∧
    (applyOps [.land 10 10 streamO, .decay 10 10] emptyGrid 8 5).brightness = 252 ∧
    (0 < (applyOps [.land 10 10 streamO, .decay 10 10] emptyGrid 8 5).brightness ∧
      78 ≤ (applyOps [.land 10 10 streamO, .decay 10 10] emptyGrid 8 5).brightness) :=
  ⟨by rw [landed_then_faded], by rw [landed_then_faded],
    (brightness_invariant [.land 10 10 streamO, .decay 10 10] 8 5).2.2.1
      (by rw [landed_then_faded])⟩

/-! ## In-bounds indexing -/

/-- An ascending counted loop keeps what its body keeps for the indices of the loop. -/
theorem forUp_inv {σ : Type} (Q : σ → Prop) (body : Int → σ → σ) (n : Nat) (i0 : Int)
    (s : σ) (hs : Q s)
    (hstep : ∀ (i : Int) (s : σ), i0 ≤ i → i < i0 + (n : Int) → Q s → Q (body i s)) :
    Q (forUp body n i0 s) := by
  induction n generalizing i0 s with
  | zero => exact hs
  | succ k ih =>
    show Q (forUp body k (i0 + 1) (body i0 s))
    apply ih
    · exact hstep i0 s (le_refl _) (by push_cast; omega) hs
    · intro i s' h1 h2 hq
      exact hstep i s' (by omega) (by push_cast; omega) hq

/-- A descending counted loop keeps what its body keeps for the indices of the loop. -/
theorem forDown_inv {σ : Type} (Q : σ → Prop) (body : Int → σ → σ) (n : Nat) (i0 : Int)
    (s : σ) (hs : Q s)
    (hstep : ∀ (i : Int) (s : σ), i0 - (n : Int) < i → i ≤ i0 → Q s → Q (body i s)) :
    Q (forDown body n i0 s) := by
  induction n generalizing i0 s with
  | zero => exact hs
  | succ k ih =>
    show Q (forDown body k (i0 - 1) (body i0 s))
    apply ih
    · exact hstep i0 s (by push_cast; omega) (le_refl _) hs
    · intro i s' h1 h2 hq
      exact hstep i s' (by push_cast; omega) (by omega) hq

/-- The collision test is the conjunction of the cell tests over `maskCells`, in order. -/
theorem CanPieceFitAt_eq_all (pieceType rotation gridRow gridCol : Int) (mon : MonitorGrid)
    (landed : Landed) :
    CanPieceFitAt pieceType rotation gridRow gridCol mon landed =
      maskCells.all (fun p => cellFits pieceType rotation gridRow gridCol mon landed p.1 p.2) := by
  unfold CanPieceFitAt maskCells
  simp only [List.range, List.range.loop, List.all_cons, List.all_nil, Bool.and_true,
    Bool.and_assoc]

/-- A read of the body of `CanPieceFitAt` is inside the region. -/
theorem cellAccess_mem (pieceType rotation gridRow gridCol : Int) (mon : MonitorGrid)
    (r c : Nat) (p : Int × Int)
    (hp : p ∈ cellAccess pieceType rotation gridRow gridCol mon r c) :
    (mon.top ≤ p.1 ∧ p.1 < mon.bottom) ∧ mon.left ≤ p.2 ∧ p.2 < mon.right := by
  unfold cellAccess at hp
  simp only [] at hp
  split_ifs at hp with h1 h2 h3 h4
  · simp at hp
  · simp at hp
  · simp at hp
  · simp at hp
  · rw [List.mem_singleton] at hp
    subst hp
    simp only [Bool.or_eq_true, decide_eq_true_eq, not_or, not_lt, ge_iff_le, not_le] at h3 h4
    exact ⟨⟨by omega, by omega⟩, by omega, by omega⟩

/-- Every read of `CanPieceFitAt` is inside the region. -/
theorem fitAccessLoop_mem (pieceType rotation gridRow gridCol : Int) (mon : MonitorGrid)
    (landed : Landed) (cells : List (Nat × Nat)) (p : Int × Int)
    (hp : p ∈ fitAccessLoop pieceType rotation gridRow gridCol mon landed cells) :
    (mon.top ≤ p.1 ∧ p.1 < mon.bottom) ∧ mon.left ≤ p.2 ∧ p.2 < mon.right := by
  induction cells with
  | nil => simp [fitAccessLoop] at hp
  | cons a rest ih =>
    obtain ⟨r, c⟩ := a
    unfold fitAccessLoop at hp
    rcases List.mem_append.1 hp with h | h
    · exact cellAccess_mem _ _ _ _ _ _ _ _ h
    · split_ifs at h
      · exact ih h
      · simp at h

/-- Every read of the column loop of the search is in its row and columns. -/
theorem rowScanAccesses_mem (landed : Landed) (r : Int) (k : Nat) (c : Int) (p : Int × Int)
    (hp : p ∈ rowScanAccesses landed r k c) : p.1 = r ∧ c ≤ p.2 ∧ p.2 < c + (k : Int) := by
  induction k generalizing c with
  | zero => simp [rowScanAccesses] at hp
  | succ k ih =>
    unfold rowScanAccesses at hp
    rcases List.mem_cons.1 hp with h | h
    · subst h
      exact ⟨rfl, le_refl _, by push_cast; omega⟩
    · split_ifs at h
      · simp at h
      · have := ih (c + 1) h
        exact ⟨this.1, by omega, by push_cast; omega⟩

/-- Every read of the search is in its rows and in the columns of the region. -/
theorem searchAccesses_mem (m : MonitorGrid) (landed : Landed) (k : Nat) (r : Int)
    (p : Int × Int) (hp : p ∈ searchAccesses m landed k r) :
    (r ≤ p.1 ∧ p.1 < r + (k : Int)) ∧ m.left ≤ p.2 ∧ p.2 < m.right := by
  induction k generalizing r with
  | zero => simp [searchAccesses] at hp
  | succ k ih =>
    unfold searchAccesses at hp
    rcases List.mem_append.1 hp with h | h
    · have := rowScanAccesses_mem landed r _ _ p h
      exact ⟨⟨by omega, by push_cast; omega⟩, by omega, by omega⟩
    · split_ifs at h
      · simp at h
      · have := ih (r + 1) h
        exact ⟨⟨by omega, by push_cast; omega⟩, this.2⟩

/-- Every access of the shift loop has its column in the region and its row between
`topContent` and the floor, for `numRows ≥ 0`. -/
theorem shiftAccesses_mem (m : MonitorGrid) (numRows topContent : Int) (hn : 0 ≤ numRows)
    (p : Int × Int) (hp : p ∈ shiftAccesses m numRows topContent) :
    (topContent ≤ p.1 ∧ p.1 < m.bottom) ∧ m.left ≤ p.2 ∧ p.2 < m.right := by
  revert p
  unfold shiftAccesses
  apply forDown_inv (fun acc : List (Int × Int) => ∀ p ∈ acc,
    (topContent ≤ p.1 ∧ p.1 < m.bottom) ∧ m.left ≤ p.2 ∧ p.2 < m.right)
  · intro p hp
    simp at hp
  · intro r acc hr1 hr2 hacc
    apply forUp_inv (fun acc : List (Int × Int) => ∀ p ∈ acc,
      (topContent ≤ p.1 ∧ p.1 < m.bottom) ∧ m.left ≤ p.2 ∧ p.2 < m.right)
    · exact hacc
    · intro c acc' hc1 hc2 hacc' p hp
      rcases List.mem_append.1 hp with h | h
      · exact hacc' p h
      · simp only [List.mem_cons, List.mem_singleton, List.not_mem_nil, or_false] at h
        rcases h with h | h <;> subst h
        · exact ⟨⟨by show topContent ≤ r - numRows; omega, by show r - numRows < m.bottom; omega⟩,
            by show m.left ≤ c; omega, by show c < m.right; omega⟩
        · exact ⟨⟨by show topContent ≤ r; omega, by show r < m.bottom; omega⟩,
            by show m.left ≤ c; omega, by show c < m.right; omega⟩

/-- Every write of the last loop of the gravity shift has its column in the region and its
row between `topContent` and the floor. -/
theorem vacatedAccesses_mem (m : MonitorGrid) (numRows topContent : Int) (p : Int × Int)
    (hp : p ∈ vacatedAccesses m numRows topContent) :
    (topContent ≤ p.1 ∧ p.1 < m.bottom) ∧ m.left ≤ p.2 ∧ p.2 < m.right := by
  revert p
  unfold vacatedAccesses
  apply forUp_inv (fun acc : List (Int × Int) => ∀ p ∈ acc,
    (topContent ≤ p.1 ∧ p.1 < m.bottom) ∧ m.left ≤ p.2 ∧ p.2 < m.right)
  · intro p hp
    simp at hp
  · intro r acc hr1 hr2 hacc
    apply forUp_inv (fun acc : List (Int × Int) => ∀ p ∈ acc,
      (topContent ≤ p.1 ∧ p.1 < m.bottom) ∧ m.left ≤ p.2 ∧ p.2 < m.right)
    · exact hacc
    · intro c acc' hc1 hc2 hacc' p hp
      rcases List.mem_append.1 hp with h | h
      · exact hacc' p h
      · rw [List.mem_singleton] at h
        subst h
        exact ⟨⟨by show topContent ≤ r; omega, by show r < m.bottom; omega⟩,
          by show m.left ≤ c; omega, by show c < m.right; omega⟩

/-- C22: in-bounds indexing. For every region with `0 <= top <= bottom <= gridRows` and
`0 <= left <= right <= gridCols`, every piece type 0..6, rotation 0..3 and all integers
`row` and `col` (negative ones too), every access of `CanPieceFitAt` to the landed grid
uses indices with `0 <= gr < gridRows` and `0 <= gc < gridCols`; and every access of
`ApplyGravityForMonitor` with `n >= 0` (the search, the source row `r - n` and the target
row of the shift, the emptied rows) is inside the grid as well. -/
theorem accesses_in_bounds (gridRows gridCols pieceType rotation row col n : Int)
    (region : MonitorGrid) (landed : Landed)
    (_hp : 0 ≤ pieceType ∧ pieceType ≤ 6) (_hr : 0 ≤ rotation ∧ rotation ≤ 3)
    (hin : region.Inside gridRows gridCols) (hn : 0 ≤ n) :
    (∀ p ∈ CanPieceFitAtAccesses pieceType rotation row col region landed,
      InGrid gridRows gridCols p) ∧
    (∀ p ∈ ApplyGravityAccesses region n landed, InGrid gridRows gridCols p) := by
  obtain ⟨h1, h2, h3, h4, h5, h6⟩ := hin
  constructor
  · intro p hp
    have := fitAccessLoop_mem _ _ _ _ _ _ _ p hp
    unfold InGrid
    omega
  · intro p hp
    have htc := topContentRow_bounds region landed h2
    unfold ApplyGravityAccesses at hp
    unfold InGrid
    rcases List.mem_append.1 hp with h | h
    · rcases List.mem_append.1 h with h | h
      · have := searchAccesses_mem region landed _ _ p h
        omega
      · have := shiftAccesses_mem region n _ hn p h
        omega
    · have := vacatedAccesses_mem region n _ p h
      omega

/-- Witness of C22: the O piece anchored at row 8, column 9 of the 10 x 10 region reads
the cells `(8, 9)` and `(9, 9)` only (column 10 is clipped), both inside the grid;
shifting the single cell of `singleCellGrid` down by 4 reads `(2, 3)` and writes `(6, 3)`,
both inside the grid. -/
theorem accesses_in_bounds_witness :
    ((0 : Int) ≤ 1 ∧ (1 : Int) ≤ 6) ∧ ((0 : Int) ≤ 0 ∧ (0 : Int) ≤ 3) ∧
    region10.Inside 10 10 ∧ (0 : Int) ≤ 4 ∧
    CanPieceFitAtAccesses 1 0 8 9 region10 emptyGrid = [(8, 9), (9, 9)] ∧
    InGrid 10 10 (8, 9) ∧ InGrid 10 10 (9, 9) ∧
    ((2, 3) : Int × Int) ∈ ApplyGravityAccesses region10 4 singleCellGrid ∧
    ((6, 3) : Int × Int) ∈ ApplyGravityAccesses region10 4 singleCellGrid ∧
    InGrid 10 10 (2, 3) ∧ InGrid 10 10 (6, 3) :=
  ⟨by decide, by decide, by decide, by decide, by decide,
    (accesses_in_bounds 10 10 1 0 8 9 4 region10 emptyGrid (by decide) (by decide)
      (by decide) (by decide)).1 (8, 9) (by decide),
    (accesses_in_bounds 10 10 1 0 8 9 4 region10 emptyGrid (by decide) (by decide)
      (by decide) (by decide)).1 (9, 9) (by decide),
    by decide, by decide,
    (accesses_in_bounds 10 10 1 0 8 9 4 region10 singleCellGrid (by decide) (by decide)
      (by decide) (by decide)).2 (2, 3) (by decide),
    (accesses_in_bounds 10 10 1 0 8 9 4 region10 singleCellGrid (by decide) (by decide)
      (by decide) (by decide)).2 (6, 3) (by decide)⟩

/-! ## Landing on free cells -/

/-- A found `landRow` is the row above the least failing row of the scan window. -/
theorem scanLandRow_found (pieceType rotation col : Int) (mon : MonitorGrid) (landed : Landed)
    (checkFrom endRow : Int)
    (hne : scanLandRow pieceType rotation col mon landed checkFrom endRow ≠ -999) :
    ∃ t0 : Int, scanLandRow pieceType rotation col mon landed checkFrom endRow = t0 - 1 ∧
      (checkFrom ≤ t0 ∧ t0 ≤ endRow) ∧
      CanPieceFitAt pieceType rotation t0 col mon landed = false ∧
      ∀ u : Int, checkFrom ≤ u → u < t0 →
        CanPieceFitAt pieceType rotation u col mon landed = true := by
  unfold scanLandRow at hne ⊢
  cases hf : findUp (fun testRow => !CanPieceFitAt pieceType rotation testRow col mon landed)
      (endRow + 1 - checkFrom).toNat checkFrom with
  | none =>
    rw [hf] at hne
    exact absurd rfl hne
  | some t0 =>
    obtain ⟨h1, h2, h3, h4⟩ := (findUp_eq_some_iff _ _ _ _).1 hf
    refine ⟨t0, rfl, ⟨h1, by omega⟩, by simpa using h3, fun u hu1 hu2 => ?_⟩
    simpa using h4 u hu1 hu2

/-- A piece that fits at an anchor row covers no filled cell of the region. -/
theorem fits_covers_free (pieceType rotation row col : Int) (mon : MonitorGrid)
    (landed : Landed)
    (hfit : CanPieceFitAt pieceType rotation row col mon landed = true)
    (i j : Nat) (hi : i < 4) (hj : j < 4) (hm : maskCell pieceType rotation i j = true)
    (hrow : mon.top ≤ row + (i : Int) ∧ row + (i : Int) < mon.bottom)
    (hcol : mon.left ≤ col + (j : Int) - 1 ∧ col + (j : Int) - 1 < mon.right) :
    (landed (row + (i : Int)) (col + (j : Int) - 1)).filled = false := by
  cases hfilled : (landed (row + (i : Int)) (col + (j : Int) - 1)).filled
  · rfl
  · have hfail : CanPieceFitAt pieceType rotation row col mon landed = false := by
      rw [CanPieceFitAt_eq_false_iff]
      exact ⟨i, j, hi, hj, (cellFits_eq_false_iff _ _ _ _ _ _ _ _).2
        ⟨hm, hrow.1, hcol.1, hcol.2, Or.inr hfilled⟩⟩
    rw [hfit] at hfail
    exact Bool.noConfusion hfail

/-- C23: landing does not overwrite settled blocks inside the region. In one `Update` step
of a piece-bearing stream that lands (its scan finds `landRow`): the grid after the step
is that of `LandPiece` at head row `landRow`; if the first scanned row `max((int)y, -3)`
fits, then `landRow` is one of the rows that passed `CanPieceFitAt` and every cell written
by `LandPiece` that lies inside the region rectangle of the stream was unfilled before the
write; so only when the very first scanned row already fails can the landing write onto an
already filled cell of the region. -/
theorem landing_on_free_cells (gridRows gridCols : Int) (mon : MonitorGrid)
    (monitorClearing : Bool) (landed : Landed) (s : MatrixStream) (rng : Rng)
    (landRow : Int) (hp : s.hasPiece = true)
    (hend : truncInt (s.y + (preMove mon landed s rng).1.speed * speedMulOf monitorClearing)
      ≥ -3)
    (hscan : scanLandRow s.pieceType (preMove mon landed s rng).1.rotation s.col mon landed
      (max (truncInt s.y) (-3))
      (truncInt (s.y + (preMove mon landed s rng).1.speed * speedMulOf monitorClearing))
      = landRow)
    (hland : landRow ≠ -999) :
    (updateStream gridRows gridCols mon monitorClearing landed s rng).1 =
      LandPiece gridRows gridCols landed
        { (preMove mon landed s rng).1 with y := (landRow : ℚ) } ∧
    (CanPieceFitAt s.pieceType (preMove mon landed s rng).1.rotation
        (max (truncInt s.y) (-3)) s.col mon landed = true →
      CanPieceFitAt s.pieceType (preMove mon landed s rng).1.rotation landRow s.col mon landed
        = true ∧
      ∀ (i j : Nat) (gr gc : Int), i < 4 → j < 4 →
        maskCell s.pieceType (preMove mon landed s rng).1.rotation i j = true →
        gr = landRow + (i : Int) → gc = s.col + (j : Int) - 1 →
        (mon.top ≤ gr ∧ gr < mon.bottom) ∧ mon.left ≤ gc ∧ gc < mon.right →
        (landed gr gc).filled = false) ∧
    ((∃ (i j : Nat) (gr gc : Int), i < 4 ∧ j < 4 ∧
        maskCell s.pieceType (preMove mon landed s rng).1.rotation i j = true ∧
        gr = landRow + (i : Int) ∧ gc = s.col + (j : Int) - 1 ∧
        ((mon.top ≤ gr ∧ gr < mon.bottom) ∧ mon.left ≤ gc ∧ gc < mon.right) ∧
        (landed gr gc).filled = true) →
      CanPieceFitAt s.pieceType (preMove mon landed s rng).1.rotation
        (max (truncInt s.y) (-3)) s.col mon landed = false) := by
  obtain ⟨hy, hcol, hpt, hhp, _⟩ := preMove_fields mon landed s rng
  have hmove := moveStream_landing gridRows gridCols mon (speedMulOf monitorClearing) landed
    (preMove mon landed s rng).1 (preMove mon landed s rng).2 landRow
    (by rw [hhp]; exact hp) (by rw [hy]; exact hend) (by rw [hy, hcol, hpt]; exact hscan) hland
  obtain ⟨t0, ht0, ⟨h1, _⟩, hfail, hfits⟩ :=
    scanLandRow_found _ _ _ _ _ _ _ (by rw [hscan]; exact hland)
  rw [hscan] at ht0
  have key : CanPieceFitAt s.pieceType (preMove mon landed s rng).1.rotation
      (max (truncInt s.y) (-3)) s.col mon landed = true →
      CanPieceFitAt s.pieceType (preMove mon landed s rng).1.rotation landRow s.col mon landed
        = true := by
    intro hfirst
    have hne : t0 ≠ max (truncInt s.y) (-3) := by
      intro h
      rw [h, hfirst] at hfail
      exact Bool.noConfusion hfail
    exact hfits landRow (by omega) (by omega)
  refine ⟨?_, fun hfirst => ⟨key hfirst, ?_⟩, ?_⟩
  · show (moveStream gridRows gridCols mon (speedMulOf monitorClearing) landed
      (preMove mon landed s rng).1 (preMove mon landed s rng).2).1 = _
    rw [hmove]
  · intro i j gr gc hi hj hm hgr hgc hreg
    subst hgr hgc
    exact fits_covers_free _ _ _ _ _ _ (key hfirst) i j hi hj hm hreg.1 hreg.2
  · rintro ⟨i, j, gr, gc, hi, hj, hm, hgr, hgc, hreg, hfilled⟩
    subst hgr hgc
    cases hfirst : CanPieceFitAt s.pieceType (preMove mon landed s rng).1.rotation
        (max (truncInt s.y) (-3)) s.col mon landed
    · rfl
    · have := fits_covers_free _ _ _ _ _ _ (key hfirst) i j hi hj hm hreg.1 hreg.2
      rw [this] at hfilled
      exact Bool.noConfusion hfilled

/-- Landing row of scenario D: the scan from row 5 to row 11 stops at row 8, so the piece
lands at head row 7. -/
theorem fastStream_scan :
    scanLandRow fastStream.pieceType (preMove region10 floorGrid fastStream rngOnes).1.rotation
      fastStream.col region10 floorGrid (max (truncInt fastStream.y) (-3))
      (truncInt (fastStream.y +
        (preMove region10 floorGrid fastStream rngOnes).1.speed * speedMulOf false)) = 7 := by
  rw [fastStream_rows.1, fastStream_rows.2, preMove_fastStream]
  decide

/-- Witness of C23 (scenario D): the O piece at head row 5 above the filled row 9 lands at
head row 7; its first scanned row 5 fits, and the cells it writes, among them (7, 6) and
(8, 5), were unfilled before the write. -/
theorem landing_on_free_cells_witness :
    fastStream.hasPiece = true ∧
    truncInt (fastStream.y +
      (preMove region10 floorGrid fastStream rngOnes).1.speed * speedMulOf false) ≥ -3 ∧
    scanLandRow fastStream.pieceType (preMove region10 floorGrid fastStream rngOnes).1.rotation
      fastStream.col region10 floorGrid (max (truncInt fastStream.y) (-3))
      (truncInt (fastStream.y +
        (preMove region10 floorGrid fastStream rngOnes).1.speed * speedMulOf false)) = 7 ∧
    (7 : Int) ≠ -999 ∧
    CanPieceFitAt fastStream.pieceType
      (preMove region10 floorGrid fastStream rngOnes).1.rotation
      (max (truncInt fastStream.y) (-3)) fastStream.col region10 floorGrid = true ∧
    CanPieceFitAt fastStream.pieceType
      (preMove region10 floorGrid fastStream rngOnes).1.rotation 7 fastStream.col region10
      floorGrid = true ∧
    (floorGrid 7 6).filled = false ∧
    (floorGrid 8 5).filled = false := by
  have hend : truncInt (fastStream.y +
      (preMove region10 floorGrid fastStream rngOnes).1.speed * speedMulOf false) ≥ -3 := by
    rw [fastStream_rows.2]; decide
  have hfirst : CanPieceFitAt fastStream.pieceType
      (preMove region10 floorGrid fastStream rngOnes).1.rotation
      (max (truncInt fastStream.y) (-3)) fastStream.col region10 floorGrid = true := by
    rw [fastStream_rows.1, preMove_fastStream]; decide
  have hmask0 : maskCell fastStream.pieceType
      (preMove region10 floorGrid fastStream rngOnes).1.rotation 0 2 = true := by
    rw [preMove_fastStream]; decide
  have hmask1 : maskCell fastStream.pieceType
      (preMove region10 floorGrid fastStream rngOnes).1.rotation 1 1 = true := by
    rw [preMove_fastStream]; decide
  obtain ⟨_, hfree, _⟩ := landing_on_free_cells 10 10 region10 false floorGrid fastStream
    rngOnes 7 rfl hend fastStream_scan (by decide)
  obtain ⟨hfit, hcells⟩ := hfree hfirst
  refine ⟨rfl, hend, fastStream_scan, by decide, hfirst, hfit,
    hcells 0 2 7 6 (by decide) (by decide) hmask0 (by decide) (by decide) (by decide),
    hcells 1 1 8 5 (by decide) (by decide) hmask1 (by decide) (by decide) (by decide)⟩

/-- A landing whose first scanned row fails can overwrite: an O piece whose head row 8 lies
inside four filled rows fails at its first scanned row, lands at head row 7 and overwrites
the filled cell (7, 5) with its own colour. -/
theorem landing_overwrite_example :
    CanPieceFitAt streamO.pieceType (preMove region10 fullRowsGrid streamO rngOnes).1.rotation
      (max (truncInt streamO.y) (-3)) streamO.col region10 fullRowsGrid = false ∧
    fullRowsGrid 7 5 = ⟨true, RGB 0 255 100, 255⟩ ∧
    (updateStream 10 10 region10 false fullRowsGrid streamO rngOnes).1 7 5 =
      ⟨true, RGB 0 200 80, 255⟩ := by
  have hpre : (preMove region10 fullRowsGrid streamO rngOnes).1 =
      { streamO with ticksToRotate := 29, ticksToHardDrop := 499 } := rfl
  have hy : truncInt streamO.y = 8 := truncInt_intCast 8
  have hend : truncInt (streamO.y +
      (preMove region10 fullRowsGrid streamO rngOnes).1.speed * speedMulOf false) = 9 := by
    rw [hpre]
    have : streamO.y + ({ streamO with ticksToRotate := 29, ticksToHardDrop := 499 } :
        MatrixStream).speed * speedMulOf false = ((9 : Int) : ℚ) := by
      show ((8 : Int) : ℚ) + (1 : ℚ) * speedMulOf false = ((9 : Int) : ℚ)
      norm_num [speedMulOf]
    rw [this]
    exact truncInt_intCast 9
  obtain ⟨hy1, hcol, hpt, hhp, _⟩ := preMove_fields region10 fullRowsGrid streamO rngOnes
  have hscan : scanLandRow (preMove region10 fullRowsGrid streamO rngOnes).1.pieceType
      (preMove region10 fullRowsGrid streamO rngOnes).1.rotation
      (preMove region10 fullRowsGrid streamO rngOnes).1.col region10 fullRowsGrid
      (max (truncInt (preMove region10 fullRowsGrid streamO rngOnes).1.y) (-3))
      (truncInt ((preMove region10 fullRowsGrid streamO rngOnes).1.y +
        (preMove region10 fullRowsGrid streamO rngOnes).1.speed * speedMulOf false)) = 7 := by
    rw [hy1, hend, hy, hpre]
    decide
  have hmove := moveStream_landing 10 10 region10 (speedMulOf false) fullRowsGrid
    (preMove region10 fullRowsGrid streamO rngOnes).1
    (preMove region10 fullRowsGrid streamO rngOnes).2 7
    (by rw [hhp]; rfl) (by rw [hy1, hend]; decide) hscan (by decide)
  refine ⟨by rw [hy, hpre]; decide, by decide, ?_⟩
  show (moveStream 10 10 region10 (speedMulOf false) fullRowsGrid
    (preMove region10 fullRowsGrid streamO rngOnes).1
    (preMove region10 fullRowsGrid streamO rngOnes).2).1 7 5 = _
  rw [hmove, hpre]
  have h7 : truncInt (((7 : Int) : ℚ)) = 7 := truncInt_intCast 7
  have hw : landWrites 10 10
      ({ ({ streamO with ticksToRotate := 29, ticksToHardDrop := 499 } : MatrixStream) with
        y := ((7 : Int) : ℚ) } : MatrixStream)
      (truncInt (((7 : Int) : ℚ))) 5 0 1 7 5 := by
    rw [h7]
    exact ⟨by decide, by decide, by decide, by decide, by decide, by decide, by decide⟩
  exact (LandPiece_apply 10 10 fullRowsGrid
    ({ ({ streamO with ticksToRotate := 29, ticksToHardDrop := 499 } : MatrixStream) with
      y := ((7 : Int) : ℚ) } : MatrixStream) 7 5).1 ⟨0, 1, by decide, by decide, hw⟩

/-! ## The drop phase ends -/

/-- A drop phase whose remaining distance `dropTarget - dropOffset` is at most `3 n` ends
within `n` controller steps: the controller stays in the drop phase and leaves the grid
alone for `k` steps, and step `k + 1 ≤ n` sets the offset to the target, applies the
gravity shift and returns to idle. -/
theorem drop_run (m : MonitorGrid) (n : Nat) :
    ∀ (env : Nat → Landed → Landed) (g : Landed) (mci : MonitorClearInfo),
      mci.phase = CLEAR_DROP → 0 ≤ mci.dropOffset → mci.dropOffset < mci.dropTarget →
      mci.dropTarget - mci.dropOffset ≤ 3 * (n : ℚ) →
      ∃ k : Nat, k + 1 ≤ n ∧
        (∀ i : Nat, i ≤ k → (runClear m env i (g, mci)).2.phase = CLEAR_DROP) ∧
        (∀ i : Nat, i < k →
          (runClear m env (i + 1) (g, mci)).1 = env i (runClear m env i (g, mci)).1) ∧
        (runClear m env (k + 1) (g, mci)).2.phase = CLEAR_IDLE ∧
        (runClear m env (k + 1) (g, mci)).2.dropOffset = mci.dropTarget ∧
        (runClear m env (k + 1) (g, mci)).1 =
          ApplyGravityForMonitor m (mci.rows.length : Int)
            (env k (runClear m env k (g, mci)).1) := by
  induction n with
  | zero =>
    intro env g mci _ _ hlt hn
    simp only [Nat.cast_zero, mul_zero] at hn
    linarith
  | succ n ih =>
    intro env g mci hp h0 hlt hn
    have h1 : runClear m env 1 (g, mci) = updateClear m (env 0 g) mci := rfl
    by_cases hge : mci.dropOffset + (3 + mci.dropOffset * (5 / 100)) ≥ mci.dropTarget
    · refine ⟨0, by omega, ?_, ?_, ?_⟩
      · intro i hi
        have hi0 : i = 0 := by omega
        subst hi0
        exact hp
      · intro i hi
        omega
      · show (runClear m env 1 (g, mci)).2.phase = CLEAR_IDLE ∧
          (runClear m env 1 (g, mci)).2.dropOffset = mci.dropTarget ∧
          (runClear m env 1 (g, mci)).1 =
            ApplyGravityForMonitor m (mci.rows.length : Int) (env 0 g)
        rw [h1, updateClear_drop_reach m (env 0 g) mci hp hlt hge]
        exact ⟨rfl, rfl, rfl⟩
    · have hstep := updateClear_drop_advance m (env 0 g) mci hp hlt hge
      have hpos : 0 ≤ mci.dropOffset * (5 / 100) := mul_nonneg h0 (by norm_num)
      have hcast : ((n + 1 : Nat) : ℚ) = (n : ℚ) + 1 := by push_cast; ring
      rw [hcast] at hn
      obtain ⟨k, hk, hph, hgr, hfin1, hfin2, hfin3⟩ := ih (fun i => env (i + 1)) (env 0 g)
        { mci with dropOffset := mci.dropOffset + (3 + mci.dropOffset * (5 / 100)) }
        hp (by show 0 ≤ mci.dropOffset + (3 + mci.dropOffset * (5 / 100)); linarith)
        (by
          show mci.dropOffset + (3 + mci.dropOffset * (5 / 100)) < mci.dropTarget
          exact lt_of_not_ge hge)
        (by
          show mci.dropTarget - (mci.dropOffset + (3 + mci.dropOffset * (5 / 100))) ≤ 3 * (n : ℚ)
          linarith)
      have hshift : ∀ i : Nat, runClear m env (i + 1) (g, mci) =
          runClear m (fun i => env (i + 1)) i (env 0 g,
            { mci with dropOffset := mci.dropOffset + (3 + mci.dropOffset * (5 / 100)) }) := by
        intro i
        rw [runClear_succ_first]
        show runClear m _ i (updateClear m (env 0 g) mci) = _
        rw [hstep]
      refine ⟨k + 1, by omega, ?_, ?_, ?_, ?_, ?_⟩
      · intro i hi
        cases i with
        | zero => exact hp
        | succ i =>
          rw [hshift]
          exact hph i (by omega)
      · intro i hi
        cases i with
        | zero =>
          show (runClear m env 1 (g, mci)).1 = env 0 g
          rw [h1, hstep]
        | succ i =>
          rw [hshift (i + 1), hshift i]
          exact hgr i (by omega)
      · rw [hshift]
        exact hfin1
      · rw [hshift]
        exact hfin2
      · rw [hshift (k + 1), hshift k]
        exact hfin3

/-- C24: the drop phase always ends. For a controller in `CLEAR_DROP` with `dropOffset = 0`
and `dropTarget = T > 0` (exact arithmetic), whatever the rest of each tick does to the
grid (`env`): there is a step number `k + 1 ≤ ceil(T / 3)` such that the phase is
`CLEAR_DROP` before each of the steps `1 .. k + 1`, the controller leaves the grid untouched
in the steps `1 .. k`, and step `k + 1` leaves the phase `CLEAR_IDLE`, the offset equal to
`T`, and the grid equal to one application of `ApplyGravityForMonitor` with
`numRows = rows.size()` to the grid that step received. So the gravity shift is applied
exactly once, in the step that ends the phase. -/
theorem drop_phase_ends (m : MonitorGrid) (env : Nat → Landed → Landed) (g : Landed)
    (mci : MonitorClearInfo) (hphase : mci.phase = CLEAR_DROP) (hoff : mci.dropOffset = 0)
    (hT : 0 < mci.dropTarget) :
    ∃ k : Nat, ((k : Int) + 1 ≤ ⌈mci.dropTarget / 3⌉) ∧
      (∀ i : Nat, i ≤ k → (runClear m env i (g, mci)).2.phase = CLEAR_DROP) ∧
      (∀ i : Nat, i < k →
        (runClear m env (i + 1) (g, mci)).1 = env i (runClear m env i (g, mci)).1) ∧
      (runClear m env (k + 1) (g, mci)).2.phase = CLEAR_IDLE ∧
      (runClear m env (k + 1) (g, mci)).2.dropOffset = mci.dropTarget ∧
      (runClear m env (k + 1) (g, mci)).1 =
        ApplyGravityForMonitor m (mci.rows.length : Int)
          (env k (runClear m env k (g, mci)).1) := by
  have hceil0 : 0 ≤ ⌈mci.dropTarget / 3⌉ := Int.ceil_nonneg (by positivity)
  have hle : mci.dropTarget / 3 ≤ ((⌈mci.dropTarget / 3⌉ : Int) : ℚ) := Int.le_ceil _
  have hnat : ((⌈mci.dropTarget / 3⌉.toNat : Nat) : Int) = ⌈mci.dropTarget / 3⌉ :=
    Int.toNat_of_nonneg hceil0
  have hnatq : ((⌈mci.dropTarget / 3⌉.toNat : Nat) : ℚ) = ((⌈mci.dropTarget / 3⌉ : Int) : ℚ) := by
    calc ((⌈mci.dropTarget / 3⌉.toNat : Nat) : ℚ)
        = (((⌈mci.dropTarget / 3⌉.toNat : Nat) : Int) : ℚ) := (Int.cast_natCast _).symm
      _ = ((⌈mci.dropTarget / 3⌉ : Int) : ℚ) := by rw [hnat]
  obtain ⟨k, hk, hrest⟩ := drop_run m ⌈mci.dropTarget / 3⌉.toNat env g mci hphase
    (by rw [hoff]) (by rw [hoff]; exact hT)
    (by rw [hoff, hnatq]; linarith)
  refine ⟨k, ?_, hrest⟩
  rw [← hnat]
  exact_mod_cast hk

/-- Witness of C24 (scenario A): the drop phase entered after the flash of four full rows
has `dropOffset = 0` and `dropTarget = 64`, and it ends within `ceil(64 / 3) = 22`
controller steps with one gravity shift by 4 rows. -/
theorem drop_phase_ends_witness :
    dropStart.2.phase = CLEAR_DROP ∧ dropStart.2.dropOffset = 0 ∧
    0 < dropStart.2.dropTarget ∧
    ∃ k : Nat, ((k : Int) + 1 ≤ 22) ∧
      (runClear region10 (fun _ g => g) (k + 1) (dropStart.1, dropStart.2)).2.phase
        = CLEAR_IDLE ∧
      (runClear region10 (fun _ g => g) (k + 1) (dropStart.1, dropStart.2)).2.dropOffset
        = ((64 : Int) : ℚ) ∧
      (runClear region10 (fun _ g => g) (k + 1) (dropStart.1, dropStart.2)).1 =
        ApplyGravityForMonitor region10 4
          (runClear region10 (fun _ g => g) k (dropStart.1, dropStart.2)).1 := by
  obtain ⟨hp, ho, ht, hr⟩ := runClear_scenario_drop
  have hp' : dropStart.2.phase = CLEAR_DROP := hp
  have ho' : dropStart.2.dropOffset = 0 := ho
  have ht' : dropStart.2.dropTarget = ((64 : Int) : ℚ) := ht
  have hr' : dropStart.2.rows = [6, 7, 8, 9] := hr
  have hT : 0 < dropStart.2.dropTarget := by rw [ht']; norm_num
  have hceil : ⌈dropStart.2.dropTarget / 3⌉ = 22 := by
    rw [ht', Int.ceil_eq_iff]
    constructor <;> norm_num
  obtain ⟨k, hk, _, _, h1, h2, h3⟩ :=
    drop_phase_ends region10 (fun _ g => g) dropStart.1 dropStart.2 hp' ho' hT
  rw [hceil] at hk
  rw [ht'] at h2
  rw [hr'] at h3
  exact ⟨hp', ho', hT, k, hk, h1, h2, h3⟩

end MatrixTetromino
